import Mathlib

/-! Fantasy sports team manager: a shallow embedding of `SportsTeamManager.cpp`.

The C++ program keeps `Player`, `Team` and `Matchup` objects on the heap and
passes raw pointers around.  The embedding makes that memory explicit:

* a `Player*` is the allocation index of the object in `League.heap`
  (the objects are created once, by `initializePlayers`, and never freed
  before the league is destroyed);
* a `Team*` is the position of the team in `League.teams` (teams are only
  ever appended, so the position of a team never changes);
* dereferencing a pointer that designates no object has no defined
  behaviour; the operations return `none` there.

`int` is a 32 bit signed integer and `size_t` a 64 bit unsigned one; the two
conversions the program performs are `toInt32` and `toSizeT`.  Counters that
are only ever incremented (`wins`, `gamesPlayed`, ...) are unbounded
integers.

A `double` is given by the rational number it stands for.  The methods are
embedded twice: once with exact arithmetic on these numbers (`Player.simulateGamePerformance`,
`Team.simulateGame`, `Matchup.simulate`), which the results on bounds,
orderings and the structure of the state use, and once with the arithmetic of
the machine, where every operation is rounded to the nearest binary64 value
(`IEEE.Player.simulateGamePerformance`, `IEEE.Team.simulateGame`,
`IEEE.Matchup.simulate`), which the results on the value of `fantasyPoints`
and on equal scores use.

Randomness is an explicit input: a random source gives the value of every
draw `uniform_int_distribution(lo, hi)(gen)` and is read through a cursor, and
the outcome of `std::shuffle` is an argument of `generateMatchups`.  The
library routine `std::sort` is embedded as the algorithm of the GNU C++
library.
-/

/-- Positions of the enum class `Position`. -/
inductive Position where
  | QUARTERBACK
  | RUNNING_BACK
  | WIDE_RECEIVER
  | TIGHT_END
  | KICKER
  | DEFENSE
  deriving DecidableEq, Repr

/-- The conversion of a `size_t` value to `int` (two's complement wrap). -/
def toInt32 (n : Int) : Int := (n + 2147483648) % 4294967296 - 2147483648

/-- The conversion of an `int` to `size_t` in a mixed comparison. -/
def toSizeT (x : Int) : Nat := (x % 18446744073709551616).toNat

/-- The values an `int` can hold. -/
def IsInt32 (x : Int) : Prop := -2147483648 ≤ x ∧ x < 2147483648

instance (x : Int) : Decidable (IsInt32 x) := by
  unfold IsInt32; infer_instance

/-- The data members of class `Player`. -/
structure Player where
  id : Int
  name : String
  position : Position
  team : String
  gamesPlayed : Int
  passingYards : Int
  passingTouchdowns : Int
  interceptions : Int
  rushingYards : Int
  rushingTouchdowns : Int
  receivingYards : Int
  receivingTouchdowns : Int
  fieldGoals : Int
  extraPoints : Int
  sacks : Int
  defensiveInterceptions : Int
  defensiveTouchdowns : Int
  fantasyPoints : ℚ
  deriving DecidableEq

/-- The constructor `Player::Player`. -/
def Player.ctor (id : Int) (name : String) (position : Position) (team : String) : Player :=
  { id := id, name := name, position := position, team := team,
    gamesPlayed := 0, passingYards := 0, passingTouchdowns := 0, interceptions := 0,
    rushingYards := 0, rushingTouchdowns := 0, receivingYards := 0, receivingTouchdowns := 0,
    fieldGoals := 0, extraPoints := 0, sacks := 0, defensiveInterceptions := 0,
    defensiveTouchdowns := 0, fantasyPoints := 0 }

/-- A random source: `rng k lo hi` is the value of the `k`-th draw when it is
made from `std::uniform_int_distribution<>(lo, hi)`. -/
abbrev Rng := Nat → Int → Int → Int

/-- Every draw lies in the closed range of its distribution. -/
def Rng.InRange (rng : Rng) : Prop :=
  ∀ (k : Nat) (lo hi : Int), lo ≤ hi → lo ≤ rng k lo hi ∧ rng k lo hi ≤ hi

/-- The `if` chain on `pointsAllowed` at the end of the DEFENSE case: the
amount it adds to `gamePoints`. -/
def pointsAllowedBonus (pointsAllowed : Int) : ℚ :=
  if pointsAllowed = 0 then 10
  else if pointsAllowed ≤ 6 then 7
  else if pointsAllowed ≤ 13 then 4
  else if pointsAllowed ≤ 20 then 1
  else if pointsAllowed ≤ 27 then 0
  else if pointsAllowed ≤ 34 then -1
  else -4

/-- The method `Player::simulateGamePerformance`, drawing from cursor `k` on: the
player afterwards and the cursor after the draws of the call.  The products
and sums of `double` are taken exactly here;
`IEEE.Player.simulateGamePerformance` rounds them as the machine does. -/
def Player.simulateGamePerformance (p : Player) (rng : Rng) (k : Nat) : Player × Nat :=
  let p := { p with gamesPlayed := p.gamesPlayed + 1 }
  let gamePoints : ℚ := 0
  match p.position with
  | .QUARTERBACK =>
    let gamePassingYards := rng k 150 400
    let p := { p with passingYards := p.passingYards + gamePassingYards }
    let gamePoints := gamePoints + (gamePassingYards : ℚ) * 0.04
    let gamePassingTDs := rng (k + 1) 0 4
    let p := { p with passingTouchdowns := p.passingTouchdowns + gamePassingTDs }
    let gamePoints := gamePoints + (gamePassingTDs : ℚ) * 4
    let gameInterceptions := rng (k + 2) 0 3
    let p := { p with interceptions := p.interceptions + gameInterceptions }
    let gamePoints := gamePoints - (gameInterceptions : ℚ) * 2
    let gameRushingYards := rng (k + 3) 0 50
    let p := { p with rushingYards := p.rushingYards + gameRushingYards }
    let gamePoints := gamePoints + (gameRushingYards : ℚ) * 0.1
    let gameRushingTDs := rng (k + 4) 0 1
    let p := { p with rushingTouchdowns := p.rushingTouchdowns + gameRushingTDs }
    let gamePoints := gamePoints + (gameRushingTDs : ℚ) * 6
    ({ p with fantasyPoints := p.fantasyPoints + gamePoints }, k + 5)
  | .RUNNING_BACK =>
    let gameRushingYards := rng k 30 150
    let p := { p with rushingYards := p.rushingYards + gameRushingYards }
    let gamePoints := gamePoints + (gameRushingYards : ℚ) * 0.1
    let gameRushingTDs := rng (k + 1) 0 2
    let p := { p with rushingTouchdowns := p.rushingTouchdowns + gameRushingTDs }
    let gamePoints := gamePoints + (gameRushingTDs : ℚ) * 6
    let gameReceivingYards := rng (k + 2) 0 50
    let p := { p with receivingYards := p.receivingYards + gameReceivingYards }
    let gamePoints := gamePoints + (gameReceivingYards : ℚ) * 0.1
    let gameReceivingTDs := rng (k + 3) 0 1
    let p := { p with receivingTouchdowns := p.receivingTouchdowns + gameReceivingTDs }
    let gamePoints := gamePoints + (gameReceivingTDs : ℚ) * 6
    ({ p with fantasyPoints := p.fantasyPoints + gamePoints }, k + 4)
  | .WIDE_RECEIVER =>
    let gameReceivingYards := rng k 20 150
    let p := { p with receivingYards := p.receivingYards + gameReceivingYards }
    let gamePoints := gamePoints + (gameReceivingYards : ℚ) * 0.1
    let gameReceivingTDs := rng (k + 1) 0 2
    let p := { p with receivingTouchdowns := p.receivingTouchdowns + gameReceivingTDs }
    let gamePoints := gamePoints + (gameReceivingTDs : ℚ) * 6
    ({ p with fantasyPoints := p.fantasyPoints + gamePoints }, k + 2)
  | .TIGHT_END =>
    let gameReceivingYards := rng k 10 100
    let p := { p with receivingYards := p.receivingYards + gameReceivingYards }
    let gamePoints := gamePoints + (gameReceivingYards : ℚ) * 0.1
    let gameReceivingTDs := rng (k + 1) 0 1
    let p := { p with receivingTouchdowns := p.receivingTouchdowns + gameReceivingTDs }
    let gamePoints := gamePoints + (gameReceivingTDs : ℚ) * 6
    ({ p with fantasyPoints := p.fantasyPoints + gamePoints }, k + 2)
  | .KICKER =>
    let gameFieldGoals := rng k 0 5
    let p := { p with fieldGoals := p.fieldGoals + gameFieldGoals }
    let gamePoints := gamePoints + (gameFieldGoals : ℚ) * 3
    let gameExtraPoints := rng (k + 1) 1 5
    let p := { p with extraPoints := p.extraPoints + gameExtraPoints }
    let gamePoints := gamePoints + (gameExtraPoints : ℚ) * 1
    ({ p with fantasyPoints := p.fantasyPoints + gamePoints }, k + 2)
  | .DEFENSE =>
    let gameSacks := rng k 0 5
    let p := { p with sacks := p.sacks + gameSacks }
    let gamePoints := gamePoints + (gameSacks : ℚ) * 1
    let gameDefInterceptions := rng (k + 1) 0 3
    let p := { p with defensiveInterceptions := p.defensiveInterceptions + gameDefInterceptions }
    let gamePoints := gamePoints + (gameDefInterceptions : ℚ) * 2
    let gameDefTDs := rng (k + 2) 0 1
    let p := { p with defensiveTouchdowns := p.defensiveTouchdowns + gameDefTDs }
    let gamePoints := gamePoints + (gameDefTDs : ℚ) * 6
    let pointsAllowed := rng (k + 3) 0 35
    let gamePoints := gamePoints + pointsAllowedBonus pointsAllowed
    ({ p with fantasyPoints := p.fantasyPoints + gamePoints }, k + 4)

/-- A pointer to a `Player` object: its index in the heap. -/
abbrev PlayerPtr := Nat

/-- A pointer to a `Team` object: its position in the team list of the league. -/
abbrev TeamPtr := Nat

/-- The `Player` objects in allocation order. -/
abbrev Heap := List Player

/-- The data members of class `Team`. -/
structure Team where
  name : String
  owner : String
  roster : List PlayerPtr
  activeLineup : List PlayerPtr
  wins : Int
  losses : Int
  totalPoints : ℚ
  deriving DecidableEq

/-- The constructor `Team::Team`. -/
def Team.ctor (name owner : String) : Team :=
  { name := name, owner := owner, roster := [], activeLineup := [],
    wins := 0, losses := 0, totalPoints := 0 }

/-- The search loop `for (p : ptrs) if (p->getId() == id) ...`: the position of
the first pointer whose player has the id, `some none` when the loop ends
without a hit, `none` when it dereferences a pointer to no object. -/
def findById (heap : Heap) : List PlayerPtr → Int → Option (Option Nat)
  | [], _ => some none
  | p :: rest, id =>
    match heap[p]? with
    | none => none
    | some pl =>
      if pl.id = id then some (some 0)
      else
        match findById heap rest id with
        | none => none
        | some none => some none
        | some (some i) => some (some (i + 1))

/-- The method `Team::getRosterSize`. -/
def Team.getRosterSize (t : Team) : Int := toInt32 t.roster.length

/-- The method `Team::getLineupSize`. -/
def Team.getLineupSize (t : Team) : Int := toInt32 t.activeLineup.length

/-- The method `Team::addPlayer`. -/
def Team.addPlayer (heap : Heap) (t : Team) (player : PlayerPtr) : Option (Bool × Team) :=
  match heap[player]? with
  | none =>
    -- `player` is dereferenced inside the loop only: never on an empty roster
    if t.roster = [] then some (true, { t with roster := t.roster ++ [player] }) else none
  | some pl =>
    match findById heap t.roster pl.id with
    | none => none
    | some (some _) => some (false, t)
    | some none => some (true, { t with roster := t.roster ++ [player] })

/-- The method `Team::getPlayerById`; `some none` is the null pointer. -/
def Team.getPlayerById (heap : Heap) (t : Team) (id : Int) : Option (Option PlayerPtr) :=
  match findById heap t.roster id with
  | none => none
  | some none => some none
  | some (some i) => some t.roster[i]?

/-- The method `Team::removePlayer`. -/
def Team.removePlayer (heap : Heap) (t : Team) (playerId : Int) : Option (Bool × Team) :=
  match findById heap t.roster playerId with
  | none => none
  | some none => some (false, t)
  | some (some i) =>
    match findById heap t.activeLineup playerId with
    | none => none
    | some none => some (true, { t with roster := t.roster.eraseIdx i })
    | some (some j) =>
      some (true, { t with roster := t.roster.eraseIdx i,
                           activeLineup := t.activeLineup.eraseIdx j })

/-- The outer loop of `Team::setLineup`, started on the lineup `acc`: the
return value and the lineup the loop leaves behind. -/
def Team.setLineupLoop (heap : Heap) (roster : List PlayerPtr) :
    List Int → List PlayerPtr → Option (Bool × List PlayerPtr)
  | [], acc => some (true, acc)
  | id :: ids, acc =>
    match findById heap roster id with
    | none => none
    | some none => some (false, acc)
    | some (some i) =>
      match roster[i]? with
      | none => none
      | some p => Team.setLineupLoop heap roster ids (acc ++ [p])

/-- The method `Team::setLineup`: the lineup is cleared, then filled. -/
def Team.setLineup (heap : Heap) (t : Team) (playerIds : List Int) : Option (Bool × Team) :=
  match Team.setLineupLoop heap t.roster playerIds [] with
  | none => none
  | some (ok, lineup) => some (ok, { t with activeLineup := lineup })

/-- The loop of `Team::simulateGame`: the score, the heap and the cursor of the
random source after the remaining lineup entries. -/
def Team.simulateGameLoop (rng : Rng) :
    List PlayerPtr → Heap → ℚ → Nat → Option (ℚ × Heap × Nat)
  | [], heap, gameScore, k => some (gameScore, heap, k)
  | p :: rest, heap, gameScore, k =>
    match heap[p]? with
    | none => none
    | some pl =>
      let r := pl.simulateGamePerformance rng k
      Team.simulateGameLoop rng rest (heap.set p r.1) (gameScore + r.1.fantasyPoints) r.2

/-- The method `Team::simulateGame`: the returned score, the heap, the team and
the cursor.  The sums of `double` are taken exactly here;
`IEEE.Team.simulateGame` rounds them as the machine does. -/
def Team.simulateGame (rng : Rng) (heap : Heap) (t : Team) (k : Nat) :
    Option (ℚ × Heap × Team × Nat) :=
  match Team.simulateGameLoop rng t.activeLineup heap 0 k with
  | none => none
  | some (gameScore, heap', k') =>
    some (gameScore, heap', { t with totalPoints := t.totalPoints + gameScore }, k')

/-- The method `Team::updateRecord`. -/
def Team.updateRecord (t : Team) (isWin : Bool) : Team :=
  if isWin then { t with wins := t.wins + 1 } else { t with losses := t.losses + 1 }

/-- The data members of class `Matchup`. -/
structure Matchup where
  homeTeam : TeamPtr
  awayTeam : TeamPtr
  homeScore : ℚ
  awayScore : ℚ
  isCompleted : Bool
  deriving DecidableEq

/-- The constructor `Matchup::Matchup`. -/
def Matchup.ctor (home away : TeamPtr) : Matchup :=
  { homeTeam := home, awayTeam := away, homeScore := 0, awayScore := 0, isCompleted := false }

/-- The method `Matchup::simulate`, on the teams and the heap it reaches through
its two pointers: the matchup, the heap, the teams and the cursor afterwards.
The scores it compares are the exact sums here; `IEEE.Matchup.simulate`
compares the rounded scores of the machine. -/
def Matchup.simulate (rng : Rng) (m : Matchup) (heap : Heap) (teams : List Team) (k : Nat) :
    Option (Matchup × Heap × List Team × Nat) :=
  match teams[m.homeTeam]? with
  | none => none
  | some home =>
    if home.getLineupSize = 0 then some (m, heap, teams, k)
    else
      match teams[m.awayTeam]? with
      | none => none
      | some away =>
        if away.getLineupSize = 0 then some (m, heap, teams, k)
        else
          match Team.simulateGame rng heap home k with
          | none => none
          | some (homeScore, heap1, home1, k1) =>
            let teams1 := teams.set m.homeTeam home1
            match teams1[m.awayTeam]? with
            | none => none
            | some away1 =>
              match Team.simulateGame rng heap1 away1 k1 with
              | none => none
              | some (awayScore, heap2, away2, k2) =>
                let teams2 := teams1.set m.awayTeam away2
                let teams3 :=
                  if homeScore > awayScore then
                    (teams2.modify (fun t => t.updateRecord true) m.homeTeam).modify
                      (fun t => t.updateRecord false) m.awayTeam
                  else if awayScore > homeScore then
                    (teams2.modify (fun t => t.updateRecord false) m.homeTeam).modify
                      (fun t => t.updateRecord true) m.awayTeam
                  else
                    (teams2.modify (fun t => t.updateRecord false) m.homeTeam).modify
                      (fun t => t.updateRecord false) m.awayTeam
                some ({ m with homeScore := homeScore, awayScore := awayScore,
                               isCompleted := true },
                      heap2, teams3, k2)

/-- The data members of class `League`, and the `Player` objects it allocated. -/
structure League where
  name : String
  teams : List Team
  availablePlayers : List PlayerPtr
  schedule : List Matchup
  currentWeek : Int
  maxTeams : Int
  rosterSize : Int
  lineupSize : Int
  heap : Heap
  deriving DecidableEq

/-- The objects `League::initializePlayers` allocates, in allocation order. -/
def League.catalog : List Player :=
  [ Player.ctor 1 "Patrick Mahomes" .QUARTERBACK "Kansas City",
    Player.ctor 2 "Josh Allen" .QUARTERBACK "Buffalo",
    Player.ctor 3 "Lamar Jackson" .QUARTERBACK "Baltimore",
    Player.ctor 4 "Joe Burrow" .QUARTERBACK "Cincinnati",
    Player.ctor 5 "Justin Herbert" .QUARTERBACK "Los Angeles",
    Player.ctor 6 "Jalen Hurts" .QUARTERBACK "Philadelphia",
    Player.ctor 7 "Christian McCaffrey" .RUNNING_BACK "San Francisco",
    Player.ctor 8 "Derrick Henry" .RUNNING_BACK "Tennessee",
    Player.ctor 9 "Jonathan Taylor" .RUNNING_BACK "Indianapolis",
    Player.ctor 10 "Nick Chubb" .RUNNING_BACK "Cleveland",
    Player.ctor 11 "Saquon Barkley" .RUNNING_BACK "New York",
    Player.ctor 12 "Austin Ekeler" .RUNNING_BACK "Los Angeles",
    Player.ctor 13 "Alvin Kamara" .RUNNING_BACK "New Orleans",
    Player.ctor 14 "Dalvin Cook" .RUNNING_BACK "Minnesota",
    Player.ctor 15 "Justin Jefferson" .WIDE_RECEIVER "Minnesota",
    Player.ctor 16 "Tyreek Hill" .WIDE_RECEIVER "Miami",
    Player.ctor 17 "Davante Adams" .WIDE_RECEIVER "Las Vegas",
    Player.ctor 18 "Cooper Kupp" .WIDE_RECEIVER "Los Angeles",
    Player.ctor 19 "Stefon Diggs" .WIDE_RECEIVER "Buffalo",
    Player.ctor 20 "CeeDee Lamb" .WIDE_RECEIVER "Dallas",
    Player.ctor 21 "A.J. Brown" .WIDE_RECEIVER "Philadelphia",
    Player.ctor 22 "Ja\x27Marr Chase" .WIDE_RECEIVER "Cincinnati",
    Player.ctor 23 "Deebo Samuel" .WIDE_RECEIVER "San Francisco",
    Player.ctor 24 "Mike Evans" .WIDE_RECEIVER "Tampa Bay",
    Player.ctor 25 "Travis Kelce" .TIGHT_END "Kansas City",
    Player.ctor 26 "Mark Andrews" .TIGHT_END "Baltimore",
    Player.ctor 27 "George Kittle" .TIGHT_END "San Francisco",
    Player.ctor 28 "T.J. Hockenson" .TIGHT_END "Detroit",
    Player.ctor 29 "Dallas Goedert" .TIGHT_END "Philadelphia",
    Player.ctor 30 "Justin Tucker" .KICKER "Baltimore",
    Player.ctor 31 "Harrison Butker" .KICKER "Kansas City",
    Player.ctor 32 "Evan McPherson" .KICKER "Cincinnati",
    Player.ctor 33 "Tyler Bass" .KICKER "Buffalo",
    Player.ctor 34 "San Francisco 49ers" .DEFENSE "San Francisco",
    Player.ctor 35 "Dallas Cowboys" .DEFENSE "Dallas",
    Player.ctor 36 "Buffalo Bills" .DEFENSE "Buffalo",
    Player.ctor 37 "New England Patriots" .DEFENSE "New England",
    Player.ctor 38 "Pittsburgh Steelers" .DEFENSE "Pittsburgh" ]

/-- The constructor `League::League`: `initializePlayers` allocates the catalog
and pushes the pointers, in allocation order, onto `availablePlayers`. -/
def League.ctor (name : String) (maxTeams rosterSize lineupSize : Int) : League :=
  { name := name, teams := [], availablePlayers := List.range League.catalog.length,
    schedule := [], currentWeek := 1, maxTeams := maxTeams, rosterSize := rosterSize,
    lineupSize := lineupSize, heap := League.catalog }

/-- The name loop of `League::registerTeam`. -/
def League.nameTaken (teams : List Team) (teamName : String) : Bool :=
  teams.any (fun t => t.name == teamName)

/-- The method `League::registerTeam`. -/
def League.registerTeam (L : League) (teamName ownerName : String) : Bool × League :=
  if L.teams.length ≥ toSizeT L.maxTeams then (false, L)
  else if League.nameTaken L.teams teamName then (false, L)
  else (true, { L with teams := L.teams ++ [Team.ctor teamName ownerName] })

/-- The method `League::draftPlayer`. -/
def League.draftPlayer (L : League) (team : TeamPtr) (playerId : Int) : Option (Bool × League) :=
  match findById L.heap L.availablePlayers playerId with
  | none => none
  | some none => some (false, L)
  | some (some i) =>
    match L.teams[team]? with
    | none => none
    | some t =>
      if t.getRosterSize ≥ L.rosterSize then some (false, L)
      else
        match L.availablePlayers[i]? with
        | none => none
        | some player =>
          match Team.addPlayer L.heap t player with
          | none => none
          | some (true, t') =>
            some (true, { L with teams := L.teams.set team t',
                                 availablePlayers := L.availablePlayers.eraseIdx i })
          | some (false, t') => some (false, { L with teams := L.teams.set team t' })

/-- The method `League::setTeamLineup`. -/
def League.setTeamLineup (L : League) (team : TeamPtr) (playerIds : List Int) :
    Option (Bool × League) :=
  if playerIds.length ≠ toSizeT L.lineupSize then some (false, L)
  else
    match L.teams[team]? with
    | none => none
    | some t =>
      match Team.setLineup L.heap t playerIds with
      | none => none
      | some (ok, t') => some (ok, { L with teams := L.teams.set team t' })

/-- The pairing loop of `League::generateMatchups`: consecutive elements are
paired, a trailing single element gets a bye. -/
def League.pairUp : List TeamPtr → List Matchup
  | a :: b :: rest => Matchup.ctor a b :: League.pairUp rest
  | _ => []

/-- The method `League::generateMatchups`; `shuffled` is what `std::shuffle`
leaves in `shuffledTeams`. -/
def League.generateMatchups (L : League) (shuffled : List TeamPtr) : League :=
  if L.teams.length < 2 then { L with schedule := [] }
  else { L with schedule := League.pairUp shuffled }

/-- The loop of `League::simulateWeek` over the schedule: the matchups already
simulated are collected in `done`. -/
def League.simulateWeekLoop (rng : Rng) :
    List Matchup → List Matchup → Heap → List Team → Nat →
      Option (List Matchup × Heap × List Team × Nat)
  | [], done, heap, teams, k => some (done, heap, teams, k)
  | m :: rest, done, heap, teams, k =>
    match Matchup.simulate rng m heap teams k with
    | none => none
    | some (m', heap', teams', k') =>
      League.simulateWeekLoop rng rest (done ++ [m']) heap' teams' k'

/-- The method `League::simulateWeek`, reading the random source from cursor
`k`. -/
def League.simulateWeek (L : League) (rng : Rng) (k : Nat) : Option League :=
  if L.schedule.isEmpty then some L
  else
    match League.simulateWeekLoop rng L.schedule [] L.heap L.teams k with
    | none => none
    | some (schedule', heap', teams', _) =>
      some { L with schedule := schedule', heap := heap', teams := teams',
                    currentWeek := L.currentWeek + 1 }

/-- The method `League::getAvailablePlayerById`; `some none` is the null
pointer. -/
def League.getAvailablePlayerById (L : League) (id : Int) : Option (Option PlayerPtr) :=
  match findById L.heap L.availablePlayers id with
  | none => none
  | some none => some none
  | some (some i) => some L.availablePlayers[i]?

/-- The team loop of `League::getPlayerById`. -/
def League.getPlayerByIdLoop (heap : Heap) : List Team → Int → Option (Option PlayerPtr)
  | [], _ => some none
  | t :: rest, id =>
    match Team.getPlayerById heap t id with
    | none => none
    | some (some p) => some (some p)
    | some none => League.getPlayerByIdLoop heap rest id

/-- The method `League::getPlayerById`; `some none` is the null pointer. -/
def League.getPlayerById (L : League) (id : Int) : Option (Option PlayerPtr) :=
  match L.getAvailablePlayerById id with
  | none => none
  | some (some p) => some (some p)
  | some none => League.getPlayerByIdLoop L.heap L.teams id

/-- One call of a public `League` operation that changes the state; the
arguments of the constructor are `int`s, the shuffle yields a permutation of
the team pointers, and the draws lie in the ranges of their distributions. -/
inductive League.Step : League → League → Prop
  | registerTeam (L : League) (teamName ownerName : String) :
      League.Step L (L.registerTeam teamName ownerName).2
  | draftPlayer (L : League) (team : TeamPtr) (playerId : Int) (r : Bool × League) :
      L.draftPlayer team playerId = some r → League.Step L r.2
  | setTeamLineup (L : League) (team : TeamPtr) (playerIds : List Int) (r : Bool × League) :
      L.setTeamLineup team playerIds = some r → League.Step L r.2
  | generateMatchups (L : League) (shuffled : List TeamPtr) :
      shuffled.Perm (List.range L.teams.length) → League.Step L (L.generateMatchups shuffled)
  | simulateWeek (L : League) (rng : Rng) (k : Nat) (L' : League) :
      rng.InRange → L.simulateWeek rng k = some L' → League.Step L L'

/-- The states a league goes through from its construction on. -/
inductive League.Reachable : League → Prop
  | init (name : String) (maxTeams rosterSize lineupSize : Int) :
      IsInt32 maxTeams → IsInt32 rosterSize → IsInt32 lineupSize →
      League.Reachable (League.ctor name maxTeams rosterSize lineupSize)
  | step (L L' : League) : League.Reachable L → League.Step L L' → League.Reachable L'

/-- The getter `Player::getId` called through a pointer. -/
def getId (heap : Heap) (p : PlayerPtr) : Option Int :=
  match heap[p]? with
  | none => none
  | some pl => some pl.id

/-- Every pointer `Player*` the league holds: the draft pool, then the rosters
in team order. -/
def League.allPtrs (L : League) : List PlayerPtr :=
  L.availablePlayers ++ (L.teams.map Team.roster).flatten

/-- What no operation of `League` changes in a team once it plays: its name,
owner, roster and lineup. -/
def Team.setup (t : Team) : String × String × List PlayerPtr × List PlayerPtr :=
  (t.name, t.owner, t.roster, t.activeLineup)

/-- The facts about the players of a league that every operation keeps: the
heap holds the catalog ids, the pool and the rosters together hold every
pointer to a catalog object once, a lineup is drawn from its roster, and the
configuration fits `int`. -/
structure League.Inv (L : League) : Prop where
  ids : L.heap.map Player.id = League.catalog.map Player.id
  ptrs : L.allPtrs.Perm (List.range League.catalog.length)
  lineup : ∀ t ∈ L.teams, ∀ p ∈ t.activeLineup, p ∈ t.roster
  maxTeams : IsInt32 L.maxTeams
  rosterSize : IsInt32 L.rosterSize
  lineupSize : IsInt32 L.lineupSize

/-! ## Concrete states -/

/-- The league `SportsManagerApp` constructs: 8 teams at most, rosters of 10,
lineups of 5. -/
def League.app : League := League.ctor "Fantasy Football League" 8 10 5

/-- The state a call leaves: the league it returns, the league itself when the
call has no defined behaviour. -/
def League.after (L : League) (r : Option (Bool × League)) : League :=
  match r with
  | some x => x.2
  | none => L

/-- A league whose rosters hold no player at all, with one team registered. -/
def League.noRoom : League := ((League.ctor "No Room" 2 0 0).registerTeam "A" "Ann").2

/-- The league of the application with one team registered. -/
def League.appA : League := (League.app.registerTeam "A" "Ann").2

/-- A league with lineups of two players. -/
def League.duo0 : League := League.ctor "Duo" 8 10 2

/-- The league `duo0` after `registerTeam("A", "Ann")`. -/
def League.duo1 : League := (League.duo0.registerTeam "A" "Ann").2

/-- The league `duo1` after `draftPlayer(team 0, 1)`. -/
def League.duo2 : League := League.duo1.after (League.duo1.draftPlayer 0 1)

/-- The league `duo2` after `draftPlayer(team 0, 2)`. -/
def League.duo3 : League := League.duo2.after (League.duo2.draftPlayer 0 2)

/-- The league `duo3` after `setTeamLineup(team 0, [1, 2])`. -/
def League.duo4 : League := League.duo3.after (League.duo3.setTeamLineup 0 [1, 2])

/-- The league `duo4` after `setTeamLineup(team 0, [2, 99])`. -/
def League.duo5 : League := League.duo4.after (League.duo4.setTeamLineup 0 [2, 99])

/-- A team that drafted the players 1 and 2 of the catalog and fields both. -/
def Team.pair : Team :=
  { Team.ctor "A" "Ann" with roster := [0, 1], activeLineup := [0, 1] }

/-- A team that drafted the players 1 and 2 of the catalog and has set no
lineup: the team of `duo3`. -/
def Team.drafted : Team := { Team.ctor "A" "Ann" with roster := [0, 1] }

/-- A random source whose every draw is the lower bound of its distribution,
except that a defense allows 35 points. -/
def Rng.lowest : Rng := fun _ lo hi => if hi = 35 then 35 else lo

/-- A team that fields the kicker with id 30. -/
def Team.kickerA : Team := { Team.ctor "A" "Ann" with roster := [29], activeLineup := [29] }

/-- A team that fields the kicker with id 31. -/
def Team.kickerB : Team := { Team.ctor "B" "Bob" with roster := [30], activeLineup := [30] }

/-- A team that drafted the kicker with id 33 and has set no lineup. -/
def Team.idle : Team := { Team.ctor "D" "Dee" with roster := [32] }

/-- The teams for which the pairing loop of `League::generateMatchups` reports a
bye: the branch `i + 1 >= shuffledTeams.size()`. -/
def League.byeTeams : List TeamPtr → List TeamPtr
  | _ :: _ :: rest => League.byeTeams rest
  | [a] => [a]
  | [] => []

/-- The two team pointers of a matchup, home first. -/
def Matchup.teams (m : Matchup) : List TeamPtr := [m.homeTeam, m.awayTeam]

/-- The team pointers of the schedule, matchup by matchup. -/
def League.scheduledTeams (L : League) : List TeamPtr := L.schedule.flatMap Matchup.teams

/-- The facts about the schedule that every operation keeps: its matchups
point to registered teams, and no team pointer occurs twice in it. -/
structure League.SchedInv (L : League) : Prop where
  valid : ∀ t ∈ L.scheduledTeams, t < L.teams.length
  nodup : L.scheduledTeams.Nodup

/-- The league of the application with the teams A and B registered. -/
def League.appAB : League := (League.appA.registerTeam "B" "Bob").2

/-- The league `appAB` after `generateMatchups`, the shuffle putting B first. -/
def League.paired : League := League.appAB.generateMatchups [1, 0]

/-- The league of the application with the teams A, B, C, D and E registered. -/
def League.five : League :=
  ((((League.appAB.registerTeam "C" "Cy").2.registerTeam "D" "Dee").2).registerTeam "E" "Eve").2

/-- The histories of a league, with the number of `simulateWeek` calls made on a
non-empty schedule: `League.Weeks L n` holds when some sequence of operations
that contains `n` such calls leads from a fresh league to `L`. -/
inductive League.Weeks : League → Nat → Prop
  | init (name : String) (maxTeams rosterSize lineupSize : Int) :
      IsInt32 maxTeams → IsInt32 rosterSize → IsInt32 lineupSize →
      League.Weeks (League.ctor name maxTeams rosterSize lineupSize) 0
  | registerTeam (L : League) (n : Nat) (teamName ownerName : String) :
      League.Weeks L n → League.Weeks (L.registerTeam teamName ownerName).2 n
  | draftPlayer (L : League) (n : Nat) (team : TeamPtr) (playerId : Int) (r : Bool × League) :
      League.Weeks L n → L.draftPlayer team playerId = some r → League.Weeks r.2 n
  | setTeamLineup (L : League) (n : Nat) (team : TeamPtr) (playerIds : List Int)
      (r : Bool × League) :
      League.Weeks L n → L.setTeamLineup team playerIds = some r → League.Weeks r.2 n
  | generateMatchups (L : League) (n : Nat) (shuffled : List TeamPtr) :
      League.Weeks L n → shuffled.Perm (List.range L.teams.length) →
      League.Weeks (L.generateMatchups shuffled) n
  | simulateWeekEmpty (L : League) (n : Nat) (rng : Rng) (k : Nat) (L' : League) :
      League.Weeks L n → L.schedule = [] → rng.InRange → L.simulateWeek rng k = some L' →
      League.Weeks L' n
  | simulateWeek (L : League) (n : Nat) (rng : Rng) (k : Nat) (L' : League) :
      League.Weeks L n → L.schedule ≠ [] → rng.InRange → L.simulateWeek rng k = some L' →
      League.Weeks L' (n + 1)

/-- The league `paired` after `simulateWeek` on the draws of `Rng.lowest`; neither
team has a lineup. -/
def League.week2 : League := (League.paired.simulateWeek Rng.lowest 0).getD League.paired

/-- The comparison lambda of `League::displayStandings`: more wins first, more
total points first among equal wins. -/
def League.standingsBefore (a b : Team) : Bool :=
  if a.wins ≠ b.wins then decide (a.wins > b.wins)
  else decide (a.totalPoints > b.totalPoints)

/-! ## The library routine `std::sort`

The program is built with the GNU C++ library, whose `std::sort` is an
introsort: `std::__introsort_loop` partitions around a median of three until the
ranges hold at most 16 elements, falls back on a heap sort when its depth limit
is used up, and `std::__final_insertion_sort` finishes with an insertion sort.
The definitions below follow `bits/stl_algo.h` and `bits/stl_heap.h`, function
by function.  The vector is a list, an iterator is a position in it, and a read
or a write outside the vector has no defined behaviour: the functions return
`none` there.  A loop whose number of rounds the source does not bound takes a
bound `fuel`; running out of it also gives `none`, and `std.sort_spec` shows
that neither happens for a strict weak ordering. -/

namespace std

variable {α : Type}

/-- The assignment `*i = x` through an iterator into the vector `v`. -/
def assign (v : List α) (i : Nat) (x : α) : Option (List α) :=
  if i < v.length then some (v.set i x) else none

/-- The function `std::iter_swap`. -/
def iter_swap (v : List α) (i j : Nat) : Option (List α) :=
  match v[i]?, v[j]? with
  | some x, some y => some ((v.set i y).set j x)
  | _, _ => none

/-- The floor of the binary logarithm, by halving; `fuel` halvings are enough
for a number that is at most `fuel`. -/
def lgLoop : Nat → Nat → Nat
  | 0, _ => 0
  | fuel + 1, n => if n < 2 then 0 else lgLoop fuel (n / 2) + 1

/-- The function `std::__lg` on a positive number: the floor of its binary
logarithm. -/
def lg (n : Nat) : Nat := lgLoop n n

/-- The loop of `std::__unguarded_linear_insert`: `val` has been taken out of the
position `last`. -/
def unguarded_linear_insert_loop (comp : α → α → Bool) (val : α) :
    List α → Nat → Option (List α)
  | _, 0 => none
  | v, next + 1 =>
    match v[next]? with
    | none => none
    | some x =>
      if comp val x then
        match assign v (next + 1) x with
        | none => none
        | some v1 => unguarded_linear_insert_loop comp val v1 next
      else assign v (next + 1) val

/-- The function `std::__unguarded_linear_insert`. -/
def unguarded_linear_insert (comp : α → α → Bool) (v : List α) (last : Nat) :
    Option (List α) :=
  match v[last]? with
  | none => none
  | some val => unguarded_linear_insert_loop comp val v last

/-- The `for` loop of `std::__insertion_sort`, with `n` elements still to
insert, the next one at `i`. -/
def insertion_sort_loop (comp : α → α → Bool) (first : Nat) :
    Nat → Nat → List α → Option (List α)
  | 0, _, v => some v
  | n + 1, i, v =>
    match v[i]?, v[first]? with
    | some val, some x =>
      if comp val x then
        insertion_sort_loop comp first n (i + 1)
          (v.take first ++ val :: (v.take i).drop first ++ v.drop (i + 1))
      else
        match unguarded_linear_insert comp v i with
        | none => none
        | some v1 => insertion_sort_loop comp first n (i + 1) v1
    | _, _ => none

/-- The function `std::__insertion_sort`. -/
def insertion_sort (comp : α → α → Bool) (v : List α) (first last : Nat) : Option (List α) :=
  if first = last then some v
  else insertion_sort_loop comp first (last - (first + 1)) (first + 1) v

/-- The function `std::__unguarded_insertion_sort`, with `n` elements to insert
from `i` on. -/
def unguarded_insertion_sort (comp : α → α → Bool) : Nat → Nat → List α → Option (List α)
  | 0, _, v => some v
  | n + 1, i, v =>
    match unguarded_linear_insert comp v i with
    | none => none
    | some v1 => unguarded_insertion_sort comp n (i + 1) v1

/-- The function `std::__final_insertion_sort`; the threshold is 16. -/
def final_insertion_sort (comp : α → α → Bool) (v : List α) (first last : Nat) :
    Option (List α) :=
  if last - first > 16 then
    match insertion_sort comp v first (first + 16) with
    | none => none
    | some v1 => unguarded_insertion_sort comp (last - (first + 16)) (first + 16) v1
  else insertion_sort comp v first last

/-- The function `std::__move_median_to_first`. -/
def move_median_to_first (comp : α → α → Bool) (v : List α) (result a b c : Nat) :
    Option (List α) :=
  match v[a]?, v[b]?, v[c]? with
  | some xa, some xb, some xc =>
    if comp xa xb then
      if comp xb xc then iter_swap v result b
      else if comp xa xc then iter_swap v result c
      else iter_swap v result a
    else if comp xa xc then iter_swap v result a
    else if comp xb xc then iter_swap v result c
    else iter_swap v result b
  | _, _, _ => none

/-- The loop `while (__comp(__first, __pivot)) ++__first` of
`std::__unguarded_partition`; it ends, at the latest, by reading past the end
of the vector. -/
def partition_up (comp : α → α → Bool) (v : List α) (pivot : Nat) : Nat → Nat → Option Nat
  | 0, _ => none
  | fuel + 1, first =>
    match v[first]?, v[pivot]? with
    | some x, some p =>
      if comp x p then partition_up comp v pivot fuel (first + 1) else some first
    | _, _ => none

/-- The loop `while (__comp(__pivot, __last)) --__last` of
`std::__unguarded_partition`. -/
def partition_down (comp : α → α → Bool) (v : List α) (pivot : Nat) : Nat → Option Nat
  | 0 =>
    match v[0]?, v[pivot]? with
    | some x, some p => if comp p x then none else some 0
    | _, _ => none
  | last + 1 =>
    match v[last + 1]?, v[pivot]? with
    | some x, some p => if comp p x then partition_down comp v pivot last else some (last + 1)
    | _, _ => none

/-- The loop `while (true)` of `std::__unguarded_partition`; every round lowers
`last`, so `fuel` rounds are enough when `last ≤ fuel`. -/
def unguarded_partition_loop (comp : α → α → Bool) (pivot : Nat) :
    Nat → List α → Nat → Nat → Option (List α × Nat)
  | 0, _, _, _ => none
  | fuel + 1, v, first, last =>
    match partition_up comp v pivot (v.length + 1) first with
    | none => none
    | some first1 =>
      match last with
      | 0 => none
      | last0 + 1 =>
        match partition_down comp v pivot last0 with
        | none => none
        | some last1 =>
          if ¬ first1 < last1 then some (v, first1)
          else
            match iter_swap v first1 last1 with
            | none => none
            | some v1 => unguarded_partition_loop comp pivot fuel v1 (first1 + 1) last1

/-- The function `std::__unguarded_partition`: the vector and the cut. -/
def unguarded_partition (comp : α → α → Bool) (v : List α) (first last pivot : Nat) :
    Option (List α × Nat) :=
  unguarded_partition_loop comp pivot (v.length + 1) v first last

/-- The function `std::__unguarded_partition_pivot`. -/
def unguarded_partition_pivot (comp : α → α → Bool) (v : List α) (first last : Nat) :
    Option (List α × Nat) :=
  match move_median_to_first comp v first (first + 1) (first + (last - first) / 2) (last - 1) with
  | none => none
  | some v1 => unguarded_partition comp v1 (first + 1) last first

/-- The function `std::__push_heap`; the hole moves to its parent in every
round of the loop, so `fuel` rounds are enough when `holeIndex < fuel`. -/
def push_heap (comp : α → α → Bool) (first topIndex : Nat) (value : α) :
    Nat → List α → Nat → Option (List α)
  | 0, _, _ => none
  | fuel + 1, v, holeIndex =>
    if holeIndex > topIndex then
      match v[first + (holeIndex - 1) / 2]? with
      | none => none
      | some x =>
        if comp x value then
          match assign v (first + holeIndex) x with
          | none => none
          | some v1 => push_heap comp first topIndex value fuel v1 ((holeIndex - 1) / 2)
        else assign v (first + holeIndex) value
    else assign v (first + holeIndex) value

/-- The `while` loop of `std::__adjust_heap`: the vector, `holeIndex` and
`secondChild` at its end. -/
def adjust_heap_loop (comp : α → α → Bool) (first len : Nat) :
    Nat → List α → Nat → Nat → Option (List α × Nat × Nat)
  | 0, _, _, _ => none
  | fuel + 1, v, holeIndex, secondChild =>
    if secondChild < (len - 1) / 2 then
      match v[first + 2 * (secondChild + 1)]?, v[first + (2 * (secondChild + 1) - 1)]? with
      | some r, some l =>
        let secondChild1 :=
          if comp r l then 2 * (secondChild + 1) - 1 else 2 * (secondChild + 1)
        match v[first + secondChild1]? with
        | none => none
        | some x =>
          match assign v (first + holeIndex) x with
          | none => none
          | some v1 => adjust_heap_loop comp first len fuel v1 secondChild1 secondChild1
      | _, _ => none
    else some (v, holeIndex, secondChild)

/-- The function `std::__adjust_heap`. -/
def adjust_heap (comp : α → α → Bool) (v : List α) (first holeIndex len : Nat) (value : α) :
    Option (List α) :=
  match adjust_heap_loop comp first len (len + 1) v holeIndex holeIndex with
  | none => none
  | some (v1, holeIndex1, secondChild) =>
    if len % 2 = 0 ∧ 2 ≤ len ∧ secondChild = (len - 2) / 2 then
      match v1[first + (2 * (secondChild + 1) - 1)]? with
      | none => none
      | some x =>
        match assign v1 (first + holeIndex1) x with
        | none => none
        | some v2 =>
          push_heap comp first holeIndex value (2 * (secondChild + 1)) v2
            (2 * (secondChild + 1) - 1)
    else push_heap comp first holeIndex value (holeIndex1 + 1) v1 holeIndex1

/-- The function `std::__pop_heap`. -/
def pop_heap (comp : α → α → Bool) (v : List α) (first last result : Nat) : Option (List α) :=
  match v[result]?, v[first]? with
  | some value, some x =>
    match assign v result x with
    | none => none
    | some v1 => adjust_heap comp v1 first 0 (last - first) value
  | _, _ => none

/-- The loop `while (true)` of `std::__make_heap`, from `parent` down to 0. -/
def make_heap_loop (comp : α → α → Bool) (first len : Nat) : Nat → List α → Option (List α)
  | 0, v =>
    match v[first]? with
    | none => none
    | some value => adjust_heap comp v first 0 len value
  | parent + 1, v =>
    match v[first + (parent + 1)]? with
    | none => none
    | some value =>
      match adjust_heap comp v first (parent + 1) len value with
      | none => none
      | some v1 => make_heap_loop comp first len parent v1

/-- The function `std::__make_heap`. -/
def make_heap (comp : α → α → Bool) (v : List α) (first last : Nat) : Option (List α) :=
  if last - first < 2 then some v
  else make_heap_loop comp first (last - first) ((last - first - 2) / 2) v

/-- The function `std::__sort_heap`, with `n + 1` elements left in the heap. -/
def sort_heap_loop (comp : α → α → Bool) (first : Nat) : Nat → List α → Option (List α)
  | 0, v => some v
  | n + 1, v =>
    match pop_heap comp v first (first + (n + 1)) (first + (n + 1)) with
    | none => none
    | some v1 => sort_heap_loop comp first n v1

/-- The function `std::__sort_heap`. -/
def sort_heap (comp : α → α → Bool) (v : List α) (first last : Nat) : Option (List α) :=
  sort_heap_loop comp first (last - first - 1) v

/-- The `for` loop of `std::__heap_select`, with `n` elements from `i` on. -/
def heap_select_loop (comp : α → α → Bool) (first middle : Nat) :
    Nat → Nat → List α → Option (List α)
  | 0, _, v => some v
  | n + 1, i, v =>
    match v[i]?, v[first]? with
    | some x, some y =>
      if comp x y then
        match pop_heap comp v first middle i with
        | none => none
        | some v1 => heap_select_loop comp first middle n (i + 1) v1
      else heap_select_loop comp first middle n (i + 1) v
    | _, _ => none

/-- The function `std::__heap_select`. -/
def heap_select (comp : α → α → Bool) (v : List α) (first middle last : Nat) :
    Option (List α) :=
  match make_heap comp v first middle with
  | none => none
  | some v1 => heap_select_loop comp first middle (last - middle) middle v1

/-- The function `std::__partial_sort`. -/
def partial_sort (comp : α → α → Bool) (v : List α) (first middle last : Nat) :
    Option (List α) :=
  match heap_select comp v first middle last with
  | none => none
  | some v1 => sort_heap comp v1 first middle

/-- The function `std::__introsort_loop`; the recursion follows `depth_limit`. -/
def introsort_loop (comp : α → α → Bool) : Nat → List α → Nat → Nat → Option (List α)
  | 0, v, first, last =>
    if last - first > 16 then partial_sort comp v first last last else some v
  | depth_limit + 1, v, first, last =>
    if last - first > 16 then
      match unguarded_partition_pivot comp v first last with
      | none => none
      | some (v1, cut) =>
        match introsort_loop comp depth_limit v1 cut last with
        | none => none
        | some v2 => introsort_loop comp depth_limit v2 first cut
    else some v

/-- The function `std::__sort`, on the whole vector: `first` is `begin()` and
`last` is `end()`. -/
def sort (comp : α → α → Bool) (v : List α) : Option (List α) :=
  if 0 = v.length then some v
  else
    match introsort_loop comp (lg (v.length - 0) * 2) v 0 v.length with
    | none => none
    | some v1 => final_insertion_sort comp v1 0 v.length

end std

/-- What `std::sort` requires of its comparison: a strict weak ordering. -/
structure std.StrictWeak {α : Type} (comp : α → α → Bool) : Prop where
  irrefl : ∀ x, comp x x = false
  trans : ∀ x y z, comp x y = true → comp y z = true → comp x z = true
  incomp : ∀ x y z, comp x y = false → comp y z = false → comp x z = false

/-- The elements `x` and `z` are equivalent for `comp`: neither is ordered before
the other. -/
def std.tied {α : Type} (comp : α → α → Bool) (z x : α) : Bool := !comp z x && !comp x z

/-- The list is in the order of `comp`: no element is ordered before one that
precedes it. -/
def std.Sorted {α : Type} (comp : α → α → Bool) (v : List α) : Prop :=
  v.Pairwise (fun a b => comp b a = false)

/-- The vector `v'` holds the elements of `v`, and the very same ones outside the
range from `first` to `last`. -/
def std.Rearranged {α : Type} (v v' : List α) (first last : Nat) : Prop :=
  v'.Perm v ∧ ∀ i, (i < first ∨ last ≤ i) → v'[i]? = v[i]?

/-- The heap order on the `len` elements from `first` on, for the nodes from
`lo` on: no node at `lo` or above is ordered before one of its children. -/
def std.HeapAbove {α : Type} (comp : α → α → Bool) (v : List α) (first len lo : Nat) : Prop :=
  ∀ i x y, 0 < i → i < len → lo ≤ (i - 1) / 2 → v[first + (i - 1) / 2]? = some x →
    v[first + i]? = some y → comp x y = false

/-- The node `h` lies in the subtree of the node `p` of a heap. -/
def std.Below (p h : Nat) : Prop := ∃ k, (h + 1) / 2 ^ k = p + 1

/-- The heap order for the nodes from `p` on while `std::__adjust_heap` moves the
hole down: it holds at every node, except at `p` itself as long as the hole is
still there. -/
def std.HeapExcept {α : Type} (comp : α → α → Bool) (v : List α) (first len p hole : Nat) :
    Prop :=
  ∀ i x y, 0 < i → i < len → p ≤ (i - 1) / 2 → ¬ ((i - 1) / 2 = p ∧ hole = p) →
    v[first + (i - 1) / 2]? = some x → v[first + i]? = some y → comp x y = false

/-- The method `League::displayStandings`: the league afterwards and the teams
in the order of the printed ranks.  `sortedTeams` starts as the copy of
`teams`, every pointer together with the team it designates, and the lambda
compares the teams behind two pointers. -/
def League.displayStandings (L : League) : Option (League × List TeamPtr) :=
  if L.teams.isEmpty then some (L, [])
  else
    match std.sort (fun a b => League.standingsBefore a.2 b.2) L.teams.enum with
    | none => none
    | some sortedTeams => some (L, sortedTeams.map Prod.fst)

/-- The league after the calls `registerTeam(name, owner)` for the given names
and owners, in order. -/
def League.registerAll (L : League) (teams : List (String × String)) : League :=
  teams.foldl (fun L t => (L.registerTeam t.1 t.2).2) L

/-- A league for 20 teams in which 17 teams are registered; none has played. -/
def League.seventeen : League :=
  (League.ctor "Big" 20 10 5).registerAll
    [("T1", "O1"), ("T2", "O2"), ("T3", "O3"), ("T4", "O4"), ("T5", "O5"), ("T6", "O6"),
     ("T7", "O7"), ("T8", "O8"), ("T9", "O9"), ("T10", "O10"), ("T11", "O11"),
     ("T12", "O12"), ("T13", "O13"), ("T14", "O14"), ("T15", "O15"), ("T16", "O16"),
     ("T17", "O17")]

/-- A league whose teams A (3 wins, 100 points), B (3 wins, 120 points) and C
(2 wins, 200 points) were registered in that order. -/
def League.abc : League :=
  { League.app with
    teams := [{ Team.ctor "A" "Ann" with wins := 3, totalPoints := 100 },
              { Team.ctor "B" "Bob" with wins := 3, totalPoints := 120 },
              { Team.ctor "C" "Cy" with wins := 2, totalPoints := 200 }] }

/-- A random source whose every draw is the lower bound of its distribution,
except that a quarterback throws 3 interceptions. -/
def Rng.worstQuarterback : Rng := fun _ lo hi => if hi = 3 then 3 else lo

/-- The bounds every operation keeps when the configuration is not negative: the
number of teams, the size of every roster, and the uniqueness of the team
names. -/
structure League.SizeInv (L : League) : Prop where
  teams : 0 ≤ L.maxTeams → (L.teams.length : Int) ≤ L.maxTeams
  rosters : 0 ≤ L.rosterSize → ∀ t ∈ L.teams, (t.roster.length : Int) ≤ L.rosterSize
  names : (L.teams.map Team.name).Nodup

/-- The ids 1, 2, ..., 38 in increasing order, as the getter returns them. -/
def League.catalogIds : List (Option Int) := (List.range 38).map (fun (i : Nat) => some ((i : Int) + 1))

/-- The team `Team.drafted` after `setLineup([1, 1])`. -/
def Team.twice : Team := { Team.drafted with activeLineup := [0, 0] }

/-- A league with lineups of one player. -/
def League.kick0 : League := League.ctor "Kick" 8 10 1

/-- The league `kick0` with the teams A and B registered. -/
def League.kick1 : League :=
  ((League.kick0.registerTeam "A" "Ann").2.registerTeam "B" "Bob").2

/-- The league `kick1` after team A drafted the kicker 30 and team B the kicker
31. -/
def League.kick2 : League :=
  (League.kick1.after (League.kick1.draftPlayer 0 30)).after
    ((League.kick1.after (League.kick1.draftPlayer 0 30)).draftPlayer 1 31)

/-- The league `kick2` after both teams set their kicker as lineup. -/
def League.kick3 : League :=
  (League.kick2.after (League.kick2.setTeamLineup 0 [30])).after
    ((League.kick2.after (League.kick2.setTeamLineup 0 [30])).setTeamLineup 1 [31])

/-- The league `kick3` after `generateMatchups`, the shuffle leaving A first. -/
def League.kick4 : League := League.kick3.generateMatchups [0, 1]

/-- The league `kick4` after a `simulateWeek` on the draws of `Rng.lowest`. -/
def League.kick5 : League := (League.kick4.simulateWeek Rng.lowest 0).getD League.kick4

/-- The league `kick2` after team A also drafted the quarterback 1: team A holds
two players, team B one, the pool the other 35. -/
def League.trio : League := League.kick2.after (League.kick2.draftPlayer 0 1)

/-! ## The methods in `double` arithmetic

The definitions above read a `double` as the rational number it stands for
and compute exactly.  The definitions of this section follow the same methods
with the arithmetic of the machine: a `double` is still given by its value,
every product, sum and difference of doubles is rounded to the nearest double
(IEEE 754 binary64, ties to even), the literals `0.04` and `0.1` are the doubles
nearest to them, and an `int` converts exactly.  The exponent of a double is
taken as unbounded; the values of this program stay far away from the largest
and from the smallest double. -/

/-- The integer nearest to `q`, the even one of the two when `q` lies half way
between two integers. -/
def roundHalfEven (q : ℚ) : Int :=
  if q - ⌊q⌋ < 1 / 2 then ⌊q⌋
  else if 1 / 2 < q - ⌊q⌋ then ⌊q⌋ + 1
  else if ⌊q⌋ % 2 = 0 then ⌊q⌋ else ⌊q⌋ + 1

/-- The rounding of `double` arithmetic: the number with a significand of 53
bits nearest to `q`, the one with an even significand on a tie. -/
def toDouble (q : ℚ) : ℚ :=
  if q = 0 then 0
  else (roundHalfEven (q / 2 ^ (Int.log 2 |q| - 52)) : ℚ) * 2 ^ (Int.log 2 |q| - 52)

/-- The method `Player::simulateGamePerformance` in `double` arithmetic, drawing
from cursor `k` on: the player afterwards and the cursor after the draws. -/
def IEEE.Player.simulateGamePerformance (p : Player) (rng : Rng) (k : Nat) : Player × Nat :=
  let p := { p with gamesPlayed := p.gamesPlayed + 1 }
  let gamePoints : ℚ := 0
  match p.position with
  | .QUARTERBACK =>
    let gamePassingYards := rng k 150 400
    let p := { p with passingYards := p.passingYards + gamePassingYards }
    let gamePoints := toDouble (gamePoints + toDouble ((gamePassingYards : ℚ) * toDouble 0.04))
    let gamePassingTDs := rng (k + 1) 0 4
    let p := { p with passingTouchdowns := p.passingTouchdowns + gamePassingTDs }
    let gamePoints := toDouble (gamePoints + toDouble ((gamePassingTDs : ℚ) * 4))
    let gameInterceptions := rng (k + 2) 0 3
    let p := { p with interceptions := p.interceptions + gameInterceptions }
    let gamePoints := toDouble (gamePoints - toDouble ((gameInterceptions : ℚ) * 2))
    let gameRushingYards := rng (k + 3) 0 50
    let p := { p with rushingYards := p.rushingYards + gameRushingYards }
    let gamePoints := toDouble (gamePoints + toDouble ((gameRushingYards : ℚ) * toDouble 0.1))
    let gameRushingTDs := rng (k + 4) 0 1
    let p := { p with rushingTouchdowns := p.rushingTouchdowns + gameRushingTDs }
    let gamePoints := toDouble (gamePoints + toDouble ((gameRushingTDs : ℚ) * 6))
    ({ p with fantasyPoints := toDouble (p.fantasyPoints + gamePoints) }, k + 5)
  | .RUNNING_BACK =>
    let gameRushingYards := rng k 30 150
    let p := { p with rushingYards := p.rushingYards + gameRushingYards }
    let gamePoints := toDouble (gamePoints + toDouble ((gameRushingYards : ℚ) * toDouble 0.1))
    let gameRushingTDs := rng (k + 1) 0 2
    let p := { p with rushingTouchdowns := p.rushingTouchdowns + gameRushingTDs }
    let gamePoints := toDouble (gamePoints + toDouble ((gameRushingTDs : ℚ) * 6))
    let gameReceivingYards := rng (k + 2) 0 50
    let p := { p with receivingYards := p.receivingYards + gameReceivingYards }
    let gamePoints := toDouble (gamePoints + toDouble ((gameReceivingYards : ℚ) * toDouble 0.1))
    let gameReceivingTDs := rng (k + 3) 0 1
    let p := { p with receivingTouchdowns := p.receivingTouchdowns + gameReceivingTDs }
    let gamePoints := toDouble (gamePoints + toDouble ((gameReceivingTDs : ℚ) * 6))
    ({ p with fantasyPoints := toDouble (p.fantasyPoints + gamePoints) }, k + 4)
  | .WIDE_RECEIVER =>
    let gameReceivingYards := rng k 20 150
    let p := { p with receivingYards := p.receivingYards + gameReceivingYards }
    let gamePoints := toDouble (gamePoints + toDouble ((gameReceivingYards : ℚ) * toDouble 0.1))
    let gameReceivingTDs := rng (k + 1) 0 2
    let p := { p with receivingTouchdowns := p.receivingTouchdowns + gameReceivingTDs }
    let gamePoints := toDouble (gamePoints + toDouble ((gameReceivingTDs : ℚ) * 6))
    ({ p with fantasyPoints := toDouble (p.fantasyPoints + gamePoints) }, k + 2)
  | .TIGHT_END =>
    let gameReceivingYards := rng k 10 100
    let p := { p with receivingYards := p.receivingYards + gameReceivingYards }
    let gamePoints := toDouble (gamePoints + toDouble ((gameReceivingYards : ℚ) * toDouble 0.1))
    let gameReceivingTDs := rng (k + 1) 0 1
    let p := { p with receivingTouchdowns := p.receivingTouchdowns + gameReceivingTDs }
    let gamePoints := toDouble (gamePoints + toDouble ((gameReceivingTDs : ℚ) * 6))
    ({ p with fantasyPoints := toDouble (p.fantasyPoints + gamePoints) }, k + 2)
  | .KICKER =>
    let gameFieldGoals := rng k 0 5
    let p := { p with fieldGoals := p.fieldGoals + gameFieldGoals }
    let gamePoints := toDouble (gamePoints + toDouble ((gameFieldGoals : ℚ) * 3))
    let gameExtraPoints := rng (k + 1) 1 5
    let p := { p with extraPoints := p.extraPoints + gameExtraPoints }
    let gamePoints := toDouble (gamePoints + toDouble ((gameExtraPoints : ℚ) * 1))
    ({ p with fantasyPoints := toDouble (p.fantasyPoints + gamePoints) }, k + 2)
  | .DEFENSE =>
    let gameSacks := rng k 0 5
    let p := { p with sacks := p.sacks + gameSacks }
    let gamePoints := toDouble (gamePoints + toDouble ((gameSacks : ℚ) * 1))
    let gameDefInterceptions := rng (k + 1) 0 3
    let p := { p with defensiveInterceptions := p.defensiveInterceptions + gameDefInterceptions }
    let gamePoints := toDouble (gamePoints + toDouble ((gameDefInterceptions : ℚ) * 2))
    let gameDefTDs := rng (k + 2) 0 1
    let p := { p with defensiveTouchdowns := p.defensiveTouchdowns + gameDefTDs }
    let gamePoints := toDouble (gamePoints + toDouble ((gameDefTDs : ℚ) * 6))
    let pointsAllowed := rng (k + 3) 0 35
    let gamePoints := toDouble (gamePoints + pointsAllowedBonus pointsAllowed)
    ({ p with fantasyPoints := toDouble (p.fantasyPoints + gamePoints) }, k + 4)

/-- The loop of `Team::simulateGame` in `double` arithmetic: the score, the heap
and the cursor of the random source after the remaining lineup entries. -/
def IEEE.Team.simulateGameLoop (rng : Rng) :
    List PlayerPtr → Heap → ℚ → Nat → Option (ℚ × Heap × Nat)
  | [], heap, gameScore, k => some (gameScore, heap, k)
  | p :: rest, heap, gameScore, k =>
    match heap[p]? with
    | none => none
    | some pl =>
      IEEE.Team.simulateGameLoop rng rest
        (heap.set p (IEEE.Player.simulateGamePerformance pl rng k).1)
        (toDouble (gameScore + (IEEE.Player.simulateGamePerformance pl rng k).1.fantasyPoints))
        (IEEE.Player.simulateGamePerformance pl rng k).2

/-- The method `Team::simulateGame` in `double` arithmetic: the returned score,
the heap, the team and the cursor. -/
def IEEE.Team.simulateGame (rng : Rng) (heap : Heap) (t : Team) (k : Nat) :
    Option (ℚ × Heap × Team × Nat) :=
  match IEEE.Team.simulateGameLoop rng t.activeLineup heap 0 k with
  | none => none
  | some (gameScore, heap', k') =>
    some (gameScore, heap', { t with totalPoints := toDouble (t.totalPoints + gameScore) }, k')

/-- The method `Matchup::simulate` in `double` arithmetic, on the teams and the
heap it reaches through its two pointers: the matchup, the heap, the teams and
the cursor afterwards. -/
def IEEE.Matchup.simulate (rng : Rng) (m : Matchup) (heap : Heap) (teams : List Team)
    (k : Nat) : Option (Matchup × Heap × List Team × Nat) :=
  match teams[m.homeTeam]? with
  | none => none
  | some home =>
    if home.getLineupSize = 0 then some (m, heap, teams, k)
    else
      match teams[m.awayTeam]? with
      | none => none
      | some away =>
        if away.getLineupSize = 0 then some (m, heap, teams, k)
        else
          match IEEE.Team.simulateGame rng heap home k with
          | none => none
          | some (homeScore, heap1, home1, k1) =>
            let teams1 := teams.set m.homeTeam home1
            match teams1[m.awayTeam]? with
            | none => none
            | some away1 =>
              match IEEE.Team.simulateGame rng heap1 away1 k1 with
              | none => none
              | some (awayScore, heap2, away2, k2) =>
                let teams2 := teams1.set m.awayTeam away2
                let teams3 :=
                  if homeScore > awayScore then
                    (teams2.modify (fun t => t.updateRecord true) m.homeTeam).modify
                      (fun t => t.updateRecord false) m.awayTeam
                  else if awayScore > homeScore then
                    (teams2.modify (fun t => t.updateRecord false) m.homeTeam).modify
                      (fun t => t.updateRecord true) m.awayTeam
                  else
                    (teams2.modify (fun t => t.updateRecord false) m.homeTeam).modify
                      (fun t => t.updateRecord false) m.awayTeam
                some ({ m with homeScore := homeScore, awayScore := awayScore,
                               isCompleted := true },
                      heap2, teams3, k2)

/-- A random source for one quarterback: 353 passing yards, 3 passing
touchdowns, no interception, 5 rushing yards and 1 rushing touchdown; a value
that does not lie in the range asked for is moved to its nearest end. -/
def Rng.quarterback : Rng := fun k lo hi =>
  max lo (min hi (if k = 0 then 353 else if k = 1 then 3 else if k = 2 then 0
    else if k = 3 then 5 else if k = 4 then 1 else 0))

/-- A random source for two wide receivers: 57 yards and 1 touchdown for the
first, 117 yards and no touchdown for the second; a value that does not lie in
the range asked for is moved to its nearest end. -/
def Rng.receivers : Rng := fun k lo hi =>
  max lo (min hi (if k = 0 then 57 else if k = 1 then 1 else if k = 2 then 117 else 0))

/-- A team that fields the wide receiver with id 15. -/
def Team.receiverA : Team := { Team.ctor "A" "Ann" with roster := [14], activeLineup := [14] }

/-- A team that fields the wide receiver with id 16. -/
def Team.receiverB : Team := { Team.ctor "B" "Bob" with roster := [15], activeLineup := [15] }

/-! ## The search loop -/

theorem findById_some_none_iff (heap : Heap) (ptrs : List PlayerPtr) (id : Int) :
    findById heap ptrs id = some none ↔
      ∀ p ∈ ptrs, ∃ pl, heap[p]? = some pl ∧ pl.id ≠ id := by
  induction ptrs with
  | nil => simp [findById]
  | cons p rest ih =>
    simp only [findById, List.mem_cons, forall_eq_or_imp]
    cases hp : heap[p]? with
    | none => simp
    | some pl =>
      by_cases hid : pl.id = id
      · simp [hid]
      · simp only [hid, if_false, Option.some.injEq, exists_eq_left', ne_eq, not_false_eq_true,
          true_and]
        rw [← ih]
        cases findById heap rest id with
        | none => simp
        | some r => cases r <;> simp

theorem findById_some_some (heap : Heap) (ptrs : List PlayerPtr) (id : Int) (i : Nat)
    (h : findById heap ptrs id = some (some i)) :
    ∃ p pl, ptrs[i]? = some p ∧ heap[p]? = some pl ∧ pl.id = id ∧
      ∀ q ∈ ptrs.take i, ∃ ql, heap[q]? = some ql ∧ ql.id ≠ id := by
  induction ptrs generalizing i with
  | nil => simp [findById] at h
  | cons p rest ih =>
    simp only [findById] at h
    cases hp : heap[p]? with
    | none => simp [hp] at h
    | some pl =>
      simp only [hp] at h
      by_cases hid : pl.id = id
      · simp only [hid, if_true, Option.some.injEq] at h
        subst h
        exact ⟨p, pl, by simp, hp, hid, by simp⟩
      · simp only [hid, if_false] at h
        cases hr : findById heap rest id with
        | none => simp [hr] at h
        | some r =>
          cases r with
          | none => simp [hr] at h
          | some j =>
            simp only [hr, Option.some.injEq] at h
            subst h
            obtain ⟨q, ql, h1, h2, h3, h4⟩ := ih j hr
            refine ⟨q, ql, by simpa using h1, h2, h3, ?_⟩
            intro x hx
            simp only [List.take_succ_cons, List.mem_cons] at hx
            rcases hx with rfl | hx
            · exact ⟨pl, hp, hid⟩
            · exact h4 x hx

theorem findById_defined (heap : Heap) (ptrs : List PlayerPtr) (id : Int)
    (hv : ∀ p ∈ ptrs, p < heap.length) : ∃ r, findById heap ptrs id = some r := by
  induction ptrs with
  | nil => exact ⟨none, rfl⟩
  | cons p rest ih =>
    have hp : p < heap.length := hv p (by simp)
    obtain ⟨r, hr⟩ := ih (fun q hq => hv q (by simp [hq]))
    simp only [findById, List.getElem?_eq_getElem hp, hr]
    by_cases hid : heap[p].id = id
    · simp [hid]
    · cases r <;> simp [hid]

theorem findById_of_mem (heap : Heap) (ptrs : List PlayerPtr) (id : Int)
    (hv : ∀ p ∈ ptrs, p < heap.length) (hm : ∃ p ∈ ptrs, getId heap p = some id) :
    ∃ i, findById heap ptrs id = some (some i) := by
  obtain ⟨r, hr⟩ := findById_defined heap ptrs id hv
  cases r with
  | some i => exact ⟨i, hr⟩
  | none =>
    exfalso
    obtain ⟨p, hp, hid⟩ := hm
    obtain ⟨pl, h1, h2⟩ := (findById_some_none_iff heap ptrs id).1 hr p hp
    simp [getId, h1] at hid
    exact h2 hid

/-! ## The lineup loop -/

theorem setLineupLoop_from_roster (heap : Heap) (roster : List PlayerPtr) (ids : List Int)
    (acc : List PlayerPtr) (b : Bool) (l : List PlayerPtr)
    (h : Team.setLineupLoop heap roster ids acc = some (b, l)) :
    ∃ l', l = acc ++ l' ∧ ∀ p ∈ l', p ∈ roster := by
  induction ids generalizing acc with
  | nil =>
    simp only [Team.setLineupLoop, Option.some.injEq, Prod.mk.injEq] at h
    exact ⟨[], by simp [h.2], by simp⟩
  | cons id ids ih =>
    simp only [Team.setLineupLoop] at h
    cases hf : findById heap roster id with
    | none => simp [hf] at h
    | some r =>
      cases r with
      | none =>
        simp only [hf, Option.some.injEq, Prod.mk.injEq] at h
        exact ⟨[], by simp [h.2], by simp⟩
      | some i =>
        simp only [hf] at h
        cases hi : roster[i]? with
        | none => simp [hi] at h
        | some p =>
          simp only [hi] at h
          obtain ⟨l', h1, h2⟩ := ih (acc ++ [p]) h
          refine ⟨p :: l', by simp [h1], ?_⟩
          intro q hq
          simp only [List.mem_cons] at hq
          rcases hq with rfl | hq
          · exact List.getElem?_mem hi
          · exact h2 q hq

theorem setLineupLoop_of_on_roster (heap : Heap) (roster : List PlayerPtr) (ids : List Int)
    (acc : List PlayerPtr) (hv : ∀ p ∈ roster, p < heap.length)
    (hm : ∀ id ∈ ids, ∃ p ∈ roster, getId heap p = some id) :
    ∃ l', Team.setLineupLoop heap roster ids acc = some (true, acc ++ l') ∧
      l'.map (getId heap) = ids.map some ∧ ∀ p ∈ l', p ∈ roster := by
  induction ids generalizing acc with
  | nil => exact ⟨[], by simp [Team.setLineupLoop], by simp, by simp⟩
  | cons id ids ih =>
    obtain ⟨i, hi⟩ := findById_of_mem heap roster id hv (hm id (by simp))
    obtain ⟨p, pl, h1, h2, h3, _⟩ := findById_some_some heap roster id i hi
    obtain ⟨l', h4, h5, h6⟩ := ih (acc ++ [p]) (fun x hx => hm x (by simp [hx]))
    refine ⟨p :: l', ?_, ?_, ?_⟩
    · simp only [Team.setLineupLoop, hi, h1, h4]
      simp
    · simp [h5, getId, h2, h3]
    · intro q hq
      simp only [List.mem_cons] at hq
      rcases hq with rfl | hq
      · exact List.getElem?_mem h1
      · exact h6 q hq

/-! ## What a simulated week leaves alone -/

theorem simulateGamePerformance_id (p : Player) (rng : Rng) (k : Nat) :
    (p.simulateGamePerformance rng k).1.id = p.id := by
  unfold Player.simulateGamePerformance
  cases hp : p.position <;> simp [hp]

theorem map_id_set_same (heap : Heap) (p : PlayerPtr) (pl pl' : Player)
    (hp : heap[p]? = some pl) (hid : pl'.id = pl.id) :
    (heap.set p pl').map Player.id = heap.map Player.id := by
  apply List.ext_getElem?
  intro n
  simp only [List.map_set, List.getElem?_set, List.getElem?_map, List.length_map]
  by_cases hn : p = n
  · subst hn
    have hlt : p < heap.length := (List.getElem?_eq_some.1 hp).1
    simp [hlt, hp, hid]
  · simp [hn]

theorem simulateGameLoop_ids (rng : Rng) (l : List PlayerPtr) (heap : Heap) (s : ℚ) (k : Nat)
    (r : ℚ × Heap × Nat) (h : Team.simulateGameLoop rng l heap s k = some r) :
    r.2.1.map Player.id = heap.map Player.id := by
  induction l generalizing heap s k with
  | nil =>
    simp only [Team.simulateGameLoop, Option.some.injEq] at h
    subst h; rfl
  | cons p rest ih =>
    simp only [Team.simulateGameLoop] at h
    cases hp : heap[p]? with
    | none => simp [hp] at h
    | some pl =>
      simp only [hp] at h
      rw [ih _ _ _ h]
      exact map_id_set_same heap p pl _ hp (simulateGamePerformance_id pl rng k)

theorem simulateGame_keeps (rng : Rng) (heap : Heap) (t : Team) (k : Nat)
    (r : ℚ × Heap × Team × Nat) (h : Team.simulateGame rng heap t k = some r) :
    r.2.1.map Player.id = heap.map Player.id ∧ r.2.2.1.setup = t.setup := by
  simp only [Team.simulateGame] at h
  cases hl : Team.simulateGameLoop rng t.activeLineup heap 0 k with
  | none => simp [hl] at h
  | some x =>
    obtain ⟨s, heap', k'⟩ := x
    simp only [hl, Option.some.injEq] at h
    subst h
    exact ⟨simulateGameLoop_ids rng _ heap 0 k _ hl, rfl⟩

theorem map_setup_set (teams : List Team) (i : Nat) (t t' : Team)
    (hi : teams[i]? = some t) (ht : t'.setup = t.setup) :
    (teams.set i t').map Team.setup = teams.map Team.setup := by
  apply List.ext_getElem?
  intro n
  simp only [List.map_set, List.getElem?_set, List.getElem?_map, List.length_map]
  by_cases hn : i = n
  · subst hn
    have hlt : i < teams.length := (List.getElem?_eq_some.1 hi).1
    simp [hlt, hi, ht]
  · simp [hn]

theorem map_setup_modify (teams : List Team) (i : Nat) (f : Team → Team)
    (hf : ∀ t, (f t).setup = t.setup) :
    (teams.modify f i).map Team.setup = teams.map Team.setup := by
  apply List.ext_getElem?
  intro n
  simp only [List.getElem?_map, List.getElem?_modify]
  cases teams[n]? with
  | none => rfl
  | some t => by_cases hn : i = n <;> simp [hn, hf]

theorem updateRecord_setup (b : Bool) (t : Team) : (t.updateRecord b).setup = t.setup := by
  unfold Team.updateRecord
  cases b <;> rfl

theorem Matchup.simulate_keeps (rng : Rng) (m : Matchup) (heap : Heap) (teams : List Team)
    (k : Nat) (r : Matchup × Heap × List Team × Nat)
    (h : Matchup.simulate rng m heap teams k = some r) :
    r.2.1.map Player.id = heap.map Player.id ∧
      r.2.2.1.map Team.setup = teams.map Team.setup := by
  unfold Matchup.simulate at h
  cases hh : teams[m.homeTeam]? with
  | none => simp [hh] at h
  | some home =>
    simp only [hh] at h
    split_ifs at h with hc
    · simp only [Option.some.injEq] at h
      subst h
      exact ⟨rfl, rfl⟩
    · cases ha : teams[m.awayTeam]? with
      | none => simp [ha] at h
      | some away =>
        simp only [ha] at h
        split_ifs at h with hc'
        · simp only [Option.some.injEq] at h
          subst h
          exact ⟨rfl, rfl⟩
        · cases h1 : Team.simulateGame rng heap home k with
          | none => simp [h1] at h
          | some x1 =>
            obtain ⟨homeScore, heap1, home1, k1⟩ := x1
            simp only [h1] at h
            have e1 := simulateGame_keeps rng heap home k _ h1
            have s1 := map_setup_set teams m.homeTeam home home1 hh e1.2
            cases ha1 : (teams.set m.homeTeam home1)[m.awayTeam]? with
            | none => simp [ha1] at h
            | some away1 =>
              simp only [ha1] at h
              cases h2 : Team.simulateGame rng heap1 away1 k1 with
              | none => simp [h2] at h
              | some x2 =>
                obtain ⟨awayScore, heap2, away2, k2⟩ := x2
                simp only [h2, Option.some.injEq] at h
                have e2 := simulateGame_keeps rng heap1 away1 k1 _ h2
                have s2 := map_setup_set _ m.awayTeam away1 away2 ha1 e2.2
                subst h
                refine ⟨by rw [e2.1, e1.1], ?_⟩
                simp only
                split_ifs <;>
                  simp only [map_setup_modify _ _ _ (updateRecord_setup _), s2, s1]

theorem simulateWeekLoop_keeps (rng : Rng) (sched done : List Matchup) (heap : Heap)
    (teams : List Team) (k : Nat) (r : List Matchup × Heap × List Team × Nat)
    (h : League.simulateWeekLoop rng sched done heap teams k = some r) :
    r.2.1.map Player.id = heap.map Player.id ∧
      r.2.2.1.map Team.setup = teams.map Team.setup := by
  induction sched generalizing done heap teams k with
  | nil =>
    simp only [League.simulateWeekLoop, Option.some.injEq] at h
    subst h
    exact ⟨rfl, rfl⟩
  | cons m rest ih =>
    simp only [League.simulateWeekLoop] at h
    cases h1 : Matchup.simulate rng m heap teams k with
    | none => simp [h1] at h
    | some x =>
      obtain ⟨m', heap', teams', k'⟩ := x
      simp only [h1] at h
      have e1 := Matchup.simulate_keeps rng m heap teams k _ h1
      have e2 := ih _ _ _ _ h
      exact ⟨by rw [e2.1, e1.1], by rw [e2.2, e1.2]⟩

theorem simulateWeek_keeps (L L' : League) (rng : Rng) (k : Nat)
    (h : L.simulateWeek rng k = some L') :
    L'.heap.map Player.id = L.heap.map Player.id ∧
      L'.teams.map Team.setup = L.teams.map Team.setup ∧
      L'.availablePlayers = L.availablePlayers ∧ L'.maxTeams = L.maxTeams ∧
      L'.rosterSize = L.rosterSize ∧ L'.lineupSize = L.lineupSize := by
  unfold League.simulateWeek at h
  split_ifs at h with he
  · simp only [Option.some.injEq] at h
    subst h
    simp
  · cases h1 : League.simulateWeekLoop rng L.schedule [] L.heap L.teams k with
    | none => simp [h1] at h
    | some x =>
      obtain ⟨sched', heap', teams', k'⟩ := x
      simp only [h1, Option.some.injEq] at h
      have e := simulateWeekLoop_keeps rng _ _ _ _ k _ h1
      subst h
      exact ⟨e.1, e.2, rfl, rfl, rfl, rfl⟩

/-! ## The invariant of the league -/

theorem set_same (teams : List Team) (i : Nat) (t : Team) (hi : teams[i]? = some t) :
    teams.set i t = teams := by
  apply List.ext_getElem?
  intro n
  simp only [List.getElem?_set]
  by_cases hn : i = n
  · subst hn
    have hlt : i < teams.length := (List.getElem?_eq_some.1 hi).1
    simp [hlt, hi]
  · simp [hn]

theorem addPlayer_cases (heap : Heap) (t : Team) (player : PlayerPtr) (b : Bool) (t' : Team)
    (h : Team.addPlayer heap t player = some (b, t')) :
    (b = true ∧ t' = { t with roster := t.roster ++ [player] }) ∨ (b = false ∧ t' = t) := by
  unfold Team.addPlayer at h
  cases hp : heap[player]? with
  | none =>
    simp only [hp] at h
    split_ifs at h
    simp only [Option.some.injEq, Prod.mk.injEq] at h
    exact Or.inl ⟨h.1.symm, h.2.symm⟩
  | some pl =>
    simp only [hp] at h
    cases hf : findById heap t.roster pl.id with
    | none => simp [hf] at h
    | some r =>
      cases r with
      | none =>
        simp only [hf, Option.some.injEq, Prod.mk.injEq] at h
        exact Or.inl ⟨h.1.symm, h.2.symm⟩
      | some i =>
        simp only [hf, Option.some.injEq, Prod.mk.injEq] at h
        exact Or.inr ⟨h.1.symm, h.2.symm⟩

theorem flatten_roster_set (teams : List Team) (i : Nat) (t t' : Team) (p : PlayerPtr)
    (hi : teams[i]? = some t) (ht : t'.roster = t.roster ++ [p]) :
    ((teams.set i t').map Team.roster).flatten.Perm (p :: (teams.map Team.roster).flatten) := by
  induction teams generalizing i with
  | nil => simp at hi
  | cons a rest ih =>
    cases i with
    | zero =>
      simp only [List.getElem?_cons_zero, Option.some.injEq] at hi
      subst hi
      simp only [List.set_cons_zero, List.map_cons, List.flatten_cons, ht]
      apply List.perm_iff_count.2
      intro x
      simp only [List.count_append, List.count_cons, List.count_nil]
      omega
    | succ j =>
      simp only [List.getElem?_cons_succ] at hi
      simp only [List.set_cons_succ, List.map_cons, List.flatten_cons]
      exact ((ih j hi).append_left a.roster).trans List.perm_middle

theorem eraseIdx_perm (l : List PlayerPtr) (i : Nat) (p : PlayerPtr) (hi : l[i]? = some p) :
    (p :: l.eraseIdx i).Perm l := by
  induction l generalizing i with
  | nil => simp at hi
  | cons a rest ih =>
    cases i with
    | zero =>
      simp only [List.getElem?_cons_zero, Option.some.injEq] at hi
      subst hi
      simp
    | succ j =>
      simp only [List.getElem?_cons_succ] at hi
      simp only [List.eraseIdx_cons_succ]
      exact (List.Perm.swap a p _).trans ((ih j hi).cons a)

theorem Inv_init (name : String) (maxTeams rosterSize lineupSize : Int)
    (h1 : IsInt32 maxTeams) (h2 : IsInt32 rosterSize) (h3 : IsInt32 lineupSize) :
    (League.ctor name maxTeams rosterSize lineupSize).Inv where
  ids := rfl
  ptrs := by simp [League.allPtrs, League.ctor]
  lineup := by simp [League.ctor]
  maxTeams := h1
  rosterSize := h2
  lineupSize := h3

theorem Inv_of_same (L L' : League) (hL : L.Inv)
    (hh : L'.heap.map Player.id = L.heap.map Player.id)
    (ht : L'.teams.map Team.setup = L.teams.map Team.setup)
    (hp : L'.availablePlayers = L.availablePlayers) (h1 : L'.maxTeams = L.maxTeams)
    (h2 : L'.rosterSize = L.rosterSize) (h3 : L'.lineupSize = L.lineupSize) : L'.Inv where
  ids := by rw [hh]; exact hL.ids
  ptrs := by
    have hr : L'.teams.map Team.roster = L.teams.map Team.roster := by
      have := congrArg (List.map (fun s : String × String × List PlayerPtr × List PlayerPtr =>
        s.2.2.1)) ht
      simpa [List.map_map, Function.comp_def, Team.setup] using this
    have := hL.ptrs
    simp only [League.allPtrs] at this ⊢
    rw [hp, hr]
    exact this
  lineup := by
    intro t ht' p hp'
    have hm : t.setup ∈ L'.teams.map Team.setup := List.mem_map_of_mem _ ht'
    rw [ht] at hm
    obtain ⟨t0, ht0, he⟩ := List.mem_map.1 hm
    simp only [Team.setup, Prod.mk.injEq] at he
    have := hL.lineup t0 ht0 p (by rw [he.2.2.2]; exact hp')
    rw [he.2.2.1] at this
    exact this
  maxTeams := by rw [h1]; exact hL.maxTeams
  rosterSize := by rw [h2]; exact hL.rosterSize
  lineupSize := by rw [h3]; exact hL.lineupSize

theorem Inv_registerTeam (L : League) (teamName ownerName : String) (hL : L.Inv) :
    (L.registerTeam teamName ownerName).2.Inv := by
  unfold League.registerTeam
  split_ifs
  · exact hL
  · exact hL
  · refine ⟨hL.ids, ?_, ?_, hL.maxTeams, hL.rosterSize, hL.lineupSize⟩
    · have := hL.ptrs
      simpa [League.allPtrs, Team.ctor] using this
    · intro t ht p hp
      simp only [List.mem_append, List.mem_singleton] at ht
      rcases ht with ht | rfl
      · exact hL.lineup t ht p hp
      · simp [Team.ctor] at hp

theorem Inv_draftPlayer (L : League) (team : TeamPtr) (playerId : Int) (r : Bool × League)
    (hL : L.Inv) (h : L.draftPlayer team playerId = some r) : r.2.Inv := by
  unfold League.draftPlayer at h
  cases hf : findById L.heap L.availablePlayers playerId with
  | none => simp [hf] at h
  | some x =>
    cases x with
    | none =>
      simp only [hf, Option.some.injEq] at h
      subst h; exact hL
    | some i =>
      simp only [hf] at h
      cases ht : L.teams[team]? with
      | none => simp [ht] at h
      | some t =>
        simp only [ht] at h
        split_ifs at h with hfull
        · simp only [Option.some.injEq] at h
          subst h; exact hL
        · cases hp : L.availablePlayers[i]? with
          | none => simp [hp] at h
          | some player =>
            simp only [hp] at h
            cases ha : Team.addPlayer L.heap t player with
            | none => simp [ha] at h
            | some y =>
              obtain ⟨b, t'⟩ := y
              rcases addPlayer_cases L.heap t player b t' ha with ⟨hb, ht'⟩ | ⟨hb, ht'⟩
              · subst hb
                simp only [ha, Option.some.injEq] at h
                subst h
                refine ⟨hL.ids, ?_, ?_, hL.maxTeams, hL.rosterSize, hL.lineupSize⟩
                · refine List.Perm.trans ?_ hL.ptrs
                  simp only [League.allPtrs]
                  have e1 := flatten_roster_set L.teams team t t' player ht (by rw [ht'])
                  have e2 := eraseIdx_perm L.availablePlayers i player hp
                  refine (List.Perm.append_left _ e1).trans ?_
                  refine List.perm_middle.trans ?_
                  exact List.Perm.append_right _ e2
                · intro u hu p hp'
                  rcases List.mem_or_eq_of_mem_set hu with hu | rfl
                  · exact hL.lineup u hu p hp'
                  · have := hL.lineup t (List.getElem?_mem ht) p (by rw [ht'] at hp'; exact hp')
                    rw [ht']
                    simp [this]
              · subst hb
                simp only [ha, Option.some.injEq] at h
                subst h
                subst ht'
                simp only [set_same L.teams team t' ht]
                exact hL

theorem Inv_setTeamLineup (L : League) (team : TeamPtr) (playerIds : List Int)
    (r : Bool × League) (hL : L.Inv) (h : L.setTeamLineup team playerIds = some r) :
    r.2.Inv := by
  unfold League.setTeamLineup at h
  split_ifs at h with hlen
  · simp only [Option.some.injEq] at h
    subst h; exact hL
  · cases ht : L.teams[team]? with
    | none => simp [ht] at h
    | some t =>
      simp only [ht, Team.setLineup] at h
      cases hs : Team.setLineupLoop L.heap t.roster playerIds [] with
      | none => simp [hs] at h
      | some y =>
        obtain ⟨ok, lineup⟩ := y
        simp only [hs, Option.some.injEq] at h
        subst h
        obtain ⟨l', hl, hsub⟩ := setLineupLoop_from_roster _ _ _ _ _ _ hs
        refine ⟨hL.ids, ?_, ?_, hL.maxTeams, hL.rosterSize, hL.lineupSize⟩
        · refine List.Perm.trans ?_ hL.ptrs
          simp only [League.allPtrs]
          have : (L.teams.set team { t with activeLineup := lineup }).map Team.roster =
              L.teams.map Team.roster := by
            rw [List.map_set]
            apply List.ext_getElem?
            intro n
            simp only [List.getElem?_set, List.getElem?_map, List.length_map]
            by_cases hn : team = n
            · subst hn
              have hlt : team < L.teams.length := (List.getElem?_eq_some.1 ht).1
              simp [hlt, ht]
            · simp [hn]
          rw [this]
        · intro u hu p hp
          rcases List.mem_or_eq_of_mem_set hu with hu | rfl
          · exact hL.lineup u hu p hp
          · simp only [List.nil_append] at hl
            subst hl
            exact hsub p hp

theorem Inv_step (L L' : League) (hL : L.Inv) (h : League.Step L L') : L'.Inv := by
  cases h with
  | registerTeam teamName ownerName => exact Inv_registerTeam L teamName ownerName hL
  | draftPlayer team playerId r h => exact Inv_draftPlayer L team playerId r hL h
  | setTeamLineup team playerIds r h => exact Inv_setTeamLineup L team playerIds r hL h
  | generateMatchups shuffled _ =>
    unfold League.generateMatchups
    split_ifs
    · exact ⟨hL.ids, hL.ptrs, hL.lineup, hL.maxTeams, hL.rosterSize, hL.lineupSize⟩
    · exact ⟨hL.ids, hL.ptrs, hL.lineup, hL.maxTeams, hL.rosterSize, hL.lineupSize⟩
  | simulateWeek rng k _ _ hw =>
    obtain ⟨h1, h2, h3, h4, h5, h6⟩ := simulateWeek_keeps L L' rng k hw
    exact Inv_of_same L L' hL h1 h2 h3 h4 h5 h6

theorem Inv_of_reachable (L : League) (h : L.Reachable) : L.Inv := by
  induction h with
  | init name maxTeams rosterSize lineupSize h1 h2 h3 =>
    exact Inv_init name maxTeams rosterSize lineupSize h1 h2 h3
  | step L L' _ hs ih => exact Inv_step L L' ih hs

/-! ## Consequences of the invariant -/

theorem catalog_ids_nodup : (League.catalog.map Player.id).Nodup := by decide

theorem Inv_heap_length (L : League) (hL : L.Inv) : L.heap.length = League.catalog.length := by
  have := congrArg List.length hL.ids
  simpa using this

theorem Inv_valid (L : League) (hL : L.Inv) (p : PlayerPtr) (hp : p ∈ L.allPtrs) :
    p < L.heap.length := by
  rw [Inv_heap_length L hL]
  exact List.mem_range.1 (hL.ptrs.mem_iff.1 hp)

theorem Inv_getId_inj (L : League) (hL : L.Inv) (p q : PlayerPtr) (hp : p < L.heap.length)
    (hq : q < L.heap.length) (h : getId L.heap p = getId L.heap q) : p = q := by
  have hnd : (L.heap.map Player.id).Nodup := by rw [hL.ids]; exact catalog_ids_nodup
  simp only [getId, List.getElem?_eq_getElem hp, List.getElem?_eq_getElem hq,
    Option.some.injEq] at h
  have hp' : p < (L.heap.map Player.id).length := by simpa using hp
  have hq' : q < (L.heap.map Player.id).length := by simpa using hq
  have e : (L.heap.map Player.id)[p] = (L.heap.map Player.id)[q] := by simpa using h
  exact hnd.getElem_inj_iff.1 e

theorem Inv_nodup (L : League) (hL : L.Inv) : L.allPtrs.Nodup :=
  hL.ptrs.nodup_iff.2 (List.nodup_range _)

theorem Inv_pool_roster (L : League) (hL : L.Inv) (t : Team) (ht : t ∈ L.teams)
    (p : PlayerPtr) (hp : p ∈ L.availablePlayers) : p ∉ t.roster := by
  have h := Inv_nodup L hL
  simp only [League.allPtrs, List.nodup_append] at h
  intro hq
  exact List.disjoint_left.1 h.2.2 hp (List.mem_flatten.2 ⟨t.roster, List.mem_map_of_mem _ ht, hq⟩)

theorem Inv_roster_roster (L : League) (hL : L.Inv) (i j : Nat) (t u : Team) (hij : i < j)
    (hi : L.teams[i]? = some t) (hj : L.teams[j]? = some u) (p : PlayerPtr)
    (hp : p ∈ t.roster) : p ∉ u.roster := by
  have h := Inv_nodup L hL
  simp only [League.allPtrs, List.nodup_append, List.nodup_flatten] at h
  have hpw := List.pairwise_iff_getElem.1 h.2.1.2
  obtain ⟨hi1, hi2⟩ := List.getElem?_eq_some.1 hi
  obtain ⟨hj1, hj2⟩ := List.getElem?_eq_some.1 hj
  have := hpw i j (by simpa using hi1) (by simpa using hj1) hij
  simp only [List.getElem_map, hi2, hj2] at this
  exact List.disjoint_left.1 this hp

theorem Inv_mem_allPtrs_pool (L : League) (p : PlayerPtr) (hp : p ∈ L.availablePlayers) :
    p ∈ L.allPtrs := by
  simp [League.allPtrs, hp]

theorem Inv_mem_allPtrs_roster (L : League) (t : Team) (ht : t ∈ L.teams) (p : PlayerPtr)
    (hp : p ∈ t.roster) : p ∈ L.allPtrs := by
  simp only [League.allPtrs, List.mem_append, List.mem_flatten, List.mem_map]
  exact Or.inr ⟨t.roster, ⟨t, ht, rfl⟩, hp⟩

/-! ## The claims -/

/-- C1: in every state reachable from a fresh league, every pointer of the pool
and of the rosters designates a player, no player id occurs twice in the pool
or twice in one roster, none occurs in the pool and in a roster, and none
occurs in the rosters of two different teams. -/
theorem reachable_ids_exclusive (L : League) (h : L.Reachable) :
    (∀ p ∈ L.allPtrs, ∃ pl, L.heap[p]? = some pl) ∧
    (L.availablePlayers.map (getId L.heap)).Nodup ∧
    (∀ t ∈ L.teams, (t.roster.map (getId L.heap)).Nodup) ∧
    (∀ t ∈ L.teams, ∀ p ∈ L.availablePlayers, ∀ q ∈ t.roster,
      getId L.heap p ≠ getId L.heap q) ∧
    (∀ (i j : Nat) (t u : Team), i ≠ j → L.teams[i]? = some t → L.teams[j]? = some u →
      ∀ p ∈ t.roster, ∀ q ∈ u.roster, getId L.heap p ≠ getId L.heap q) := by
  have hL := Inv_of_reachable L h
  have hnd := Inv_nodup L hL
  have hpool : ∀ p ∈ L.availablePlayers, p < L.heap.length := fun p hp =>
    Inv_valid L hL p (Inv_mem_allPtrs_pool L p hp)
  have hros : ∀ t ∈ L.teams, ∀ p ∈ t.roster, p < L.heap.length := fun t ht p hp =>
    Inv_valid L hL p (Inv_mem_allPtrs_roster L t ht p hp)
  simp only [League.allPtrs, List.nodup_append, List.nodup_flatten] at hnd
  refine ⟨?_, ?_, ?_, ?_, ?_⟩
  · intro p hp
    exact ⟨_, List.getElem?_eq_getElem (Inv_valid L hL p hp)⟩
  · exact List.Nodup.map_on
      (fun p hp q hq e => Inv_getId_inj L hL p q (hpool p hp) (hpool q hq) e) hnd.1
  · intro t ht
    exact List.Nodup.map_on
      (fun p hp q hq e => Inv_getId_inj L hL p q (hros t ht p hp) (hros t ht q hq) e)
      (hnd.2.1.1 _ (List.mem_map_of_mem _ ht))
  · intro t ht p hp q hq e
    have := Inv_getId_inj L hL p q (hpool p hp) (hros t ht q hq) e
    subst this
    exact Inv_pool_roster L hL t ht p hp hq
  · intro i j t u hij hi hj p hp q hq e
    have := Inv_getId_inj L hL p q (hros t (List.getElem?_mem hi) p hp)
      (hros u (List.getElem?_mem hj) q hq) e
    subst this
    rcases Nat.lt_or_gt_of_ne hij with hlt | hgt
    · exact Inv_roster_roster L hL i j t u hlt hi hj p hp hq
    · exact Inv_roster_roster L hL j i u t hgt hj hi p hq hp

theorem toInt32_of_lt (n : Nat) (h : (n : Int) < 2147483648) : toInt32 n = n := by
  unfold toInt32
  omega

theorem toSizeT_of_nonneg (x : Int) (h0 : 0 ≤ x) (h : IsInt32 x) : (toSizeT x : Int) = x := by
  unfold toSizeT
  unfold IsInt32 at h
  omega

/-- C2: when every pointer of the pool designates a player, `draftPlayer` returns
failure and leaves the whole league (pool, rosters and all the rest) as it was,
both when no player of the pool has the id and when the roster of the team
already holds `rosterSize` players (or more; the size is read as an `int`). -/
theorem draftPlayer_fails_unchanged (L : League) (team : TeamPtr) (playerId : Int)
    (hv : ∀ p ∈ L.availablePlayers, p < L.heap.length) :
    ((∀ p ∈ L.availablePlayers, getId L.heap p ≠ some playerId) →
      L.draftPlayer team playerId = some (false, L)) ∧
    (∀ t : Team, L.teams[team]? = some t → L.rosterSize ≤ (t.roster.length : Int) →
      (t.roster.length : Int) < 2147483648 →
      L.draftPlayer team playerId = some (false, L)) := by
  constructor
  · intro hno
    have hf : findById L.heap L.availablePlayers playerId = some none := by
      rw [findById_some_none_iff]
      intro p hp
      have hlt := hv p hp
      refine ⟨L.heap[p], List.getElem?_eq_getElem hlt, ?_⟩
      intro hid
      exact hno p hp (by simp [getId, List.getElem?_eq_getElem hlt, hid])
    simp [League.draftPlayer, hf]
  · intro t ht hfull hint
    obtain ⟨r, hr⟩ := findById_defined L.heap L.availablePlayers playerId hv
    cases r with
    | none => simp [League.draftPlayer, hr]
    | some i =>
      have hsz : t.getRosterSize ≥ L.rosterSize := by
        unfold Team.getRosterSize
        rw [toInt32_of_lt _ hint]
        exact hfull
      simp [League.draftPlayer, hr, ht, hsz]

/-- C2 at a league with rosters of size 0: drafting the unknown id 99 and drafting
player 1 to the full (empty) roster both fail and change nothing. -/
theorem draftPlayer_fails_unchanged_witness :
    (∀ p ∈ League.noRoom.availablePlayers, p < League.noRoom.heap.length) ∧
    League.noRoom.draftPlayer 0 99 = some (false, League.noRoom) ∧
    League.noRoom.draftPlayer 0 1 = some (false, League.noRoom) :=
  ⟨by decide,
   (draftPlayer_fails_unchanged League.noRoom 0 99 (by decide)).1 (by decide),
   (draftPlayer_fails_unchanged League.noRoom 0 1 (by decide)).2
     (Team.ctor "A" "Ann") (by decide) (by decide) (by decide)⟩

theorem take_drop_of_getElem? (l : List PlayerPtr) (i : Nat) (p : PlayerPtr)
    (hi : l[i]? = some p) : l = l.take i ++ p :: l.drop (i + 1) := by
  obtain ⟨hlt, he⟩ := List.getElem?_eq_some.1 hi
  rw [← he, List.getElem_cons_drop, List.take_append_drop]

/-- C3: in a state reachable from a fresh league, drafting the id of a player of
the pool to a team whose roster has fewer than `rosterSize` players succeeds:
the pool loses exactly that player (the others keep their order), the roster of
the team gains him at its end, and nothing else in the league changes. -/
theorem draftPlayer_succeeds (L : League) (h : L.Reachable) (team : TeamPtr) (t : Team)
    (playerId : Int) (ht : L.teams[team]? = some t)
    (hin : ∃ p ∈ L.availablePlayers, getId L.heap p = some playerId)
    (hroom : (t.roster.length : Int) < L.rosterSize) :
    ∃ pre p post, L.availablePlayers = pre ++ p :: post ∧
      getId L.heap p = some playerId ∧
      (∀ q ∈ pre ++ post, getId L.heap q ≠ some playerId) ∧
      L.draftPlayer team playerId =
        some (true, { L with availablePlayers := pre ++ post,
                             teams := L.teams.set team { t with roster := t.roster ++ [p] } }) := by
  have hL := Inv_of_reachable L h
  have hpool : ∀ p ∈ L.availablePlayers, p < L.heap.length := fun p hp =>
    Inv_valid L hL p (Inv_mem_allPtrs_pool L p hp)
  have htm : t ∈ L.teams := List.getElem?_mem ht
  obtain ⟨i, hi⟩ := findById_of_mem L.heap L.availablePlayers playerId hpool hin
  obtain ⟨p, pl, h1, h2, h3, _⟩ := findById_some_some L.heap L.availablePlayers playerId i hi
  have hsplit := take_drop_of_getElem? L.availablePlayers i p h1
  have hpid : getId L.heap p = some playerId := by simp [getId, h2, h3]
  have hpm : p ∈ L.availablePlayers := List.getElem?_mem h1
  have hnd : (L.availablePlayers.take i ++ p :: L.availablePlayers.drop (i + 1)).Nodup := by
    rw [← hsplit]
    have := Inv_nodup L hL
    simp only [League.allPtrs, List.nodup_append] at this
    exact this.1
  refine ⟨L.availablePlayers.take i, p, L.availablePlayers.drop (i + 1), hsplit, hpid, ?_, ?_⟩
  · intro q hq hqid
    have hqm : q ∈ L.availablePlayers := by
      rw [hsplit]
      simp only [List.mem_append, List.mem_cons] at hq ⊢
      tauto
    have := Inv_getId_inj L hL q p (hpool q hqm) (hpool p hpm) (by rw [hqid, hpid])
    subst this
    simp only [List.nodup_append, List.nodup_cons, List.disjoint_cons_right] at hnd
    simp only [List.mem_append] at hq
    rcases hq with hq | hq
    · exact hnd.2.2.1 hq
    · exact hnd.2.1.1 hq
  · have hsz : ¬ t.getRosterSize ≥ L.rosterSize := by
      unfold Team.getRosterSize
      have := hL.rosterSize
      unfold IsInt32 at this
      rw [toInt32_of_lt _ (by omega)]
      omega
    have hfr : findById L.heap t.roster pl.id = some none := by
      rw [findById_some_none_iff]
      intro q hq
      have hlt := Inv_valid L hL q (Inv_mem_allPtrs_roster L t htm q hq)
      refine ⟨L.heap[q], List.getElem?_eq_getElem hlt, ?_⟩
      intro hid
      have := Inv_getId_inj L hL q p hlt (hpool p hpm)
        (by rw [hpid]; simp [getId, List.getElem?_eq_getElem hlt, hid, h3])
      subst this
      exact Inv_pool_roster L hL t htm q hpm hq
    simp [League.draftPlayer, hi, ht, hsz, h1, Team.addPlayer, h2, hfr,
      List.eraseIdx_eq_take_drop_succ]

/-- C3 at the league of the application with one team: drafting player 7. -/
theorem draftPlayer_succeeds_witness :
    ∃ pre p post, League.appA.availablePlayers = pre ++ p :: post ∧
      getId League.appA.heap p = some 7 ∧
      (∀ q ∈ pre ++ post, getId League.appA.heap q ≠ some 7) ∧
      League.appA.draftPlayer 0 7 =
        some (true, { League.appA with
          availablePlayers := pre ++ post,
          teams := League.appA.teams.set 0
            { Team.ctor "A" "Ann" with roster := (Team.ctor "A" "Ann").roster ++ [p] } }) :=
  draftPlayer_succeeds League.appA
    (League.Reachable.step League.app League.appA
      (League.Reachable.init "Fantasy Football League" 8 10 5 (by decide) (by decide) (by decide))
      (League.Step.registerTeam League.app "A" "Ann"))
    0 (Team.ctor "A" "Ann") 7 (by decide) ⟨6, by decide, by decide⟩ (by decide)

/-! ## Reachable example states -/

theorem duo3_reachable : League.duo3.Reachable := by
  have h0 : League.duo0.Reachable :=
    League.Reachable.init "Duo" 8 10 2 (by decide) (by decide) (by decide)
  have h1 : League.duo1.Reachable :=
    League.Reachable.step _ _ h0 (League.Step.registerTeam League.duo0 "A" "Ann")
  have h2 : League.duo2.Reachable :=
    League.Reachable.step _ _ h1
      (League.Step.draftPlayer League.duo1 0 1 (true, League.duo2) rfl)
  exact League.Reachable.step _ _ h2
    (League.Step.draftPlayer League.duo2 0 2 (true, League.duo3) rfl)

theorem duo5_reachable : League.duo5.Reachable := by
  have h4 : League.duo4.Reachable :=
    League.Reachable.step _ _ duo3_reachable
      (League.Step.setTeamLineup League.duo3 0 [1, 2] (true, League.duo4) rfl)
  exact League.Reachable.step _ _ h4
    (League.Step.setTeamLineup League.duo4 0 [2, 99] (false, League.duo5) rfl)

/-! ## Lineups -/

theorem setLineup_of_on_roster (heap : Heap) (t : Team) (ids : List Int)
    (hv : ∀ p ∈ t.roster, p < heap.length)
    (hm : ∀ id ∈ ids, ∃ p ∈ t.roster, getId heap p = some id) :
    ∃ lineup, Team.setLineup heap t ids = some (true, { t with activeLineup := lineup }) ∧
      lineup.map (getId heap) = ids.map some ∧ ∀ p ∈ lineup, p ∈ t.roster := by
  obtain ⟨l', h1, h2, h3⟩ := setLineupLoop_of_on_roster heap t.roster ids [] hv hm
  exact ⟨l', by simp [Team.setLineup, h1], h2, h3⟩

theorem setLineupLoop_of_absent (heap : Heap) (roster : List PlayerPtr) (ids : List Int)
    (acc : List PlayerPtr) (hv : ∀ p ∈ roster, p < heap.length)
    (hx : ∃ id ∈ ids, ∀ p ∈ roster, getId heap p ≠ some id) :
    ∃ l, Team.setLineupLoop heap roster ids acc = some (false, l) := by
  induction ids generalizing acc with
  | nil => simp at hx
  | cons id ids ih =>
    obtain ⟨r, hr⟩ := findById_defined heap roster id hv
    cases r with
    | none => exact ⟨acc, by simp [Team.setLineupLoop, hr]⟩
    | some i =>
      obtain ⟨p, pl, h1, h2, h3, _⟩ := findById_some_some heap roster id i hr
      have hrest : ∃ id' ∈ ids, ∀ q ∈ roster, getId heap q ≠ some id' := by
        obtain ⟨id', hid', hno⟩ := hx
        simp only [List.mem_cons] at hid'
        rcases hid' with rfl | hid'
        · exact absurd (by simp [getId, h2, h3]) (hno p (List.getElem?_mem h1))
        · exact ⟨id', hid', hno⟩
      obtain ⟨l, hl⟩ := ih (acc ++ [p]) hrest
      exact ⟨l, by simp [Team.setLineupLoop, hr, h1, hl]⟩

/-- C4 (the code on an id that is not on the roster): a team with roster and
lineup `[1, 2]` is asked for the lineup `[2, 99]`; `setLineup` returns failure
and leaves the lineup `[2]`, not the previous one; the same through
`setTeamLineup` in a state reached from a fresh league. -/
theorem setLineup_failure_overwrites :
    Team.pair.activeLineup = [0, 1] ∧
    Team.setLineup League.catalog Team.pair [2, 99] =
      some (false, { Team.pair with activeLineup := [1] }) ∧
    League.duo4.Reachable ∧
    League.duo4.teams.map Team.activeLineup = [[0, 1]] ∧
    (League.duo4.setTeamLineup 0 [2, 99]).map Prod.fst = some false ∧
    (League.duo4.after (League.duo4.setTeamLineup 0 [2, 99])).teams.map Team.activeLineup
      = [[1]] := by
  refine ⟨rfl, by decide, ?_, by decide, by decide, by decide⟩
  exact League.Reachable.step _ _ duo3_reachable
    (League.Step.setTeamLineup League.duo3 0 [1, 2] (true, League.duo4) rfl)

/-- C5: for a team whose roster pointers designate players and a list of exactly
`lineupSize` pairwise distinct ids that all belong to players of the roster,
`Team::setLineup` and `League::setTeamLineup` succeed; the new lineup replaces
the old one, is drawn from the roster, and lists one player per id, in the
order of the ids. -/
theorem setTeamLineup_succeeds (L : League) (team : TeamPtr) (t : Team) (ids : List Int)
    (ht : L.teams[team]? = some t) (hv : ∀ p ∈ t.roster, p < L.heap.length)
    (hsz : IsInt32 L.lineupSize) (hlen : (ids.length : Int) = L.lineupSize)
    (hnd : ids.Nodup) (hm : ∀ id ∈ ids, ∃ p ∈ t.roster, getId L.heap p = some id) :
    ∃ lineup, lineup.map (getId L.heap) = ids.map some ∧ (∀ p ∈ lineup, p ∈ t.roster) ∧
      lineup.Nodup ∧
      Team.setLineup L.heap t ids = some (true, { t with activeLineup := lineup }) ∧
      L.setTeamLineup team ids =
        some (true, { L with teams := L.teams.set team { t with activeLineup := lineup } }) := by
  obtain ⟨lineup, h1, h2, h3⟩ := setLineup_of_on_roster L.heap t ids hv hm
  have hn : lineup.Nodup := by
    have : (lineup.map (getId L.heap)).Nodup := by
      rw [h2]
      exact hnd.map (Option.some_injective _)
    exact this.of_map
  have hT : ids.length = toSizeT L.lineupSize := by
    have := toSizeT_of_nonneg L.lineupSize (by omega) hsz
    omega
  refine ⟨lineup, h2, h3, hn, h1, ?_⟩
  simp [League.setTeamLineup, hT, ht, h1]

/-- C5 at the league `duo3`: the lineup `[2, 1]` for the team that holds players
1 and 2. -/
theorem setTeamLineup_succeeds_witness :
    ∃ lineup, lineup.map (getId League.duo3.heap) = [2, 1].map some ∧
      (∀ p ∈ lineup, p ∈ Team.drafted.roster) ∧
      lineup.Nodup ∧
      Team.setLineup League.duo3.heap Team.drafted [2, 1] =
        some (true, { Team.drafted with activeLineup := lineup }) ∧
      League.duo3.setTeamLineup 0 [2, 1] =
        some (true, { League.duo3 with
          teams := League.duo3.teams.set 0 { Team.drafted with activeLineup := lineup } }) :=
  setTeamLineup_succeeds League.duo3 0 Team.drafted [2, 1]
    (by decide) (by decide) (by decide) (by decide) (by decide) (by decide)

/-- C6 (the claim fails): in a state reached from a fresh league, the team
holds the players 1 and 2; the list `[1, 1]` repeats an id, yet `setLineup` and
`setTeamLineup` return success and field player 1 twice. -/
theorem setLineup_duplicate_accepted :
    League.duo3.Reachable ∧ ¬ ([1, 1] : List Int).Nodup ∧
    League.duo3.teams.map Team.roster = [[0, 1]] ∧
    Team.setLineup League.catalog Team.drafted [1, 1] =
      some (true, { Team.drafted with activeLineup := [0, 0] }) ∧
    (League.duo3.setTeamLineup 0 [1, 1]).map Prod.fst = some true ∧
    (League.duo3.after (League.duo3.setTeamLineup 0 [1, 1])).teams.map Team.activeLineup
      = [[0, 0]] :=
  ⟨duo3_reachable, by decide, by decide, by decide, by decide, by decide⟩

/-- C6 (amended): on a roster whose pointers designate players, `setLineup` always
returns; it returns success exactly when every id of the list belongs to a
player of the roster, whether or not an id is repeated, and the lineup then
lists one player per element of the list, in order; `setTeamLineup` returns
the same on a list of `lineupSize` ids. -/
theorem setLineup_succeeds_iff_on_roster (L : League) (team : TeamPtr) (t : Team)
    (ids : List Int) (ht : L.teams[team]? = some t) (hv : ∀ p ∈ t.roster, p < L.heap.length)
    (hsz : IsInt32 L.lineupSize) :
    ∃ ok lineup, Team.setLineup L.heap t ids = some (ok, { t with activeLineup := lineup }) ∧
      (ok = true ↔ ∀ id ∈ ids, ∃ p ∈ t.roster, getId L.heap p = some id) ∧
      (ok = true → lineup.map (getId L.heap) = ids.map some) ∧
      ((ids.length : Int) = L.lineupSize →
        L.setTeamLineup team ids =
          some (ok, { L with teams := L.teams.set team { t with activeLineup := lineup } })) := by
  have hgate : ∀ (ok : Bool) (lineup : List PlayerPtr),
      Team.setLineup L.heap t ids = some (ok, { t with activeLineup := lineup }) →
      (ids.length : Int) = L.lineupSize →
      L.setTeamLineup team ids =
        some (ok, { L with teams := L.teams.set team { t with activeLineup := lineup } }) := by
    intro ok lineup h1 hlen
    have hT : ids.length = toSizeT L.lineupSize := by
      have := toSizeT_of_nonneg L.lineupSize (by omega) hsz
      omega
    simp [League.setTeamLineup, hT, ht, h1]
  by_cases hm : ∀ id ∈ ids, ∃ p ∈ t.roster, getId L.heap p = some id
  · obtain ⟨lineup, h1, h2, _⟩ := setLineup_of_on_roster L.heap t ids hv hm
    exact ⟨true, lineup, h1, ⟨fun _ => hm, fun _ => rfl⟩, fun _ => h2, hgate true lineup h1⟩
  · have hx : ∃ id ∈ ids, ∀ p ∈ t.roster, getId L.heap p ≠ some id := by
      push_neg at hm
      exact hm
    obtain ⟨l, hl⟩ := setLineupLoop_of_absent L.heap t.roster ids [] hv hx
    have h1 : Team.setLineup L.heap t ids = some (false, { t with activeLineup := l }) := by
      simp [Team.setLineup, hl]
    exact ⟨false, l, h1, ⟨fun h => absurd h (by simp), fun h => absurd h hm⟩, by simp,
      hgate false l h1⟩

/-- C6 (amended) at the league `duo3`, its team and the list `[2, 2]`. -/
theorem setLineup_succeeds_iff_on_roster_witness :
    League.duo3.teams[0]? = some Team.drafted ∧
    (∀ p ∈ Team.drafted.roster, p < League.duo3.heap.length) ∧
    IsInt32 League.duo3.lineupSize ∧
    ∃ ok lineup, Team.setLineup League.duo3.heap Team.drafted [2, 2] =
        some (ok, { Team.drafted with activeLineup := lineup }) ∧
      (ok = true ↔ ∀ id ∈ ([2, 2] : List Int),
        ∃ p ∈ Team.drafted.roster, getId League.duo3.heap p = some id) ∧
      (ok = true → lineup.map (getId League.duo3.heap) = ([2, 2] : List Int).map some) ∧
      (((([2, 2] : List Int).length : Nat) : Int) = League.duo3.lineupSize →
        League.duo3.setTeamLineup 0 [2, 2] =
          some (ok, { League.duo3 with
            teams := League.duo3.teams.set 0 { Team.drafted with activeLineup := lineup } })) :=
  ⟨by decide, by decide, by decide,
   setLineup_succeeds_iff_on_roster League.duo3 0 Team.drafted [2, 2]
     (by decide) (by decide) (by decide)⟩

/-- C7: in every state reachable from a fresh league, every player of a lineup
is on the roster of the same team. -/
theorem reachable_lineup_in_roster (L : League) (h : L.Reachable) :
    ∀ t ∈ L.teams, ∀ p ∈ t.activeLineup, p ∈ t.roster :=
  (Inv_of_reachable L h).lineup

/-- C7 at the league `duo5`, whose team fields one of its two players. -/
theorem reachable_lineup_in_roster_witness :
    League.duo5.Reachable ∧
    ({ Team.drafted with activeLineup := [1] } : Team) ∈ League.duo5.teams ∧
    (1 : PlayerPtr) ∈ ({ Team.drafted with activeLineup := [1] } : Team).roster :=
  ⟨duo5_reachable, by decide,
   reachable_lineup_in_roster League.duo5 duo5_reachable
     { Team.drafted with activeLineup := [1] } (by decide) 1 (by decide)⟩

/-- C8 (the code after a failed call): with lineups of two, a team that drafted
players 1 and 2 and fields them is asked for the lineup `[2, 99]`; the call
fails and the state it leaves, reachable from a fresh league, has a lineup of
one player. -/
theorem reachable_lineup_of_one :
    League.duo5.Reachable ∧ League.duo5.lineupSize = 2 ∧
    League.duo5.teams.map (fun t => t.activeLineup.length) = [1] :=
  ⟨duo5_reachable, by decide, by decide⟩

/-- C9: in a league whose `lineupSize` is a non-negative `int`, `setTeamLineup`
returns failure and changes nothing when the list has another length than
`lineupSize`; on a list of that length it returns what `Team::setLineup`
returns and stores the team that call leaves. -/
theorem setTeamLineup_length_gate (L : League) (team : TeamPtr) (ids : List Int)
    (hsz : IsInt32 L.lineupSize) (h0 : 0 ≤ L.lineupSize) :
    ((ids.length : Int) ≠ L.lineupSize → L.setTeamLineup team ids = some (false, L)) ∧
    ((ids.length : Int) = L.lineupSize → ∀ t : Team, L.teams[team]? = some t →
      L.setTeamLineup team ids =
        (Team.setLineup L.heap t ids).map
          (fun r => (r.1, { L with teams := L.teams.set team r.2 }))) := by
  have hT := toSizeT_of_nonneg L.lineupSize h0 hsz
  constructor
  · intro hne
    have : ids.length ≠ toSizeT L.lineupSize := by omega
    simp [League.setTeamLineup, this]
  · intro he t ht
    have : ids.length = toSizeT L.lineupSize := by omega
    simp only [League.setTeamLineup, this, ne_eq, not_true_eq_false, if_false, ht]
    cases Team.setLineup L.heap t ids with
    | none => rfl
    | some r => rfl

/-- C9 at the league `duo3` (lineups of two): a list of one id, a list of two. -/
theorem setTeamLineup_length_gate_witness :
    IsInt32 League.duo3.lineupSize ∧ 0 ≤ League.duo3.lineupSize ∧
    League.duo3.setTeamLineup 0 [1] = some (false, League.duo3) ∧
    League.duo3.setTeamLineup 0 [1, 2] =
      (Team.setLineup League.duo3.heap Team.drafted [1, 2]).map
        (fun r => (r.1, { League.duo3 with teams := League.duo3.teams.set 0 r.2 })) :=
  ⟨by decide, by decide,
   (setTeamLineup_length_gate League.duo3 0 [1] (by decide) (by decide)).1 (by decide),
   (setTeamLineup_length_gate League.duo3 0 [1, 2] (by decide) (by decide)).2 (by decide)
     Team.drafted (by decide)⟩

/-! ## Scoring -/

/-- C10: one simulated game of a DEFENSE player adds to the fantasy points the
sack, interception and touchdown points plus the bonus of the drawn
`pointsAllowed`; for every value `p >= 0` of it the bonus is +10 at 0, +7 from 1
to 6, +4 from 7 to 13, +1 from 14 to 20, 0 from 21 to 27, -1 from 28 to 34 and
-4 from 35 on, so that 0, 6, 13, 20, 27, 34 and 35 give +10, +7, +4, +1, 0, -1
and -4. -/
theorem defense_pointsAllowed_tiers (pl : Player) (rng : Rng) (k : Nat)
    (hpos : pl.position = Position.DEFENSE) :
    (pl.simulateGamePerformance rng k).1.fantasyPoints =
        pl.fantasyPoints + ((rng k 0 5 : ℚ) * 1 + (rng (k + 1) 0 3 : ℚ) * 2
          + (rng (k + 2) 0 1 : ℚ) * 6 + pointsAllowedBonus (rng (k + 3) 0 35)) ∧
    (∀ p : Int, 0 ≤ p →
      (p = 0 → pointsAllowedBonus p = 10) ∧
      (1 ≤ p ∧ p ≤ 6 → pointsAllowedBonus p = 7) ∧
      (7 ≤ p ∧ p ≤ 13 → pointsAllowedBonus p = 4) ∧
      (14 ≤ p ∧ p ≤ 20 → pointsAllowedBonus p = 1) ∧
      (21 ≤ p ∧ p ≤ 27 → pointsAllowedBonus p = 0) ∧
      (28 ≤ p ∧ p ≤ 34 → pointsAllowedBonus p = -1) ∧
      (35 ≤ p → pointsAllowedBonus p = -4)) ∧
    pointsAllowedBonus 0 = 10 ∧ pointsAllowedBonus 6 = 7 ∧ pointsAllowedBonus 13 = 4 ∧
    pointsAllowedBonus 20 = 1 ∧ pointsAllowedBonus 27 = 0 ∧ pointsAllowedBonus 34 = -1 ∧
    pointsAllowedBonus 35 = -4 := by
  refine ⟨?_, ?_, by simp [pointsAllowedBonus], by simp [pointsAllowedBonus],
    by simp [pointsAllowedBonus], by simp [pointsAllowedBonus], by simp [pointsAllowedBonus],
    by simp [pointsAllowedBonus], by simp [pointsAllowedBonus]⟩
  · simp only [Player.simulateGamePerformance, hpos]
    ring
  · intro p _
    unfold pointsAllowedBonus
    refine ⟨?_, ?_, ?_, ?_, ?_, ?_, ?_⟩ <;> intro hr <;> split_ifs <;> first | rfl | omega

/-- C10 at the first defense of the catalog, which allows 35 points. -/
theorem defense_pointsAllowed_tiers_witness :
    ((Player.ctor 34 "San Francisco 49ers" Position.DEFENSE
        "San Francisco").simulateGamePerformance Rng.lowest 0).1.fantasyPoints =
      (Player.ctor 34 "San Francisco 49ers" Position.DEFENSE "San Francisco").fantasyPoints
        + ((Rng.lowest 0 0 5 : ℚ) * 1 + (Rng.lowest (0 + 1) 0 3 : ℚ) * 2
          + (Rng.lowest (0 + 2) 0 1 : ℚ) * 6 + pointsAllowedBonus (Rng.lowest (0 + 3) 0 35)) ∧
    (∀ p : Int, 0 ≤ p →
      (p = 0 → pointsAllowedBonus p = 10) ∧
      (1 ≤ p ∧ p ≤ 6 → pointsAllowedBonus p = 7) ∧
      (7 ≤ p ∧ p ≤ 13 → pointsAllowedBonus p = 4) ∧
      (14 ≤ p ∧ p ≤ 20 → pointsAllowedBonus p = 1) ∧
      (21 ≤ p ∧ p ≤ 27 → pointsAllowedBonus p = 0) ∧
      (28 ≤ p ∧ p ≤ 34 → pointsAllowedBonus p = -1) ∧
      (35 ≤ p → pointsAllowedBonus p = -4)) ∧
    pointsAllowedBonus 0 = 10 ∧ pointsAllowedBonus 6 = 7 ∧ pointsAllowedBonus 13 = 4 ∧
    pointsAllowedBonus 20 = 1 ∧ pointsAllowedBonus 27 = 0 ∧ pointsAllowedBonus 34 = -1 ∧
    pointsAllowedBonus 35 = -4 :=
  defense_pointsAllowed_tiers
    (Player.ctor 34 "San Francisco 49ers" Position.DEFENSE "San Francisco") Rng.lowest 0 rfl

theorem Rng.lowest_inRange : Rng.lowest.InRange := by
  intro k lo hi h
  unfold Rng.lowest
  split_ifs <;> omega

theorem Rng.InRange.cast (rng : Rng) (hr : rng.InRange) (k : Nat) (lo hi : Int) (h : lo ≤ hi) :
    (lo : ℚ) ≤ (rng k lo hi : ℚ) ∧ (rng k lo hi : ℚ) ≤ (hi : ℚ) := by
  obtain ⟨h1, h2⟩ := hr k lo hi h
  exact ⟨by exact_mod_cast h1, by exact_mod_cast h2⟩

theorem pointsAllowedBonus_ge (pointsAllowed : Int) : (-4 : ℚ) ≤ pointsAllowedBonus pointsAllowed := by
  unfold pointsAllowedBonus
  split_ifs <;> norm_num

/-- The least amount one simulated game can add to the fantasy points of a
player of each position. -/
theorem simulateGamePerformance_delta_ge (p : Player) (rng : Rng) (k : Nat)
    (hr : rng.InRange) :
    (p.position = Position.QUARTERBACK →
      p.fantasyPoints + 0 ≤ (p.simulateGamePerformance rng k).1.fantasyPoints) ∧
    (p.position = Position.RUNNING_BACK →
      p.fantasyPoints + 3 ≤ (p.simulateGamePerformance rng k).1.fantasyPoints) ∧
    (p.position = Position.WIDE_RECEIVER →
      p.fantasyPoints + 2 ≤ (p.simulateGamePerformance rng k).1.fantasyPoints) ∧
    (p.position = Position.TIGHT_END →
      p.fantasyPoints + 1 ≤ (p.simulateGamePerformance rng k).1.fantasyPoints) ∧
    (p.position = Position.KICKER →
      p.fantasyPoints + 1 ≤ (p.simulateGamePerformance rng k).1.fantasyPoints) ∧
    (p.position = Position.DEFENSE →
      p.fantasyPoints - 4 ≤ (p.simulateGamePerformance rng k).1.fantasyPoints) := by
  refine ⟨?_, ?_, ?_, ?_, ?_, ?_⟩ <;> intro h <;>
    simp only [Player.simulateGamePerformance, h]
  · have h1 := Rng.InRange.cast rng hr k 150 400 (by norm_num)
    have h2 := Rng.InRange.cast rng hr (k + 1) 0 4 (by norm_num)
    have h3 := Rng.InRange.cast rng hr (k + 2) 0 3 (by norm_num)
    have h4 := Rng.InRange.cast rng hr (k + 3) 0 50 (by norm_num)
    have h5 := Rng.InRange.cast rng hr (k + 4) 0 1 (by norm_num)
    push_cast at h1 h2 h3 h4 h5
    norm_num
    linarith [h1.1, h2.1, h3.2, h4.1, h5.1]
  · have h1 := Rng.InRange.cast rng hr k 30 150 (by norm_num)
    have h2 := Rng.InRange.cast rng hr (k + 1) 0 2 (by norm_num)
    have h3 := Rng.InRange.cast rng hr (k + 2) 0 50 (by norm_num)
    have h4 := Rng.InRange.cast rng hr (k + 3) 0 1 (by norm_num)
    push_cast at h1 h2 h3 h4
    norm_num
    linarith [h1.1, h2.1, h3.1, h4.1]
  · have h1 := Rng.InRange.cast rng hr k 20 150 (by norm_num)
    have h2 := Rng.InRange.cast rng hr (k + 1) 0 2 (by norm_num)
    push_cast at h1 h2
    norm_num
    linarith [h1.1, h2.1]
  · have h1 := Rng.InRange.cast rng hr k 10 100 (by norm_num)
    have h2 := Rng.InRange.cast rng hr (k + 1) 0 1 (by norm_num)
    push_cast at h1 h2
    norm_num
    linarith [h1.1, h2.1]
  · have h1 := Rng.InRange.cast rng hr k 0 5 (by norm_num)
    have h2 := Rng.InRange.cast rng hr (k + 1) 1 5 (by norm_num)
    push_cast at h1 h2
    norm_num
    linarith [h1.1, h2.1]
  · have h1 := Rng.InRange.cast rng hr k 0 5 (by norm_num)
    have h2 := Rng.InRange.cast rng hr (k + 1) 0 3 (by norm_num)
    have h3 := Rng.InRange.cast rng hr (k + 2) 0 1 (by norm_num)
    have h4 := pointsAllowedBonus_ge (rng (k + 3) 0 35)
    push_cast at h1 h2 h3
    norm_num
    linarith [h1.1, h2.1, h3.1]

/-- C12 (the claim fails): the draws of `Rng.lowest` lie in their ranges, and one
game on them takes the first defense of the catalog from 0 fantasy points to
-4. -/
theorem defense_fantasyPoints_decrease :
    Rng.lowest.InRange ∧
    (Player.ctor 34 "San Francisco 49ers" Position.DEFENSE "San Francisco").fantasyPoints = 0 ∧
    ((Player.ctor 34 "San Francisco 49ers" Position.DEFENSE
        "San Francisco").simulateGamePerformance Rng.lowest 0).1.fantasyPoints = -4 ∧
    ((Player.ctor 34 "San Francisco 49ers" Position.DEFENSE
        "San Francisco").simulateGamePerformance Rng.lowest 0).1.fantasyPoints <
      (Player.ctor 34 "San Francisco 49ers" Position.DEFENSE "San Francisco").fantasyPoints := by
  refine ⟨Rng.lowest_inRange, rfl, ?_, ?_⟩ <;>
    norm_num [Player.simulateGamePerformance, Player.ctor, Rng.lowest, pointsAllowedBonus]

/-- C12 (amended): on draws that lie in their ranges, one simulated game never
lowers the fantasy points of a player who is not a defense, and lowers those of
a defense by 4 at most. -/
theorem fantasyPoints_change_bounds (p : Player) (rng : Rng) (k : Nat) (hr : rng.InRange) :
    (p.position ≠ Position.DEFENSE →
      p.fantasyPoints ≤ (p.simulateGamePerformance rng k).1.fantasyPoints) ∧
    (p.position = Position.DEFENSE →
      p.fantasyPoints - 4 ≤ (p.simulateGamePerformance rng k).1.fantasyPoints) := by
  obtain ⟨h1, h2, h3, h4, h5, h6⟩ := simulateGamePerformance_delta_ge p rng k hr
  refine ⟨?_, h6⟩
  intro hne
  cases hp : p.position with
  | QUARTERBACK => linarith [h1 hp]
  | RUNNING_BACK => linarith [h2 hp]
  | WIDE_RECEIVER => linarith [h3 hp]
  | TIGHT_END => linarith [h4 hp]
  | KICKER => linarith [h5 hp]
  | DEFENSE => exact absurd hp hne

/-- C12 (amended) at the first quarterback and the first defense of the catalog,
on the draws of `Rng.lowest`. -/
theorem fantasyPoints_change_bounds_witness :
    Rng.lowest.InRange ∧
    (Player.ctor 1 "Patrick Mahomes" Position.QUARTERBACK "Kansas City").fantasyPoints ≤
      ((Player.ctor 1 "Patrick Mahomes" Position.QUARTERBACK
        "Kansas City").simulateGamePerformance Rng.lowest 0).1.fantasyPoints ∧
    (Player.ctor 34 "San Francisco 49ers" Position.DEFENSE "San Francisco").fantasyPoints - 4 ≤
      ((Player.ctor 34 "San Francisco 49ers" Position.DEFENSE
        "San Francisco").simulateGamePerformance Rng.lowest 0).1.fantasyPoints :=
  ⟨Rng.lowest_inRange,
   (fantasyPoints_change_bounds _ Rng.lowest 0 Rng.lowest_inRange).1 (by decide),
   (fantasyPoints_change_bounds _ Rng.lowest 0 Rng.lowest_inRange).2 rfl⟩

/-! ## Matchups -/

theorem simulateGameLoop_defined (rng : Rng) (l : List PlayerPtr) (heap : Heap) (s : ℚ) (k : Nat)
    (hv : ∀ p ∈ l, p < heap.length) : ∃ r, Team.simulateGameLoop rng l heap s k = some r := by
  induction l generalizing heap s k with
  | nil => exact ⟨_, rfl⟩
  | cons p rest ih =>
    have hp : p < heap.length := hv p (by simp)
    simp only [Team.simulateGameLoop, List.getElem?_eq_getElem hp]
    exact ih _ _ _ (fun q hq => by simpa using hv q (by simp [hq]))

theorem simulateGame_defined (rng : Rng) (heap : Heap) (t : Team) (k : Nat)
    (hv : ∀ p ∈ t.activeLineup, p < heap.length) :
    ∃ gameScore heap' k',
      Team.simulateGame rng heap t k =
        some (gameScore, heap', { t with totalPoints := t.totalPoints + gameScore }, k') ∧
      heap'.length = heap.length := by
  obtain ⟨r, hr⟩ := simulateGameLoop_defined rng t.activeLineup heap 0 k hv
  obtain ⟨gameScore, heap', k'⟩ := r
  refine ⟨gameScore, heap', k', by simp [Team.simulateGame, hr], ?_⟩
  have := congrArg List.length (simulateGameLoop_ids rng _ heap 0 k _ hr)
  simpa using this

theorem set_set_modify_modify (teams : List Team) (h a : Nat) (x y : Team) (f g : Team → Team)
    (hne : h ≠ a) (hh : h < teams.length) (ha : a < teams.length) :
    (((teams.set h x).set a y).modify f h).modify g a = (teams.set h (f x)).set a (g y) := by
  apply List.ext_getElem?
  intro n
  simp only [List.getElem?_modify, List.getElem?_set, List.length_set]
  by_cases h1 : a = n
  · subst h1
    simp [hne, ha, Ne.symm hne]
  · by_cases h2 : h = n
    · subst h2
      simp [h1, hh]
    · simp only [h1, h2, if_false]
      cases teams[n]? <;> rfl

theorem getLineupSize_ne_zero (t : Team) (hn : t.activeLineup ≠ [])
    (hs : (t.activeLineup.length : Int) < 2147483648) : t.getLineupSize ≠ 0 := by
  unfold Team.getLineupSize
  rw [toInt32_of_lt _ hs]
  have : t.activeLineup.length ≠ 0 := fun h => hn (List.length_eq_zero.1 h)
  omega

/-- C15: when the lineup of the home team or of the away team is empty,
`simulate` returns and changes nothing: the matchup (scores, completed flag),
the heap of players and every team are as before, and no draw is made. -/
theorem simulate_empty_lineup_noop (rng : Rng) (m : Matchup) (heap : Heap) (teams : List Team)
    (k : Nat) (home away : Team)
    (hh : teams[m.homeTeam]? = some home) (ha : teams[m.awayTeam]? = some away)
    (he : home.activeLineup = [] ∨ away.activeLineup = []) :
    Matchup.simulate rng m heap teams k = some (m, heap, teams, k) := by
  by_cases h0 : home.getLineupSize = 0
  · simp [Matchup.simulate, hh, h0]
  · have ha0 : away.getLineupSize = 0 := by
      rcases he with he | he
      · exact absurd (by simp [Team.getLineupSize, he, toInt32]) h0
      · simp [Team.getLineupSize, he, toInt32]
    simp [Matchup.simulate, hh, h0, ha, ha0]

/-- C15 at a team with a lineup, at home against a team without one. -/
theorem simulate_empty_lineup_noop_witness :
    ([Team.kickerA, Team.idle][(Matchup.ctor 0 1).homeTeam]? = some Team.kickerA) ∧
    ([Team.kickerA, Team.idle][(Matchup.ctor 0 1).awayTeam]? = some Team.idle) ∧
    (Team.kickerA.activeLineup = [] ∨ Team.idle.activeLineup = []) ∧
    Matchup.simulate Rng.lowest (Matchup.ctor 0 1) League.catalog [Team.kickerA, Team.idle] 0 =
      some (Matchup.ctor 0 1, League.catalog, [Team.kickerA, Team.idle], 0) :=
  ⟨rfl, rfl, Or.inr rfl,
   simulate_empty_lineup_noop Rng.lowest (Matchup.ctor 0 1) League.catalog
     [Team.kickerA, Team.idle] 0 Team.kickerA Team.idle rfl rfl (Or.inr rfl)⟩

/-! ## The pairing loop -/

theorem pairUp_length (l : List TeamPtr) : (League.pairUp l).length = l.length / 2 := by
  induction l using League.pairUp.induct with
  | case1 a b rest ih =>
    simp only [League.pairUp, List.length_cons, ih]
    omega
  | case2 l h =>
    match l, h with
    | [], _ => rfl
    | [a], _ => simp [League.pairUp]
    | a :: b :: rest, h => exact absurd rfl (h a b rest)

theorem byeTeams_length (l : List TeamPtr) : (League.byeTeams l).length = l.length % 2 := by
  induction l using League.pairUp.induct with
  | case1 a b rest ih =>
    simp only [League.byeTeams, List.length_cons, ih]
    omega
  | case2 l h =>
    match l, h with
    | [], _ => rfl
    | [a], _ => rfl
    | a :: b :: rest, h => exact absurd rfl (h a b rest)

theorem pairUp_append_byeTeams (l : List TeamPtr) :
    (League.pairUp l).flatMap Matchup.teams ++ League.byeTeams l = l := by
  induction l using League.pairUp.induct with
  | case1 a b rest ih =>
    simp only [League.pairUp, League.byeTeams, List.flatMap_cons, Matchup.teams, Matchup.ctor,
      List.cons_append, List.nil_append, List.append_assoc]
    rw [ih]
  | case2 l h =>
    match l, h with
    | [], _ => rfl
    | [a], _ => rfl
    | a :: b :: rest, h => exact absurd rfl (h a b rest)

theorem pairUp_getElem? (l : List TeamPtr) (i : Nat) (a b : TeamPtr)
    (ha : l[2 * i]? = some a) (hb : l[2 * i + 1]? = some b) :
    (League.pairUp l)[i]? = some (Matchup.ctor a b) := by
  induction l using League.pairUp.induct generalizing i with
  | case1 x y rest ih =>
    cases i with
    | zero =>
      simp only [Nat.mul_zero, List.getElem?_cons_zero, Option.some.injEq, Nat.zero_add,
        List.getElem?_cons_succ] at ha hb
      subst ha hb
      simp [League.pairUp]
    | succ j =>
      have e1 : 2 * (j + 1) = (2 * j + 1) + 1 := by omega
      have e2 : 2 * (j + 1) + 1 = ((2 * j + 1) + 1) + 1 := by omega
      rw [e1] at ha
      rw [e2] at hb
      simp only [List.getElem?_cons_succ] at ha hb
      simpa [League.pairUp] using ih j ha hb
  | case2 l h =>
    match l, h with
    | [], _ => simp at ha
    | [x], _ => simp at hb
    | x :: y :: rest, h => exact absurd rfl (h x y rest)

theorem byeTeams_of_odd (l : List TeamPtr) (h : l.length % 2 = 1) :
    ∃ b, l[l.length - 1]? = some b ∧ League.byeTeams l = [b] := by
  induction l using League.pairUp.induct with
  | case1 x y rest ih =>
    have hr : rest.length % 2 = 1 := by
      simp only [List.length_cons] at h
      omega
    obtain ⟨b, h1, h2⟩ := ih hr
    refine ⟨b, ?_, by simpa [League.byeTeams] using h2⟩
    have hpos : 0 < rest.length := by omega
    have e : (x :: y :: rest).length - 1 = (rest.length - 1) + 1 + 1 := by
      simp only [List.length_cons]
      omega
    rw [e]
    simpa using h1
  | case2 l hl =>
    match l, hl with
    | [], _ => simp at h
    | [x], _ => exact ⟨x, rfl, rfl⟩
    | x :: y :: rest, hl => exact absurd rfl (hl x y rest)

theorem mem_scheduled_iff (sched : List Matchup) (t : TeamPtr) :
    t ∈ sched.flatMap Matchup.teams ↔ ∃ m ∈ sched, m.homeTeam = t ∨ m.awayTeam = t := by
  simp only [List.mem_flatMap, Matchup.teams, List.mem_cons, List.mem_singleton,
    List.not_mem_nil, or_false]
  constructor
  · rintro ⟨m, hm, h | h⟩
    · exact ⟨m, hm, Or.inl h.symm⟩
    · exact ⟨m, hm, Or.inr h.symm⟩
  · rintro ⟨m, hm, h | h⟩
    · exact ⟨m, hm, Or.inl h.symm⟩
    · exact ⟨m, hm, Or.inr h.symm⟩

/-- C16: with at least two teams and a shuffle that yields the permutation
`shuffled` of the team pointers, `generateMatchups` replaces the schedule by
the `n / 2` fresh matchups (scores 0, not completed) that pair
`shuffled[2 i]` at home with `shuffled[2 i + 1]` away, in that order, and
changes nothing else; `n % 2` teams get a bye, the last of `shuffled` when `n`
is odd, and a team has a bye exactly when it is in no matchup; 5 teams give 2
matchups and 1 bye, 4 teams 2 matchups and no bye. -/
theorem generateMatchups_pairs (L : League) (shuffled : List TeamPtr)
    (hn : 2 ≤ L.teams.length) (hp : shuffled.Perm (List.range L.teams.length)) :
    L.generateMatchups shuffled = { L with schedule := League.pairUp shuffled } ∧
    (League.pairUp shuffled).length = L.teams.length / 2 ∧
    (∀ i, i < L.teams.length / 2 →
      ∃ a b, shuffled[2 * i]? = some a ∧ shuffled[2 * i + 1]? = some b ∧
        (League.pairUp shuffled)[i]? =
          some { homeTeam := a, awayTeam := b, homeScore := 0, awayScore := 0,
                 isCompleted := false }) ∧
    (League.byeTeams shuffled).length = L.teams.length % 2 ∧
    (L.teams.length % 2 = 1 →
      ∃ b, shuffled[L.teams.length - 1]? = some b ∧ League.byeTeams shuffled = [b]) ∧
    (∀ t, t < L.teams.length →
      (t ∈ League.byeTeams shuffled ↔
        ∀ m ∈ League.pairUp shuffled, m.homeTeam ≠ t ∧ m.awayTeam ≠ t)) ∧
    (L.teams.length = 5 →
      (League.pairUp shuffled).length = 2 ∧ (League.byeTeams shuffled).length = 1) ∧
    (L.teams.length = 4 →
      (League.pairUp shuffled).length = 2 ∧ (League.byeTeams shuffled).length = 0) := by
  have hlen : shuffled.length = L.teams.length := by
    rw [hp.length_eq, List.length_range]
  have hpl := pairUp_length shuffled
  have hbl := byeTeams_length shuffled
  rw [hlen] at hpl hbl
  have hsplit := pairUp_append_byeTeams shuffled
  have hnd : ((League.pairUp shuffled).flatMap Matchup.teams ++ League.byeTeams shuffled).Nodup := by
    rw [hsplit]
    exact hp.nodup_iff.2 (List.nodup_range _)
  refine ⟨?_, hpl, ?_, hbl, ?_, ?_, ?_, ?_⟩
  · have : ¬ L.teams.length < 2 := by omega
    simp [League.generateMatchups, this]
  · intro i hi
    have h1 : 2 * i < shuffled.length := by omega
    have h2 : 2 * i + 1 < shuffled.length := by omega
    refine ⟨shuffled[2 * i], shuffled[2 * i + 1], List.getElem?_eq_getElem h1,
      List.getElem?_eq_getElem h2, ?_⟩
    exact pairUp_getElem? shuffled i _ _ (List.getElem?_eq_getElem h1)
      (List.getElem?_eq_getElem h2)
  · intro hodd
    rw [← hlen] at hodd ⊢
    exact byeTeams_of_odd shuffled hodd
  · intro t ht
    have hmem : t ∈ (League.pairUp shuffled).flatMap Matchup.teams ++ League.byeTeams shuffled := by
      rw [hsplit]
      exact hp.mem_iff.2 (List.mem_range.2 ht)
    rw [List.nodup_append] at hnd
    constructor
    · intro hb m hm
      have hno : t ∉ (League.pairUp shuffled).flatMap Matchup.teams := fun hin =>
        List.disjoint_left.1 hnd.2.2 hin hb
      rw [mem_scheduled_iff] at hno
      constructor
      · intro e
        exact hno ⟨m, hm, Or.inl e⟩
      · intro e
        exact hno ⟨m, hm, Or.inr e⟩
    · intro hall
      rcases List.mem_append.1 hmem with hin | hb
      · obtain ⟨m, hm, e⟩ := (mem_scheduled_iff _ t).1 hin
        rcases e with e | e
        · exact absurd e (hall m hm).1
        · exact absurd e (hall m hm).2
      · exact hb
  · intro h5
    rw [hpl, hbl, h5]
    exact ⟨rfl, rfl⟩
  · intro h4
    rw [hpl, hbl, h4]
    exact ⟨rfl, rfl⟩

/-- C16 at the league of the application with five teams and the shuffle
`[3, 1, 4, 0, 2]`: D hosts B, E hosts A, C has a bye. -/
theorem generateMatchups_pairs_witness :
    2 ≤ League.five.teams.length ∧
    ([3, 1, 4, 0, 2] : List TeamPtr).Perm (List.range League.five.teams.length) ∧
    (League.five.generateMatchups [3, 1, 4, 0, 2]).schedule =
      [Matchup.ctor 3 1, Matchup.ctor 4 0] ∧
    League.byeTeams [3, 1, 4, 0, 2] = [2] ∧
    League.five.generateMatchups [3, 1, 4, 0, 2] =
      { League.five with schedule := League.pairUp [3, 1, 4, 0, 2] } ∧
    (League.pairUp [3, 1, 4, 0, 2]).length = 2 ∧ (League.byeTeams [3, 1, 4, 0, 2]).length = 1 :=
  ⟨by decide, by decide, by decide, by decide,
   (generateMatchups_pairs League.five [3, 1, 4, 0, 2] (by decide) (by decide)).1,
   (generateMatchups_pairs League.five [3, 1, 4, 0, 2] (by decide) (by decide)).2.2.2.2.2.2.1
     (by decide)⟩

/-! ## The invariant of the schedule -/

theorem Matchup.simulate_teams (rng : Rng) (m : Matchup) (heap : Heap) (teams : List Team)
    (k : Nat) (r : Matchup × Heap × List Team × Nat)
    (h : Matchup.simulate rng m heap teams k = some r) : r.1.teams = m.teams := by
  unfold Matchup.simulate at h
  cases hh : teams[m.homeTeam]? with
  | none => simp [hh] at h
  | some home =>
    simp only [hh] at h
    split_ifs at h with hc
    · simp only [Option.some.injEq] at h
      subst h; rfl
    · cases ha : teams[m.awayTeam]? with
      | none => simp [ha] at h
      | some away =>
        simp only [ha] at h
        split_ifs at h with hc'
        · simp only [Option.some.injEq] at h
          subst h; rfl
        · cases h1 : Team.simulateGame rng heap home k with
          | none => simp [h1] at h
          | some x1 =>
            obtain ⟨homeScore, heap1, home1, k1⟩ := x1
            simp only [h1] at h
            cases ha1 : (teams.set m.homeTeam home1)[m.awayTeam]? with
            | none => simp [ha1] at h
            | some away1 =>
              simp only [ha1] at h
              cases h2 : Team.simulateGame rng heap1 away1 k1 with
              | none => simp [h2] at h
              | some x2 =>
                obtain ⟨awayScore, heap2, away2, k2⟩ := x2
                simp only [h2, Option.some.injEq] at h
                subst h
                rfl

theorem simulateWeekLoop_teams (rng : Rng) (sched done : List Matchup) (heap : Heap)
    (teams : List Team) (k : Nat) (r : List Matchup × Heap × List Team × Nat)
    (h : League.simulateWeekLoop rng sched done heap teams k = some r) :
    r.1.flatMap Matchup.teams = done.flatMap Matchup.teams ++ sched.flatMap Matchup.teams := by
  induction sched generalizing done heap teams k with
  | nil =>
    simp only [League.simulateWeekLoop, Option.some.injEq] at h
    subst h
    simp
  | cons m rest ih =>
    simp only [League.simulateWeekLoop] at h
    cases h1 : Matchup.simulate rng m heap teams k with
    | none => simp [h1] at h
    | some x =>
      obtain ⟨m', heap', teams', k'⟩ := x
      simp only [h1] at h
      have e1 := Matchup.simulate_teams rng m heap teams k _ h1
      have e2 := ih _ _ _ _ h
      simp only at e1
      rw [e2]
      simp [List.flatMap_append, e1]

theorem simulateWeek_scheduledTeams (L L' : League) (rng : Rng) (k : Nat)
    (h : L.simulateWeek rng k = some L') :
    L'.scheduledTeams = L.scheduledTeams ∧ L'.teams.length = L.teams.length := by
  have hk := (simulateWeek_keeps L L' rng k h).2.1
  have hlen : L'.teams.length = L.teams.length := by
    have := congrArg List.length hk
    simpa using this
  refine ⟨?_, hlen⟩
  unfold League.simulateWeek at h
  split_ifs at h with he
  · simp only [Option.some.injEq] at h
    subst h; rfl
  · cases h1 : League.simulateWeekLoop rng L.schedule [] L.heap L.teams k with
    | none => simp [h1] at h
    | some x =>
      obtain ⟨sched', heap', teams', k'⟩ := x
      simp only [h1, Option.some.injEq] at h
      have e := simulateWeekLoop_teams rng _ _ _ _ k _ h1
      subst h
      simpa [League.scheduledTeams] using e

theorem SchedInv_init (name : String) (maxTeams rosterSize lineupSize : Int) :
    (League.ctor name maxTeams rosterSize lineupSize).SchedInv :=
  ⟨by simp [League.scheduledTeams, League.ctor], by simp [League.scheduledTeams, League.ctor]⟩

theorem SchedInv_of_same (L L' : League) (hL : L.SchedInv)
    (hs : L'.scheduledTeams = L.scheduledTeams) (hl : L.teams.length ≤ L'.teams.length) :
    L'.SchedInv :=
  ⟨fun t ht => Nat.lt_of_lt_of_le (hL.valid t (hs ▸ ht)) hl, hs ▸ hL.nodup⟩

theorem SchedInv_generateMatchups (L : League) (shuffled : List TeamPtr)
    (hp : shuffled.Perm (List.range L.teams.length)) : (L.generateMatchups shuffled).SchedInv := by
  unfold League.generateMatchups
  split_ifs
  · exact ⟨by simp [League.scheduledTeams], by simp [League.scheduledTeams]⟩
  · have hsplit := pairUp_append_byeTeams shuffled
    have hnd : ((League.pairUp shuffled).flatMap Matchup.teams ++
        League.byeTeams shuffled).Nodup := by
      rw [hsplit]
      exact hp.nodup_iff.2 (List.nodup_range _)
    constructor
    · intro t ht
      have : t ∈ shuffled := by
        rw [← hsplit]
        exact List.mem_append_left _ ht
      exact List.mem_range.1 (hp.mem_iff.1 this)
    · exact (List.nodup_append.1 hnd).1

theorem registerTeam_frame (L : League) (teamName ownerName : String) :
    (L.registerTeam teamName ownerName).2.schedule = L.schedule ∧
    (L.registerTeam teamName ownerName).2.currentWeek = L.currentWeek ∧
    L.teams.length ≤ (L.registerTeam teamName ownerName).2.teams.length := by
  unfold League.registerTeam
  split_ifs <;> simp

theorem draftPlayer_frame (L : League) (team : TeamPtr) (playerId : Int) (r : Bool × League)
    (h : L.draftPlayer team playerId = some r) :
    r.2.schedule = L.schedule ∧ r.2.currentWeek = L.currentWeek ∧
    r.2.teams.length = L.teams.length := by
  unfold League.draftPlayer at h
  repeat' split at h
  all_goals first
    | (simp only [Option.some.injEq] at h; subst h; simp)
    | simp at h

theorem setTeamLineup_frame (L : League) (team : TeamPtr) (playerIds : List Int)
    (r : Bool × League) (h : L.setTeamLineup team playerIds = some r) :
    r.2.schedule = L.schedule ∧ r.2.currentWeek = L.currentWeek ∧
    r.2.teams.length = L.teams.length := by
  unfold League.setTeamLineup at h
  repeat' split at h
  all_goals first
    | (simp only [Option.some.injEq] at h; subst h; simp)
    | simp at h

theorem SchedInv_step (L L' : League) (hL : L.SchedInv) (h : League.Step L L') :
    L'.SchedInv := by
  cases h with
  | registerTeam teamName ownerName =>
    obtain ⟨h1, _, h3⟩ := registerTeam_frame L teamName ownerName
    exact SchedInv_of_same L _ hL (by simp [League.scheduledTeams, h1]) h3
  | draftPlayer team playerId r h =>
    obtain ⟨h1, _, h3⟩ := draftPlayer_frame L team playerId r h
    exact SchedInv_of_same L _ hL (by simp [League.scheduledTeams, h1]) (le_of_eq h3.symm)
  | setTeamLineup team playerIds r h =>
    obtain ⟨h1, _, h3⟩ := setTeamLineup_frame L team playerIds r h
    exact SchedInv_of_same L _ hL (by simp [League.scheduledTeams, h1]) (le_of_eq h3.symm)
  | generateMatchups shuffled hp => exact SchedInv_generateMatchups L shuffled hp
  | simulateWeek rng k _ _ hw =>
    obtain ⟨h1, h2⟩ := simulateWeek_scheduledTeams L L' rng k hw
    exact SchedInv_of_same L L' hL h1 (le_of_eq h2.symm)

theorem SchedInv_of_reachable (L : League) (h : L.Reachable) : L.SchedInv := by
  induction h with
  | init name maxTeams rosterSize lineupSize _ _ _ =>
    exact SchedInv_init name maxTeams rosterSize lineupSize
  | step L L' _ hs ih => exact SchedInv_step L L' ih hs

theorem paired_reachable : League.paired.Reachable := by
  have h0 : League.app.Reachable :=
    League.Reachable.init "Fantasy Football League" 8 10 5 (by decide) (by decide) (by decide)
  have h1 : League.appA.Reachable :=
    League.Reachable.step _ _ h0 (League.Step.registerTeam League.app "A" "Ann")
  have h2 : League.appAB.Reachable :=
    League.Reachable.step _ _ h1 (League.Step.registerTeam League.appA "B" "Bob")
  exact League.Reachable.step _ _ h2
    (League.Step.generateMatchups League.appAB [1, 0] (by decide))

/-- C17: in every state reachable from a fresh league, each matchup of the
schedule points to two registered teams that are different teams, and two
matchups at different places of the schedule have no team in common. -/
theorem reachable_schedule_distinct (L : League) (h : L.Reachable) :
    (∀ m ∈ L.schedule, m.homeTeam < L.teams.length ∧ m.awayTeam < L.teams.length ∧
      m.homeTeam ≠ m.awayTeam) ∧
    (∀ (i j : Nat) (m1 m2 : Matchup), i ≠ j → L.schedule[i]? = some m1 →
      L.schedule[j]? = some m2 →
      m1.homeTeam ≠ m2.homeTeam ∧ m1.homeTeam ≠ m2.awayTeam ∧
      m1.awayTeam ≠ m2.homeTeam ∧ m1.awayTeam ≠ m2.awayTeam) := by
  have hS := SchedInv_of_reachable L h
  have hnd := hS.nodup
  simp only [League.scheduledTeams, List.nodup_flatMap] at hnd
  have key : ∀ (i j : Nat) (m1 m2 : Matchup), i < j → L.schedule[i]? = some m1 →
      L.schedule[j]? = some m2 → ∀ t ∈ m1.teams, t ∉ m2.teams := by
    intro i j m1 m2 hij h1 h2 t ht
    obtain ⟨hi, e1⟩ := List.getElem?_eq_some.1 h1
    obtain ⟨hj, e2⟩ := List.getElem?_eq_some.1 h2
    have := List.pairwise_iff_getElem.1 hnd.2 i j hi hj hij
    simp only [Function.onFun, e1, e2] at this
    exact List.disjoint_left.1 this ht
  constructor
  · intro m hm
    have hh : m.homeTeam ∈ L.scheduledTeams :=
      (mem_scheduled_iff L.schedule m.homeTeam).2 ⟨m, hm, Or.inl rfl⟩
    have ha : m.awayTeam ∈ L.scheduledTeams :=
      (mem_scheduled_iff L.schedule m.awayTeam).2 ⟨m, hm, Or.inr rfl⟩
    refine ⟨hS.valid _ hh, hS.valid _ ha, ?_⟩
    have := hnd.1 m hm
    simp only [Matchup.teams, List.nodup_cons, List.mem_singleton, List.not_mem_nil,
      not_false_eq_true, List.nodup_nil, and_true] at this
    exact this
  · intro i j m1 m2 hij h1 h2
    rcases Nat.lt_or_gt_of_ne hij with hlt | hgt
    · have k1 := key i j m1 m2 hlt h1 h2
      simp only [Matchup.teams, List.mem_cons, List.mem_singleton, List.not_mem_nil, or_false,
        forall_eq_or_imp, forall_eq, not_or] at k1
      exact ⟨k1.1.1, k1.1.2, k1.2.1, k1.2.2⟩
    · have k1 := key j i m2 m1 hgt h2 h1
      simp only [Matchup.teams, List.mem_cons, List.mem_singleton, List.not_mem_nil, or_false,
        forall_eq_or_imp, forall_eq, not_or] at k1
      exact ⟨Ne.symm k1.1.1, Ne.symm k1.2.1, Ne.symm k1.1.2, Ne.symm k1.2.2⟩

/-- C17 at the league of the application with two teams and the matchup of B
against A. -/
theorem reachable_schedule_distinct_witness :
    League.paired.Reachable ∧ Matchup.ctor 1 0 ∈ League.paired.schedule ∧
    (Matchup.ctor 1 0).homeTeam < League.paired.teams.length ∧
    (Matchup.ctor 1 0).awayTeam < League.paired.teams.length ∧
    (Matchup.ctor 1 0).homeTeam ≠ (Matchup.ctor 1 0).awayTeam :=
  ⟨paired_reachable, by decide,
   (reachable_schedule_distinct League.paired paired_reachable).1 (Matchup.ctor 1 0) (by decide)⟩

/-! ## A week always completes -/

theorem lineup_valid_of_keeps (heap heap' : Heap) (teams teams' : List Team)
    (hh : heap'.map Player.id = heap.map Player.id)
    (hk : teams'.map Team.setup = teams.map Team.setup)
    (hv : ∀ t ∈ teams, ∀ p ∈ t.activeLineup, p < heap.length) :
    ∀ t ∈ teams', ∀ p ∈ t.activeLineup, p < heap'.length := by
  intro t ht p hp
  have hl : heap'.length = heap.length := by
    have := congrArg List.length hh
    simpa using this
  have hm : t.setup ∈ teams'.map Team.setup := List.mem_map_of_mem _ ht
  rw [hk] at hm
  obtain ⟨t0, ht0, he⟩ := List.mem_map.1 hm
  simp only [Team.setup, Prod.mk.injEq] at he
  rw [hl]
  exact hv t0 ht0 p (by rw [he.2.2.2]; exact hp)

theorem Matchup.simulate_defined (rng : Rng) (m : Matchup) (heap : Heap) (teams : List Team)
    (k : Nat) (hh : m.homeTeam < teams.length) (ha : m.awayTeam < teams.length)
    (hv : ∀ t ∈ teams, ∀ p ∈ t.activeLineup, p < heap.length) :
    ∃ r, Matchup.simulate rng m heap teams k = some r := by
  unfold Matchup.simulate
  simp only [List.getElem?_eq_getElem hh, List.getElem?_eq_getElem ha]
  split_ifs with c1 c2
  · exact ⟨_, rfl⟩
  · exact ⟨_, rfl⟩
  · obtain ⟨homeScore, heap1, k1, h1, hl1⟩ :=
      simulateGame_defined rng heap teams[m.homeTeam] k
        (hv _ (List.getElem_mem _))
    have ha' : m.awayTeam < (teams.set m.homeTeam
        { teams[m.homeTeam] with
          totalPoints := teams[m.homeTeam].totalPoints + homeScore }).length := by
      simpa using ha
    have hv1 : ∀ p ∈ ((teams.set m.homeTeam
        { teams[m.homeTeam] with
          totalPoints := teams[m.homeTeam].totalPoints + homeScore })[m.awayTeam]).activeLineup,
        p < heap1.length := by
      intro p hp
      rw [hl1]
      rcases List.mem_or_eq_of_mem_set (List.getElem_mem ha') with hin | heq
      · exact hv _ hin p hp
      · rw [heq] at hp
        exact hv _ (List.getElem_mem hh) p hp
    obtain ⟨awayScore, heap2, k2, h2, _⟩ := simulateGame_defined rng heap1 _ k1 hv1
    simp only [h1, List.getElem?_eq_getElem ha', h2]
    exact ⟨_, rfl⟩

theorem simulateWeekLoop_defined (rng : Rng) (sched done : List Matchup) (heap : Heap)
    (teams : List Team) (k : Nat)
    (hs : ∀ m ∈ sched, m.homeTeam < teams.length ∧ m.awayTeam < teams.length)
    (hv : ∀ t ∈ teams, ∀ p ∈ t.activeLineup, p < heap.length) :
    ∃ r, League.simulateWeekLoop rng sched done heap teams k = some r := by
  induction sched generalizing done heap teams k with
  | nil => exact ⟨_, rfl⟩
  | cons m rest ih =>
    obtain ⟨r, hr⟩ := Matchup.simulate_defined rng m heap teams k
      (hs m (by simp)).1 (hs m (by simp)).2 hv
    obtain ⟨m', heap', teams', k'⟩ := r
    obtain ⟨e1, e2⟩ := Matchup.simulate_keeps rng m heap teams k _ hr
    simp only at e1 e2
    have hl : teams'.length = teams.length := by
      have := congrArg List.length e2
      simpa using this
    simp only [League.simulateWeekLoop, hr]
    exact ih _ _ _ _ (fun x hx => by rw [hl]; exact hs x (by simp [hx]))
      (lineup_valid_of_keeps heap heap' teams teams' e1 e2 hv)

theorem simulateWeek_defined (L : League) (hI : L.Inv) (hS : L.SchedInv) (rng : Rng) (k : Nat) :
    ∃ L', L.simulateWeek rng k = some L' ∧
      (L.schedule = [] → L' = L) ∧
      (L.schedule ≠ [] → L'.currentWeek = L.currentWeek + 1) := by
  unfold League.simulateWeek
  by_cases he : L.schedule = []
  · simp [he]
  · have hs : ∀ m ∈ L.schedule, m.homeTeam < L.teams.length ∧ m.awayTeam < L.teams.length := by
      intro m hm
      exact ⟨hS.valid _ ((mem_scheduled_iff L.schedule _).2 ⟨m, hm, Or.inl rfl⟩),
        hS.valid _ ((mem_scheduled_iff L.schedule _).2 ⟨m, hm, Or.inr rfl⟩)⟩
    have hv : ∀ t ∈ L.teams, ∀ p ∈ t.activeLineup, p < L.heap.length := fun t ht p hp =>
      Inv_valid L hI p (Inv_mem_allPtrs_roster L t ht p (hI.lineup t ht p hp))
    obtain ⟨r, hr⟩ := simulateWeekLoop_defined rng L.schedule [] L.heap L.teams k hs hv
    obtain ⟨sched', heap', teams', k'⟩ := r
    have hne : L.schedule.isEmpty = false := by
      cases hsch : L.schedule with
      | nil => exact absurd hsch he
      | cons a b => rfl
    simp only [hne, Bool.false_eq_true, if_false, hr]
    exact ⟨_, rfl, fun h => absurd h he, fun _ => rfl⟩

/-- C18: `simulateWeek` on an empty schedule returns and leaves the whole league
as it was: week, teams, players, pool and schedule. -/
theorem simulateWeek_empty_noop (L : League) (rng : Rng) (k : Nat) (h : L.schedule = []) :
    L.simulateWeek rng k = some L := by
  simp [League.simulateWeek, h]

/-- C18 at the league of the application with two teams and no schedule. -/
theorem simulateWeek_empty_noop_witness :
    League.appAB.schedule = [] ∧ League.appAB.simulateWeek Rng.lowest 0 = some League.appAB :=
  ⟨rfl, simulateWeek_empty_noop League.appAB Rng.lowest 0 rfl⟩

theorem Weeks_reachable (L : League) (n : Nat) (h : League.Weeks L n) : L.Reachable := by
  induction h with
  | init name maxTeams rosterSize lineupSize h1 h2 h3 =>
    exact League.Reachable.init name maxTeams rosterSize lineupSize h1 h2 h3
  | registerTeam L n teamName ownerName _ ih =>
    exact League.Reachable.step _ _ ih (League.Step.registerTeam L teamName ownerName)
  | draftPlayer L n team playerId r _ hd ih =>
    exact League.Reachable.step _ _ ih (League.Step.draftPlayer L team playerId r hd)
  | setTeamLineup L n team playerIds r _ hd ih =>
    exact League.Reachable.step _ _ ih (League.Step.setTeamLineup L team playerIds r hd)
  | generateMatchups L n shuffled _ hp ih =>
    exact League.Reachable.step _ _ ih (League.Step.generateMatchups L shuffled hp)
  | simulateWeekEmpty L n rng k L' _ _ hr hw ih =>
    exact League.Reachable.step _ _ ih (League.Step.simulateWeek L rng k L' hr hw)
  | simulateWeek L n rng k L' _ _ hr hw ih =>
    exact League.Reachable.step _ _ ih (League.Step.simulateWeek L rng k L' hr hw)

theorem reachable_Weeks (L : League) (h : L.Reachable) : ∃ n, League.Weeks L n := by
  induction h with
  | init name maxTeams rosterSize lineupSize h1 h2 h3 =>
    exact ⟨0, League.Weeks.init name maxTeams rosterSize lineupSize h1 h2 h3⟩
  | step L L' _ hs ih =>
    obtain ⟨n, hn⟩ := ih
    cases hs with
    | registerTeam teamName ownerName =>
      exact ⟨n, League.Weeks.registerTeam L n teamName ownerName hn⟩
    | draftPlayer team playerId r hd =>
      exact ⟨n, League.Weeks.draftPlayer L n team playerId r hn hd⟩
    | setTeamLineup team playerIds r hd =>
      exact ⟨n, League.Weeks.setTeamLineup L n team playerIds r hn hd⟩
    | generateMatchups shuffled hp =>
      exact ⟨n, League.Weeks.generateMatchups L n shuffled hn hp⟩
    | simulateWeek rng k _ hr hw =>
      by_cases he : L.schedule = []
      · exact ⟨n, League.Weeks.simulateWeekEmpty L n rng k L' hn he hr hw⟩
      · exact ⟨n + 1, League.Weeks.simulateWeek L n rng k L' hn he hr hw⟩

theorem Weeks_currentWeek (L : League) (n : Nat) (h : League.Weeks L n) :
    L.currentWeek = 1 + (n : Int) := by
  induction h with
  | init name maxTeams rosterSize lineupSize _ _ _ => simp [League.ctor]
  | registerTeam L n teamName ownerName _ ih =>
    rw [(registerTeam_frame L teamName ownerName).2.1, ih]
  | draftPlayer L n team playerId r _ hd ih =>
    rw [(draftPlayer_frame L team playerId r hd).2.1, ih]
  | setTeamLineup L n team playerIds r _ hd ih =>
    rw [(setTeamLineup_frame L team playerIds r hd).2.1, ih]
  | generateMatchups L n shuffled _ _ ih =>
    unfold League.generateMatchups
    split_ifs <;> exact ih
  | simulateWeekEmpty L n rng k L' hW he _ hw ih =>
    have hR := Weeks_reachable L n hW
    obtain ⟨L2, h1, h2, _⟩ :=
      simulateWeek_defined L (Inv_of_reachable L hR) (SchedInv_of_reachable L hR) rng k
    rw [hw, Option.some.injEq] at h1
    rw [h1, h2 he, ih]
  | simulateWeek L n rng k L' hW he _ hw ih =>
    have hR := Weeks_reachable L n hW
    obtain ⟨L2, h1, _, h3⟩ :=
      simulateWeek_defined L (Inv_of_reachable L hR) (SchedInv_of_reachable L hR) rng k
    rw [hw, Option.some.injEq] at h1
    rw [h1, h3 he, ih]
    push_cast
    ring

/-- C19: a state reachable from a fresh league has a history, and whatever the
history, `currentWeek` is 1 plus the number of `simulateWeek` calls made on a
non-empty schedule, hence at least 1; such a call always returns and raises
`currentWeek` by exactly 1, and `registerTeam`, `draftPlayer`, `setTeamLineup`,
`generateMatchups` and `simulateWeek` on an empty schedule leave it as it is. -/
theorem currentWeek_counts_weeks (L : League) (h : L.Reachable) :
    (∃ n, League.Weeks L n) ∧
    (∀ n, League.Weeks L n → L.currentWeek = 1 + (n : Int)) ∧
    1 ≤ L.currentWeek ∧
    (∀ (rng : Rng) (k : Nat), L.schedule ≠ [] →
      ∃ L', L.simulateWeek rng k = some L' ∧ L'.currentWeek = L.currentWeek + 1) ∧
    (∀ (rng : Rng) (k : Nat), L.schedule = [] →
      ∃ L', L.simulateWeek rng k = some L' ∧ L'.currentWeek = L.currentWeek) ∧
    (∀ teamName ownerName : String,
      (L.registerTeam teamName ownerName).2.currentWeek = L.currentWeek) ∧
    (∀ (team : TeamPtr) (playerId : Int) (r : Bool × League),
      L.draftPlayer team playerId = some r → r.2.currentWeek = L.currentWeek) ∧
    (∀ (team : TeamPtr) (playerIds : List Int) (r : Bool × League),
      L.setTeamLineup team playerIds = some r → r.2.currentWeek = L.currentWeek) ∧
    (∀ shuffled : List TeamPtr, (L.generateMatchups shuffled).currentWeek = L.currentWeek) := by
  obtain ⟨n, hn⟩ := reachable_Weeks L h
  have hI := Inv_of_reachable L h
  have hS := SchedInv_of_reachable L h
  refine ⟨⟨n, hn⟩, fun m hm => Weeks_currentWeek L m hm, ?_, ?_, ?_, ?_, ?_, ?_, ?_⟩
  · rw [Weeks_currentWeek L n hn]
    omega
  · intro rng k he
    obtain ⟨L', h1, _, h3⟩ := simulateWeek_defined L hI hS rng k
    exact ⟨L', h1, h3 he⟩
  · intro rng k he
    obtain ⟨L', h1, h2, _⟩ := simulateWeek_defined L hI hS rng k
    exact ⟨L', h1, by rw [h2 he]⟩
  · intro teamName ownerName
    exact (registerTeam_frame L teamName ownerName).2.1
  · intro team playerId r hd
    exact (draftPlayer_frame L team playerId r hd).2.1
  · intro team playerIds r hd
    exact (setTeamLineup_frame L team playerIds r hd).2.1
  · intro shuffled
    unfold League.generateMatchups
    split_ifs <;> rfl

theorem week2_step : League.paired.simulateWeek Rng.lowest 0 = some League.week2 := by
  obtain ⟨L', h1, _, _⟩ := simulateWeek_defined League.paired
    (Inv_of_reachable _ paired_reachable) (SchedInv_of_reachable _ paired_reachable) Rng.lowest 0
  simp [League.week2, h1]

/-- C19 at the league of the application after two registrations, one
`generateMatchups` and one `simulateWeek` whose only matchup is skipped: the
week is 2. -/
theorem currentWeek_counts_weeks_witness :
    League.week2.Reachable ∧ League.Weeks League.week2 1 ∧
    League.week2.currentWeek = 1 + ((1 : Nat) : Int) := by
  have hW : League.Weeks League.week2 1 := by
    have h0 : League.Weeks League.app 0 :=
      League.Weeks.init "Fantasy Football League" 8 10 5 (by decide) (by decide) (by decide)
    have h1 : League.Weeks League.appA 0 := League.Weeks.registerTeam League.app 0 "A" "Ann" h0
    have h2 : League.Weeks League.appAB 0 :=
      League.Weeks.registerTeam League.appA 0 "B" "Bob" h1
    have h3 : League.Weeks League.paired 0 :=
      League.Weeks.generateMatchups League.appAB 0 [1, 0] h2 (by decide)
    exact League.Weeks.simulateWeek League.paired 0 Rng.lowest 0 League.week2 h3 (by decide)
      Rng.lowest_inRange week2_step
  have hR : League.week2.Reachable :=
    League.Reachable.step _ _ paired_reachable
      (League.Step.simulateWeek League.paired Rng.lowest 0 League.week2 Rng.lowest_inRange
        week2_step)
  exact ⟨hR, hW, (currentWeek_counts_weeks League.week2 hR).2.1 1 hW⟩

/-! ## Standings -/

theorem standingsBefore_iff (a b : Team) :
    League.standingsBefore a b = true ↔
      (a.wins > b.wins ∨ (a.wins = b.wins ∧ a.totalPoints > b.totalPoints)) := by
  unfold League.standingsBefore
  by_cases h : a.wins = b.wins
  · simp [h]
  · simp only [ne_eq, h, not_false_eq_true, if_true, decide_eq_true_eq, false_and, or_false]

theorem standingsBefore_irrefl (a : Team) : League.standingsBefore a a = false := by
  simp [League.standingsBefore]

/-! ## The range of one game -/

theorem Rng.worstQuarterback_inRange : Rng.worstQuarterback.InRange := by
  intro k lo hi h
  unfold Rng.worstQuarterback
  split_ifs <;> omega

/-- C29: on draws that lie in their ranges, one simulated game changes the fantasy
points of a player who is not a defense by at least 0 (by at least 1 for a
kicker) and those of a defense by at least -4; a quarterback with 150 passing
yards, no touchdown, 3 interceptions and no rushing yards gets exactly 0, a
defense with no sack, interception or touchdown that allows 35 points exactly
-4. -/
theorem game_delta_bounds (p : Player) (rng : Rng) (k : Nat) (hr : rng.InRange) :
    (p.position ≠ Position.DEFENSE →
      0 ≤ (p.simulateGamePerformance rng k).1.fantasyPoints - p.fantasyPoints) ∧
    (p.position = Position.KICKER →
      1 ≤ (p.simulateGamePerformance rng k).1.fantasyPoints - p.fantasyPoints) ∧
    (p.position = Position.DEFENSE →
      -4 ≤ (p.simulateGamePerformance rng k).1.fantasyPoints - p.fantasyPoints) ∧
    (Rng.worstQuarterback.InRange ∧
      Rng.worstQuarterback 0 150 400 = 150 ∧ Rng.worstQuarterback 1 0 4 = 0 ∧
      Rng.worstQuarterback 2 0 3 = 3 ∧ Rng.worstQuarterback 3 0 50 = 0 ∧
      Rng.worstQuarterback 4 0 1 = 0 ∧
      ((Player.ctor 1 "Patrick Mahomes" Position.QUARTERBACK
          "Kansas City").simulateGamePerformance Rng.worstQuarterback 0).1.fantasyPoints
        - (Player.ctor 1 "Patrick Mahomes" Position.QUARTERBACK "Kansas City").fantasyPoints
        = 0) ∧
    (Rng.lowest.InRange ∧
      Rng.lowest 0 0 5 = 0 ∧ Rng.lowest 1 0 3 = 0 ∧ Rng.lowest 2 0 1 = 0 ∧
      Rng.lowest 3 0 35 = 35 ∧
      ((Player.ctor 34 "San Francisco 49ers" Position.DEFENSE
          "San Francisco").simulateGamePerformance Rng.lowest 0).1.fantasyPoints
        - (Player.ctor 34 "San Francisco 49ers" Position.DEFENSE "San Francisco").fantasyPoints
        = -4) := by
  obtain ⟨h1, h2, h3, h4, h5, h6⟩ := simulateGamePerformance_delta_ge p rng k hr
  refine ⟨?_, ?_, ?_, ?_, ?_⟩
  · intro hne
    cases hp : p.position with
    | QUARTERBACK => linarith [h1 hp]
    | RUNNING_BACK => linarith [h2 hp]
    | WIDE_RECEIVER => linarith [h3 hp]
    | TIGHT_END => linarith [h4 hp]
    | KICKER => linarith [h5 hp]
    | DEFENSE => exact absurd hp hne
  · intro hp
    linarith [h5 hp]
  · intro hp
    linarith [h6 hp]
  · refine ⟨Rng.worstQuarterback_inRange, by decide, by decide, by decide, by decide,
      by decide, ?_⟩
    norm_num [Player.simulateGamePerformance, Player.ctor, Rng.worstQuarterback]
  · refine ⟨Rng.lowest_inRange, by decide, by decide, by decide, by decide, ?_⟩
    norm_num [Player.simulateGamePerformance, Player.ctor, Rng.lowest, pointsAllowedBonus]

/-- C29 at the first kicker of the catalog on the draws of `Rng.lowest`: no field
goal and one extra point. -/
theorem game_delta_bounds_witness :
    Rng.lowest.InRange ∧
    1 ≤ ((Player.ctor 30 "Justin Tucker" Position.KICKER
          "Baltimore").simulateGamePerformance Rng.lowest 0).1.fantasyPoints
        - (Player.ctor 30 "Justin Tucker" Position.KICKER "Baltimore").fantasyPoints :=
  ⟨Rng.lowest_inRange,
   (game_delta_bounds (Player.ctor 30 "Justin Tucker" Position.KICKER "Baltimore")
      Rng.lowest 0 Rng.lowest_inRange).2.1 rfl⟩

/-! ## Registration -/

theorem nameTaken_iff (teams : List Team) (teamName : String) :
    League.nameTaken teams teamName = true ↔ ∃ t ∈ teams, t.name = teamName := by
  simp [League.nameTaken]

/-- C22: in a league whose `maxTeams` is a non-negative `int`, `registerTeam` fails
exactly when the league has `maxTeams` teams (or more) or a registered team
has that very name; a failed call leaves the league as it was, a successful
call appends one team with that name and owner, no win, no loss, no point, an
empty roster and an empty lineup, and changes nothing else. -/
theorem registerTeam_spec (L : League) (teamName ownerName : String)
    (hsz : IsInt32 L.maxTeams) (h0 : 0 ≤ L.maxTeams) :
    ((L.registerTeam teamName ownerName).1 = false ↔
      (L.maxTeams ≤ (L.teams.length : Int) ∨ ∃ t ∈ L.teams, t.name = teamName)) ∧
    ((L.teams.length : Int) ≤ L.maxTeams →
      ((L.registerTeam teamName ownerName).1 = false ↔
        ((L.teams.length : Int) = L.maxTeams ∨ ∃ t ∈ L.teams, t.name = teamName))) ∧
    ((L.registerTeam teamName ownerName).1 = false →
      (L.registerTeam teamName ownerName).2 = L) ∧
    ((L.registerTeam teamName ownerName).1 = true →
      (L.registerTeam teamName ownerName).2 =
        { L with teams := L.teams ++
            [{ name := teamName, owner := ownerName, roster := [], activeLineup := [],
               wins := 0, losses := 0, totalPoints := 0 }] }) := by
  have hT := toSizeT_of_nonneg L.maxTeams h0 hsz
  have key : (L.registerTeam teamName ownerName).1 = false ↔
      (L.maxTeams ≤ (L.teams.length : Int) ∨ ∃ t ∈ L.teams, t.name = teamName) := by
    unfold League.registerTeam
    by_cases hfull : L.teams.length ≥ toSizeT L.maxTeams
    · have : L.maxTeams ≤ (L.teams.length : Int) := by omega
      simp [hfull, this]
    · have hlt : ¬ L.maxTeams ≤ (L.teams.length : Int) := by omega
      by_cases hn : League.nameTaken L.teams teamName = true
      · simp only [hfull, if_false, hn, if_true, true_iff]
        exact Or.inr ((nameTaken_iff _ _).1 hn)
      · simp only [hfull, if_false, hn, Bool.false_eq_true, hlt, false_or]
        constructor
        · intro h
          exact Bool.noConfusion h
        · intro h
          exact absurd ((nameTaken_iff _ _).2 h) hn
  refine ⟨key, ?_, ?_, ?_⟩
  · intro hle
    rw [key]
    constructor
    · rintro (h | h)
      · exact Or.inl (le_antisymm hle h)
      · exact Or.inr h
    · rintro (h | h)
      · exact Or.inl (le_of_eq h.symm)
      · exact Or.inr h
  · unfold League.registerTeam
    split_ifs <;> simp
  · unfold League.registerTeam
    split_ifs <;> simp [Team.ctor]

/-- C22 at the league of the application with the team A: a second team A is
refused, a team B is appended. -/
theorem registerTeam_spec_witness :
    IsInt32 League.appA.maxTeams ∧ 0 ≤ League.appA.maxTeams ∧
    (League.appA.registerTeam "A" "Bob").2 = League.appA ∧
    (League.appA.registerTeam "B" "Bob").2 =
      { League.appA with teams := League.appA.teams ++
          [{ name := "B", owner := "Bob", roster := [], activeLineup := [],
             wins := 0, losses := 0, totalPoints := 0 }] } :=
  ⟨by decide, by decide,
   (registerTeam_spec League.appA "A" "Bob" (by decide) (by decide)).2.2.1 (by decide),
   (registerTeam_spec League.appA "B" "Bob" (by decide) (by decide)).2.2.2 (by decide)⟩

/-! ## Too few teams -/

theorem schedule_needs_two_teams (L : League) (hS : L.SchedInv) (hlt : L.teams.length < 2) :
    L.schedule = [] := by
  cases hs : L.schedule with
  | nil => rfl
  | cons m rest =>
    exfalso
    have hv := hS.valid
    have hnd := hS.nodup
    simp only [League.scheduledTeams, hs, List.flatMap_cons, Matchup.teams, List.cons_append,
      List.nil_append, List.mem_cons, forall_eq_or_imp, List.nodup_cons, not_or] at hv hnd
    have h1 : m.homeTeam < L.teams.length := hv.1
    have h2 : m.awayTeam < L.teams.length := hv.2.1
    have h3 : ¬ m.homeTeam = m.awayTeam := hnd.1.1
    have key : ∀ a b n : Nat, a < n → b < n → ¬ a = b → n < 2 → False := by
      intro a b n _ _ _ _
      omega
    exact key _ _ _ h1 h2 h3 hlt

/-- C27: in a state reachable from a fresh league with fewer than two teams,
`generateMatchups` creates no matchup and leaves the whole league as it was. -/
theorem generateMatchups_few_teams_noop (L : League) (h : L.Reachable)
    (hlt : L.teams.length < 2) (shuffled : List TeamPtr) :
    L.generateMatchups shuffled = L ∧ (L.generateMatchups shuffled).schedule = [] := by
  have he := schedule_needs_two_teams L (SchedInv_of_reachable L h) hlt
  have e : L.generateMatchups shuffled = L := by
    unfold League.generateMatchups
    rw [if_pos hlt]
    cases L
    simp only at he
    simp [he]
  exact ⟨e, by rw [e]; exact he⟩

/-- C27 at the league of the application with one team. -/
theorem generateMatchups_few_teams_noop_witness :
    League.appA.Reachable ∧ League.appA.teams.length < 2 ∧
    League.appA.generateMatchups [0] = League.appA ∧
    (League.appA.generateMatchups [0]).schedule = [] := by
  have hR : League.appA.Reachable :=
    League.Reachable.step _ _
      (League.Reachable.init "Fantasy Football League" 8 10 5 (by decide) (by decide)
        (by decide))
      (League.Step.registerTeam League.app "A" "Ann")
  exact ⟨hR, by decide, generateMatchups_few_teams_noop League.appA hR (by decide) [0]⟩

/-! ## The shape of a draft and of a lineup change -/

theorem draftPlayer_cases (L : League) (team : TeamPtr) (playerId : Int) (r : Bool × League)
    (h : L.draftPlayer team playerId = some r) :
    r.2 = L ∨
    ∃ t i player, L.teams[team]? = some t ∧ ¬ t.getRosterSize ≥ L.rosterSize ∧
      r.2 = { L with teams := L.teams.set team { t with roster := t.roster ++ [player] },
                     availablePlayers := L.availablePlayers.eraseIdx i } := by
  unfold League.draftPlayer at h
  cases hf : findById L.heap L.availablePlayers playerId with
  | none => simp [hf] at h
  | some x =>
    cases x with
    | none =>
      simp only [hf, Option.some.injEq] at h
      subst h; exact Or.inl rfl
    | some i =>
      simp only [hf] at h
      cases ht : L.teams[team]? with
      | none => simp [ht] at h
      | some t =>
        simp only [ht] at h
        split_ifs at h with hfull
        · simp only [Option.some.injEq] at h
          subst h; exact Or.inl rfl
        · cases hp : L.availablePlayers[i]? with
          | none => simp [hp] at h
          | some player =>
            simp only [hp] at h
            cases ha : Team.addPlayer L.heap t player with
            | none => simp [ha] at h
            | some y =>
              obtain ⟨b, t'⟩ := y
              rcases addPlayer_cases L.heap t player b t' ha with ⟨hb, ht'⟩ | ⟨hb, ht'⟩
              · subst hb
                simp only [ha, Option.some.injEq] at h
                subst h
                exact Or.inr ⟨t, i, player, rfl, hfull, by rw [ht']⟩
              · subst hb
                simp only [ha, Option.some.injEq] at h
                subst h
                subst ht'
                left
                simp only [set_same L.teams team t' ht]

theorem setTeamLineup_cases (L : League) (team : TeamPtr) (playerIds : List Int)
    (r : Bool × League) (h : L.setTeamLineup team playerIds = some r) :
    r.2 = L ∨
    ∃ t lineup, L.teams[team]? = some t ∧
      r.2 = { L with teams := L.teams.set team { t with activeLineup := lineup } } := by
  unfold League.setTeamLineup at h
  split_ifs at h with hlen
  · simp only [Option.some.injEq] at h
    subst h; exact Or.inl rfl
  · cases ht : L.teams[team]? with
    | none => simp [ht] at h
    | some t =>
      simp only [ht, Team.setLineup] at h
      cases hs : Team.setLineupLoop L.heap t.roster playerIds [] with
      | none => simp [hs] at h
      | some y =>
        obtain ⟨ok, lineup⟩ := y
        simp only [hs, Option.some.injEq] at h
        subst h
        exact Or.inr ⟨t, lineup, rfl, rfl⟩

/-! ## The bounds of the configuration -/

theorem map_name_set (teams : List Team) (i : Nat) (t t' : Team)
    (hi : teams[i]? = some t) (ht : t'.name = t.name) :
    (teams.set i t').map Team.name = teams.map Team.name := by
  apply List.ext_getElem?
  intro n
  simp only [List.map_set, List.getElem?_set, List.getElem?_map, List.length_map]
  by_cases hn : i = n
  · subst hn
    have hlt : i < teams.length := (List.getElem?_eq_some.1 hi).1
    simp [hlt, hi, ht]
  · simp [hn]

theorem SizeInv_init (name : String) (maxTeams rosterSize lineupSize : Int) :
    (League.ctor name maxTeams rosterSize lineupSize).SizeInv where
  teams := by
    intro h
    simpa [League.ctor] using h
  rosters := by simp [League.ctor]
  names := by simp [League.ctor]

theorem SizeInv_registerTeam (L : League) (teamName ownerName : String) (hI : L.Inv)
    (hZ : L.SizeInv) : (L.registerTeam teamName ownerName).2.SizeInv := by
  unfold League.registerTeam
  split_ifs with hfull hname
  · exact hZ
  · exact hZ
  · refine ⟨?_, ?_, ?_⟩
    · intro h0
      have hT := toSizeT_of_nonneg L.maxTeams h0 hI.maxTeams
      simp only [List.length_append, List.length_singleton, Nat.cast_add, Nat.cast_one]
      omega
    · intro h0 t ht
      simp only [List.mem_append, List.mem_singleton] at ht
      rcases ht with ht | rfl
      · exact hZ.rosters h0 t ht
      · simpa [Team.ctor] using h0
    · simp only [List.map_append, List.map_cons, List.map_nil]
      rw [List.nodup_append]
      refine ⟨hZ.names, by simp, ?_⟩
      rw [List.disjoint_left]
      intro x hx hx'
      simp only [Team.ctor, List.mem_singleton] at hx'
      subst hx'
      obtain ⟨t, ht, hn⟩ := List.mem_map.1 hx
      exact hname ((nameTaken_iff _ _).2 ⟨t, ht, hn⟩)

theorem SizeInv_draftPlayer (L : League) (team : TeamPtr) (playerId : Int) (r : Bool × League)
    (hI : L.Inv) (hZ : L.SizeInv) (h : L.draftPlayer team playerId = some r) : r.2.SizeInv := by
  rcases draftPlayer_cases L team playerId r h with e | ⟨t, i, player, ht, hroom, e⟩
  · rw [e]; exact hZ
  · rw [e]
    refine ⟨?_, ?_, ?_⟩
    · intro h0
      simpa using hZ.teams h0
    · intro h0 u hu
      rcases List.mem_or_eq_of_mem_set hu with hu | rfl
      · exact hZ.rosters h0 u hu
      · have hle := hZ.rosters h0 t (List.getElem?_mem ht)
        have hint := hI.rosterSize
        unfold IsInt32 at hint
        simp only at h0 hle hint
        unfold Team.getRosterSize at hroom
        rw [toInt32_of_lt _ (by omega)] at hroom
        simp only [List.length_append, List.length_singleton, Nat.cast_add, Nat.cast_one]
        omega
    · simp only
      rw [map_name_set L.teams team t { t with roster := t.roster ++ [player] } ht rfl]
      exact hZ.names

theorem SizeInv_setTeamLineup (L : League) (team : TeamPtr) (playerIds : List Int)
    (r : Bool × League) (hZ : L.SizeInv) (h : L.setTeamLineup team playerIds = some r) :
    r.2.SizeInv := by
  rcases setTeamLineup_cases L team playerIds r h with e | ⟨t, lineup, ht, e⟩
  · rw [e]; exact hZ
  · rw [e]
    refine ⟨?_, ?_, ?_⟩
    · intro h0
      simpa using hZ.teams h0
    · intro h0 u hu
      rcases List.mem_or_eq_of_mem_set hu with hu | rfl
      · exact hZ.rosters h0 u hu
      · exact hZ.rosters h0 t (List.getElem?_mem ht)
    · simp only
      rw [map_name_set L.teams team t { t with activeLineup := lineup } ht rfl]
      exact hZ.names

theorem SizeInv_of_same (L L' : League) (hZ : L.SizeInv)
    (ht : L'.teams.map Team.setup = L.teams.map Team.setup)
    (h1 : L'.maxTeams = L.maxTeams) (h2 : L'.rosterSize = L.rosterSize) : L'.SizeInv := by
  have hl : L'.teams.length = L.teams.length := by
    have := congrArg List.length ht
    simpa using this
  refine ⟨?_, ?_, ?_⟩
  · intro h0
    rw [hl, h1]
    exact hZ.teams (h1 ▸ h0)
  · intro h0 t ht'
    have hm : t.setup ∈ L'.teams.map Team.setup := List.mem_map_of_mem _ ht'
    rw [ht] at hm
    obtain ⟨t0, ht0, he⟩ := List.mem_map.1 hm
    simp only [Team.setup, Prod.mk.injEq] at he
    rw [h2, ← he.2.2.1]
    exact hZ.rosters (h2 ▸ h0) t0 ht0
  · have hn : L'.teams.map Team.name = L.teams.map Team.name := by
      have := congrArg (List.map (fun s : String × String × List PlayerPtr × List PlayerPtr =>
        s.1)) ht
      simpa [List.map_map, Function.comp_def, Team.setup] using this
    rw [hn]
    exact hZ.names

theorem SizeInv_step (L L' : League) (hI : L.Inv) (hZ : L.SizeInv) (h : League.Step L L') :
    L'.SizeInv := by
  cases h with
  | registerTeam teamName ownerName => exact SizeInv_registerTeam L teamName ownerName hI hZ
  | draftPlayer team playerId r h => exact SizeInv_draftPlayer L team playerId r hI hZ h
  | setTeamLineup team playerIds r h => exact SizeInv_setTeamLineup L team playerIds r hZ h
  | generateMatchups shuffled _ =>
    unfold League.generateMatchups
    split_ifs
    · exact ⟨hZ.teams, hZ.rosters, hZ.names⟩
    · exact ⟨hZ.teams, hZ.rosters, hZ.names⟩
  | simulateWeek rng k _ _ hw =>
    obtain ⟨_, h2, _, h4, h5, _⟩ := simulateWeek_keeps L L' rng k hw
    exact SizeInv_of_same L L' hZ h2 h4 h5

theorem SizeInv_of_reachable (L : League) (h : L.Reachable) : L.SizeInv := by
  induction h with
  | init name maxTeams rosterSize lineupSize _ _ _ =>
    exact SizeInv_init name maxTeams rosterSize lineupSize
  | step L L' hr hs ih => exact SizeInv_step L L' (Inv_of_reachable L hr) ih hs

/-- C23: in every state reachable from a fresh league whose `maxTeams` and
`rosterSize` are not negative, every roster has at most `rosterSize` players,
the league has at most `maxTeams` teams, and no two registered teams have the
same name. -/
theorem reachable_sizes_bounded (L : League) (h : L.Reachable) (h1 : 0 ≤ L.maxTeams)
    (h2 : 0 ≤ L.rosterSize) :
    (∀ t ∈ L.teams, (t.roster.length : Int) ≤ L.rosterSize) ∧
    (L.teams.length : Int) ≤ L.maxTeams ∧
    (∀ (i j : Nat) (t u : Team), i ≠ j → L.teams[i]? = some t → L.teams[j]? = some u →
      t.name ≠ u.name) := by
  have hZ := SizeInv_of_reachable L h
  refine ⟨hZ.rosters h2, hZ.teams h1, ?_⟩
  intro i j t u hij hi hj he
  obtain ⟨hi1, e1⟩ := List.getElem?_eq_some.1 hi
  obtain ⟨hj1, e2⟩ := List.getElem?_eq_some.1 hj
  have hi2 : i < (L.teams.map Team.name).length := by simpa using hi1
  have hj2 : j < (L.teams.map Team.name).length := by simpa using hj1
  have : (L.teams.map Team.name)[i] = (L.teams.map Team.name)[j] := by
    simp [e1, e2, he]
  exact hij (hZ.names.getElem_inj_iff.1 this)

/-- C23 at the league `duo3`: one team of at most eight, with two players of at
most ten. -/
theorem reachable_sizes_bounded_witness :
    League.duo3.Reachable ∧ 0 ≤ League.duo3.maxTeams ∧ 0 ≤ League.duo3.rosterSize ∧
    Team.drafted ∈ League.duo3.teams ∧
    (Team.drafted.roster.length : Int) ≤ League.duo3.rosterSize ∧
    (League.duo3.teams.length : Int) ≤ League.duo3.maxTeams :=
  ⟨duo3_reachable, by decide, by decide, by decide,
   (reachable_sizes_bounded League.duo3 duo3_reachable (by decide) (by decide)).1
     Team.drafted (by decide),
   (reachable_sizes_bounded League.duo3 duo3_reachable (by decide) (by decide)).2.1⟩

/-! ## Looking a player up -/

theorem findById_found_iff (heap : Heap) (ptrs : List PlayerPtr) (id : Int)
    (hv : ∀ p ∈ ptrs, p < heap.length) :
    ∃ r, findById heap ptrs id = some r ∧
      (r.isSome ↔ ∃ p ∈ ptrs, getId heap p = some id) ∧
      (∀ i, r = some i → ∃ p, ptrs[i]? = some p ∧ getId heap p = some id) := by
  obtain ⟨r, hr⟩ := findById_defined heap ptrs id hv
  refine ⟨r, hr, ?_, ?_⟩
  · cases r with
    | none =>
      have := (findById_some_none_iff heap ptrs id).1 hr
      simp only [Option.isSome_none, Bool.false_eq_true, false_iff, not_exists, not_and]
      intro p hp hid
      obtain ⟨pl, h1, h2⟩ := this p hp
      simp only [getId, h1, Option.some.injEq] at hid
      exact h2 hid
    | some i =>
      obtain ⟨p, pl, h1, h2, h3, _⟩ := findById_some_some heap ptrs id i hr
      simp only [Option.isSome_some, true_iff]
      exact ⟨p, List.getElem?_mem h1, by simp [getId, h2, h3]⟩
  · intro i hi
    subst hi
    obtain ⟨p, pl, h1, h2, h3, _⟩ := findById_some_some heap ptrs id i hr
    exact ⟨p, h1, by simp [getId, h2, h3]⟩

theorem teamLookup_found_iff (heap : Heap) (t : Team) (id : Int)
    (hv : ∀ p ∈ t.roster, p < heap.length) :
    ∃ r, Team.getPlayerById heap t id = some r ∧
      (r.isSome ↔ ∃ p ∈ t.roster, getId heap p = some id) ∧
      (∀ p, r = some p → p ∈ t.roster ∧ getId heap p = some id) := by
  obtain ⟨r, hr, h1, h2⟩ := findById_found_iff heap t.roster id hv
  cases r with
  | none =>
    refine ⟨none, by simp [Team.getPlayerById, hr], ?_, by simp⟩
    simpa using h1
  | some i =>
    obtain ⟨p, hp, hid⟩ := h2 i rfl
    refine ⟨some p, by simp [Team.getPlayerById, hr, hp], ?_, ?_⟩
    · simp only [Option.isSome_some, true_iff]
      exact ⟨p, List.getElem?_mem hp, hid⟩
    · intro q hq
      rw [Option.some.injEq] at hq
      subst hq
      exact ⟨List.getElem?_mem hp, hid⟩

theorem getPlayerByIdLoop_found_iff (heap : Heap) (teams : List Team) (id : Int)
    (hv : ∀ t ∈ teams, ∀ p ∈ t.roster, p < heap.length) :
    ∃ r, League.getPlayerByIdLoop heap teams id = some r ∧
      (r.isSome ↔ ∃ t ∈ teams, ∃ p ∈ t.roster, getId heap p = some id) ∧
      (∀ p, r = some p → getId heap p = some id) := by
  induction teams with
  | nil => exact ⟨none, rfl, by simp, by simp⟩
  | cons t rest ih =>
    obtain ⟨r1, h1, h2, h3⟩ := teamLookup_found_iff heap t id (hv t (by simp))
    cases r1 with
    | some p =>
      refine ⟨some p, by simp [League.getPlayerByIdLoop, h1], ?_, ?_⟩
      · simp only [Option.isSome_some, true_iff]
        exact ⟨t, by simp, p, (h3 p rfl).1, (h3 p rfl).2⟩
      · intro q hq
        rw [Option.some.injEq] at hq
        subst hq
        exact (h3 p rfl).2
    | none =>
      obtain ⟨r, hr, h4, h5⟩ := ih (fun u hu => hv u (by simp [hu]))
      refine ⟨r, by simp [League.getPlayerByIdLoop, h1, hr], ?_, h5⟩
      rw [h4]
      have hno : ¬ ∃ p ∈ t.roster, getId heap p = some id := by
        simpa using h2
      constructor
      · rintro ⟨u, hu, hp⟩
        exact ⟨u, by simp [hu], hp⟩
      · rintro ⟨u, hu, hp⟩
        simp only [List.mem_cons] at hu
        rcases hu with rfl | hu
        · exact absurd hp hno
        · exact ⟨u, hu, hp⟩

theorem leagueLookup_found_iff (L : League) (id : Int)
    (hv : ∀ p ∈ L.allPtrs, p < L.heap.length) :
    ∃ r, L.getPlayerById id = some r ∧
      (r.isSome ↔ ∃ p ∈ L.allPtrs, getId L.heap p = some id) ∧
      (∀ p, r = some p → getId L.heap p = some id) := by
  have hvp : ∀ p ∈ L.availablePlayers, p < L.heap.length := fun p hp =>
    hv p (Inv_mem_allPtrs_pool L p hp)
  have hvr : ∀ t ∈ L.teams, ∀ p ∈ t.roster, p < L.heap.length := fun t ht p hp =>
    hv p (Inv_mem_allPtrs_roster L t ht p hp)
  have hall : ∀ id', (∃ p ∈ L.allPtrs, getId L.heap p = some id') ↔
      ((∃ p ∈ L.availablePlayers, getId L.heap p = some id') ∨
        ∃ t ∈ L.teams, ∃ p ∈ t.roster, getId L.heap p = some id') := by
    intro id'
    simp only [League.allPtrs, List.mem_append, List.mem_flatten, List.mem_map]
    constructor
    · rintro ⟨p, hp | ⟨l, ⟨t, ht, rfl⟩, hp⟩, hid⟩
      · exact Or.inl ⟨p, hp, hid⟩
      · exact Or.inr ⟨t, ht, p, hp, hid⟩
    · rintro (⟨p, hp, hid⟩ | ⟨t, ht, p, hp, hid⟩)
      · exact ⟨p, Or.inl hp, hid⟩
      · exact ⟨p, Or.inr ⟨t.roster, ⟨t, ht, rfl⟩, hp⟩, hid⟩
  obtain ⟨r1, h1, h2, h3⟩ := findById_found_iff L.heap L.availablePlayers id hvp
  cases r1 with
  | some i =>
    obtain ⟨p, hp, hid⟩ := h3 i rfl
    refine ⟨some p, by simp [League.getPlayerById, League.getAvailablePlayerById, h1, hp], ?_, ?_⟩
    · simp only [Option.isSome_some, true_iff]
      exact (hall id).2 (Or.inl ⟨p, List.getElem?_mem hp, hid⟩)
    · intro q hq
      rw [Option.some.injEq] at hq
      subst hq
      exact hid
  | none =>
    obtain ⟨r, hr, h4, h5⟩ := getPlayerByIdLoop_found_iff L.heap L.teams id hvr
    refine ⟨r, by simp [League.getPlayerById, League.getAvailablePlayerById, h1, hr], ?_, h5⟩
    rw [h4, hall id]
    have hno : ¬ ∃ p ∈ L.availablePlayers, getId L.heap p = some id := by
      simpa using h2
    constructor
    · exact fun h => Or.inr h
    · rintro (h | h)
      · exact absurd h hno
      · exact h

theorem Inv_getId (L : League) (hL : L.Inv) (p : PlayerPtr) (hp : p < 38) :
    getId L.heap p = some ((p : Int) + 1) := by
  have hlen := Inv_heap_length L hL
  have hp' : p < L.heap.length := by
    rw [hlen]
    exact hp
  have e1 : (L.heap.map Player.id)[p]? = some (L.heap[p].id) := by
    simp [List.getElem?_eq_getElem hp']
  have e2 : League.catalog.map Player.id = (List.range 38).map (fun (i : Nat) => (i : Int) + 1) := by
    decide
  rw [hL.ids, e2] at e1
  have e3 : ((List.range 38).map (fun (i : Nat) => (i : Int) + 1))[p]? = some ((p : Int) + 1) := by
    simp [hp]
  rw [e3, Option.some.injEq] at e1
  simp [getId, List.getElem?_eq_getElem hp', e1]

theorem Inv_id_on_hand_iff (L : League) (hL : L.Inv) (id : Int) :
    (∃ p ∈ L.allPtrs, getId L.heap p = some id) ↔ (1 ≤ id ∧ id ≤ 38) := by
  have hmem : ∀ p, p ∈ L.allPtrs ↔ p < 38 := fun p => by
    rw [hL.ptrs.mem_iff, List.mem_range]
    rfl
  constructor
  · rintro ⟨p, hp, hid⟩
    have hp' := (hmem p).1 hp
    rw [Inv_getId L hL p hp', Option.some.injEq] at hid
    have key : ∀ (n : Nat) (x : Int), n < 38 → (n : Int) + 1 = x → 1 ≤ x ∧ x ≤ 38 := by
      intro n x _ _
      omega
    exact key p id hp' hid
  · rintro ⟨h1, h2⟩
    have hp' : (id - 1).toNat < 38 := by omega
    refine ⟨(id - 1).toNat, (hmem _).2 hp', ?_⟩
    rw [Inv_getId L hL _ hp', Option.some.injEq]
    omega

/-- C26: a fresh league has no team, no schedule, week 1 and a pool that points,
in order, to the 38 players of the catalog, whose ids are 1 to 38 in order and
whose positions are 6 quarterbacks, 8 running backs, 10 wide receivers, 5
tight ends, 4 kickers and 5 defenses; in every state reachable from it the
ids of the players of the pool and of the rosters are the ids 1 to 38, each
once, and `getPlayerById` returns, with a player (of that id) exactly when the
id is between 1 and 38. -/
theorem catalog_conserved (L : League) (h : L.Reachable) :
    (∀ (name : String) (maxTeams rosterSize lineupSize : Int),
      (League.ctor name maxTeams rosterSize lineupSize).teams = [] ∧
      (League.ctor name maxTeams rosterSize lineupSize).schedule = [] ∧
      (League.ctor name maxTeams rosterSize lineupSize).currentWeek = 1 ∧
      (League.ctor name maxTeams rosterSize lineupSize).availablePlayers.map
        (fun p => (League.ctor name maxTeams rosterSize lineupSize).heap[p]?) =
          League.catalog.map some) ∧
    League.catalog.length = 38 ∧
    League.catalog.map (fun pl => some pl.id) = League.catalogIds ∧
    League.catalog.map Player.position =
      List.replicate 6 Position.QUARTERBACK ++ List.replicate 8 Position.RUNNING_BACK ++
      List.replicate 10 Position.WIDE_RECEIVER ++ List.replicate 5 Position.TIGHT_END ++
      List.replicate 4 Position.KICKER ++ List.replicate 5 Position.DEFENSE ∧
    (L.allPtrs.map (getId L.heap)).Perm League.catalogIds ∧
    (∀ id : Int, ∃ r, L.getPlayerById id = some r ∧
      (r.isSome ↔ (1 ≤ id ∧ id ≤ 38)) ∧
      (∀ p, r = some p → getId L.heap p = some id)) := by
  have hL := Inv_of_reachable L h
  refine ⟨?_, by decide, by decide, by decide, ?_, ?_⟩
  · intro name maxTeams rosterSize lineupSize
    refine ⟨rfl, rfl, rfl, ?_⟩
    simp only [League.ctor]
    decide
  · have h1 := hL.ptrs.map (getId L.heap)
    refine h1.trans ?_
    have : (List.range League.catalog.length).map (getId L.heap) = League.catalogIds := by
      unfold League.catalogIds
      apply List.map_congr_left
      intro p hp
      exact Inv_getId L hL p (List.mem_range.1 hp)
    rw [this]
  · intro id
    obtain ⟨r, h1, h2, h3⟩ := leagueLookup_found_iff L id (Inv_valid L hL)
    exact ⟨r, h1, h2.trans (Inv_id_on_hand_iff L hL id), h3⟩

/-- C26 at the league `duo3`, where players 1 and 2 are on a roster: the ids 2
and 38 are found, the id 39 is not. -/
theorem catalog_conserved_witness :
    League.duo3.Reachable ∧
    (League.duo3.getPlayerById 2).map Option.isSome = some true ∧
    (League.duo3.getPlayerById 39).map Option.isSome = some false ∧
    ∃ r, League.duo3.getPlayerById 38 = some r ∧
      (r.isSome ↔ ((1 : Int) ≤ 38 ∧ (38 : Int) ≤ 38)) ∧
      (∀ p, r = some p → getId League.duo3.heap p = some 38) :=
  ⟨duo3_reachable, by decide, by decide,
   (catalog_conserved League.duo3 duo3_reachable).2.2.2.2.2 38⟩

/-! ## The score of a game -/

/-- C25 (the code on a lineup that names a player twice): a team adds the players
1 and 2, sets the lineup `[1, 1]`, which `setLineup` accepts, and removes
player 1; `removePlayer` returns true and takes him off the roster, but erases
only his first lineup entry, so the lineup still points to player 1. -/
theorem removePlayer_leaves_duplicate :
    Team.addPlayer League.catalog (Team.ctor "A" "Ann") 0 =
      some (true, { Team.ctor "A" "Ann" with roster := [0] }) ∧
    Team.addPlayer League.catalog { Team.ctor "A" "Ann" with roster := [0] } 1 =
      some (true, Team.drafted) ∧
    Team.setLineup League.catalog Team.drafted [1, 1] = some (true, Team.twice) ∧
    Team.removePlayer League.catalog Team.twice 1 =
      some (true, { Team.twice with roster := [1], activeLineup := [0] }) ∧
    getId League.catalog 0 = some 1 :=
  ⟨by decide, by decide, by decide, by decide, by decide⟩

/-! ## Ties in the standings -/

theorem appAB_reachable : League.appAB.Reachable := by
  have h0 : League.app.Reachable :=
    League.Reachable.init "Fantasy Football League" 8 10 5 (by decide) (by decide) (by decide)
  have h1 : League.appA.Reachable :=
    League.Reachable.step _ _ h0 (League.Step.registerTeam League.app "A" "Ann")
  exact League.Reachable.step _ _ h1 (League.Step.registerTeam League.appA "B" "Bob")

/-! ## Records and weeks -/

theorem updateRecord_played (b : Bool) (t : Team) :
    (t.updateRecord b).wins + (t.updateRecord b).losses = t.wins + t.losses + 1 := by
  unfold Team.updateRecord
  cases b
  · simp only [Bool.false_eq_true, if_false]
    omega
  · simp only [if_true]
    omega

theorem simulateGame_record (rng : Rng) (heap : Heap) (t : Team) (k : Nat)
    (r : ℚ × Heap × Team × Nat) (h : Team.simulateGame rng heap t k = some r) :
    r.2.2.1.wins = t.wins ∧ r.2.2.1.losses = t.losses := by
  simp only [Team.simulateGame] at h
  cases hl : Team.simulateGameLoop rng t.activeLineup heap 0 k with
  | none => simp [hl] at h
  | some x =>
    obtain ⟨s, heap', k'⟩ := x
    simp only [hl, Option.some.injEq] at h
    subst h
    exact ⟨rfl, rfl⟩

theorem played_record (teams : List Team) (h a : Nat) (home home1 away1 away2 : Team)
    (b1 b2 : Bool) (hne : h ≠ a) (hh : teams[h]? = some home)
    (ha1 : (teams.set h home1)[a]? = some away1)
    (e1 : home1.wins = home.wins ∧ home1.losses = home.losses)
    (e2 : away2.wins = away1.wins ∧ away2.losses = away1.losses) (i : Nat) (t' : Team)
    (hi : ((((teams.set h home1).set a away2).modify (fun t => t.updateRecord b1) h).modify
      (fun t => t.updateRecord b2) a)[i]? = some t') :
    ∃ t, teams[i]? = some t ∧
      (i ∉ [h, a] → t'.wins + t'.losses = t.wins + t.losses) ∧
      (t'.wins + t'.losses = t.wins + t.losses ∨
        t'.wins + t'.losses = t.wins + t.losses + 1) := by
  have hhl : h < teams.length := (List.getElem?_eq_some.1 hh).1
  have hal : a < teams.length := by
    have := (List.getElem?_eq_some.1 ha1).1
    simpa using this
  have ha : teams[a]? = some away1 := by
    rw [List.getElem?_set] at ha1
    simpa [hne] using ha1
  rw [set_set_modify_modify teams h a home1 away2 _ _ hne hhl hal] at hi
  by_cases hia : a = i
  · subst hia
    simp only [List.getElem?_set, List.length_set, hal, if_true, Option.some.injEq] at hi
    subst hi
    refine ⟨away1, ha, fun hn => absurd (by simp) hn, Or.inr ?_⟩
    rw [updateRecord_played, e2.1, e2.2]
  · by_cases hih : h = i
    · subst hih
      simp only [List.getElem?_set, List.length_set, hia, hhl, if_true, if_false,
        Option.some.injEq] at hi
      subst hi
      refine ⟨home, hh, fun hn => absurd (by simp) hn, Or.inr ?_⟩
      rw [updateRecord_played, e1.1, e1.2]
    · simp only [List.getElem?_set, hia, hih, if_false] at hi
      exact ⟨t', hi, fun _ => rfl, Or.inl rfl⟩

theorem Matchup.simulate_record (rng : Rng) (m : Matchup) (heap : Heap) (teams : List Team)
    (k : Nat) (r : Matchup × Heap × List Team × Nat)
    (h : Matchup.simulate rng m heap teams k = some r) (hne : m.homeTeam ≠ m.awayTeam)
    (i : Nat) (t' : Team) (hi : r.2.2.1[i]? = some t') :
    ∃ t, teams[i]? = some t ∧
      (i ∉ m.teams → t'.wins + t'.losses = t.wins + t.losses) ∧
      (t'.wins + t'.losses = t.wins + t.losses ∨
        t'.wins + t'.losses = t.wins + t.losses + 1) := by
  unfold Matchup.simulate at h
  cases hh : teams[m.homeTeam]? with
  | none => simp [hh] at h
  | some home =>
    simp only [hh] at h
    split_ifs at h with hc
    · simp only [Option.some.injEq] at h
      subst h
      exact ⟨t', hi, fun _ => rfl, Or.inl rfl⟩
    · cases ha : teams[m.awayTeam]? with
      | none => simp [ha] at h
      | some away =>
        simp only [ha] at h
        split_ifs at h with hc'
        · simp only [Option.some.injEq] at h
          subst h
          exact ⟨t', hi, fun _ => rfl, Or.inl rfl⟩
        · cases h1 : Team.simulateGame rng heap home k with
          | none => simp [h1] at h
          | some x1 =>
            obtain ⟨homeScore, heap1, home1, k1⟩ := x1
            simp only [h1] at h
            have e1 := simulateGame_record rng heap home k _ h1
            cases ha1 : (teams.set m.homeTeam home1)[m.awayTeam]? with
            | none => simp [ha1] at h
            | some away1 =>
              simp only [ha1] at h
              cases h2 : Team.simulateGame rng heap1 away1 k1 with
              | none => simp [h2] at h
              | some x2 =>
                obtain ⟨awayScore, heap2, away2, k2⟩ := x2
                simp only [h2, Option.some.injEq] at h
                have e2 := simulateGame_record rng heap1 away1 k1 _ h2
                subst h
                simp only at hi
                unfold Matchup.teams
                split_ifs at hi
                · exact played_record teams _ _ home home1 away1 away2 true false hne hh ha1 e1
                    e2 i t' hi
                · exact played_record teams _ _ home home1 away1 away2 false true hne hh ha1 e1
                    e2 i t' hi
                · exact played_record teams _ _ home home1 away1 away2 false false hne hh ha1 e1
                    e2 i t' hi

theorem simulateWeekLoop_record (rng : Rng) (sched done : List Matchup) (heap : Heap)
    (teams : List Team) (k : Nat) (r : List Matchup × Heap × List Team × Nat)
    (h : League.simulateWeekLoop rng sched done heap teams k = some r)
    (hnd : (sched.flatMap Matchup.teams).Nodup) (i : Nat) (t' : Team)
    (hi : r.2.2.1[i]? = some t') :
    ∃ t, teams[i]? = some t ∧
      (i ∉ sched.flatMap Matchup.teams → t'.wins + t'.losses = t.wins + t.losses) ∧
      (t'.wins + t'.losses = t.wins + t.losses ∨
        t'.wins + t'.losses = t.wins + t.losses + 1) := by
  induction sched generalizing done heap teams k with
  | nil =>
    simp only [League.simulateWeekLoop, Option.some.injEq] at h
    subst h
    exact ⟨t', hi, fun _ => rfl, Or.inl rfl⟩
  | cons m rest ih =>
    simp only [League.simulateWeekLoop] at h
    cases h1 : Matchup.simulate rng m heap teams k with
    | none => simp [h1] at h
    | some x =>
      obtain ⟨m', heap', teams', k'⟩ := x
      simp only [h1] at h
      rw [List.flatMap_cons, List.nodup_append] at hnd
      obtain ⟨hm, hrest, hdis⟩ := hnd
      have hne : m.homeTeam ≠ m.awayTeam := by
        unfold Matchup.teams at hm
        simpa using hm
      obtain ⟨t1, ht1, hout1, hstep1⟩ := ih _ _ _ _ h hrest
      obtain ⟨t, ht, hout, hstep⟩ := Matchup.simulate_record rng m heap teams k _ h1 hne i t1 ht1
      refine ⟨t, ht, ?_, ?_⟩
      · intro hn
        rw [List.flatMap_cons, List.mem_append, not_or] at hn
        rw [hout1 hn.2, hout hn.1]
      · by_cases him : i ∈ m.teams
        · have hir : i ∉ rest.flatMap Matchup.teams := fun hr => hdis him hr
          rw [hout1 hir]
          exact hstep
        · rw [← hout him]
          exact hstep1

theorem simulateWeek_record (L L' : League) (rng : Rng) (k : Nat) (hS : L.SchedInv)
    (h : L.simulateWeek rng k = some L') :
    (L.schedule = [] → L' = L) ∧
    (L.schedule ≠ [] → L'.currentWeek = L.currentWeek + 1) ∧
    ∀ (i : Nat) (t' : Team), L'.teams[i]? = some t' →
      ∃ t, L.teams[i]? = some t ∧
        (i ∉ L.scheduledTeams → t'.wins + t'.losses = t.wins + t.losses) ∧
        (t'.wins + t'.losses = t.wins + t.losses ∨
          t'.wins + t'.losses = t.wins + t.losses + 1) := by
  unfold League.simulateWeek at h
  split_ifs at h with he
  · simp only [Option.some.injEq] at h
    subst h
    rw [List.isEmpty_iff] at he
    exact ⟨fun _ => rfl, fun hn => absurd he hn, fun i t' hi => ⟨t', hi, fun _ => rfl, Or.inl rfl⟩⟩
  · cases h1 : League.simulateWeekLoop rng L.schedule [] L.heap L.teams k with
    | none => simp [h1] at h
    | some x =>
      obtain ⟨sched', heap', teams', k'⟩ := x
      simp only [h1, Option.some.injEq] at h
      subst h
      rw [List.isEmpty_iff] at he
      refine ⟨fun hn => absurd hn he, fun _ => rfl, ?_⟩
      intro i t' hi
      exact simulateWeekLoop_record rng L.schedule [] L.heap L.teams k _ h1 hS.nodup i t' hi

theorem record_bound_step (L L' : League) (hS : L.SchedInv)
    (hL : 1 ≤ L.currentWeek ∧ ∀ t ∈ L.teams, t.wins + t.losses ≤ L.currentWeek - 1)
    (h : League.Step L L') :
    1 ≤ L'.currentWeek ∧ ∀ t ∈ L'.teams, t.wins + t.losses ≤ L'.currentWeek - 1 := by
  cases h with
  | registerTeam teamName ownerName =>
    unfold League.registerTeam
    split_ifs
    · exact hL
    · exact hL
    · refine ⟨hL.1, ?_⟩
      intro t ht
      simp only [List.mem_append, List.mem_singleton] at ht
      rcases ht with ht | rfl
      · exact hL.2 t ht
      · have := hL.1
        simp only [Team.ctor]
        omega
  | draftPlayer team playerId r h =>
    rcases draftPlayer_cases L team playerId r h with e | ⟨t, i, player, ht, _, e⟩
    · rw [e]; exact hL
    · rw [e]
      refine ⟨hL.1, ?_⟩
      intro u hu
      rcases List.mem_or_eq_of_mem_set hu with hu | rfl
      · exact hL.2 u hu
      · exact hL.2 t (List.getElem?_mem ht)
  | setTeamLineup team playerIds r h =>
    rcases setTeamLineup_cases L team playerIds r h with e | ⟨t, lineup, ht, e⟩
    · rw [e]; exact hL
    · rw [e]
      refine ⟨hL.1, ?_⟩
      intro u hu
      rcases List.mem_or_eq_of_mem_set hu with hu | rfl
      · exact hL.2 u hu
      · exact hL.2 t (List.getElem?_mem ht)
  | generateMatchups shuffled _ =>
    unfold League.generateMatchups
    split_ifs
    · exact hL
    · exact hL
  | simulateWeek rng k _ _ hw =>
    obtain ⟨h1, h2, h3⟩ := simulateWeek_record L L' rng k hS hw
    by_cases he : L.schedule = []
    · rw [h1 he]; exact hL
    · rw [h2 he]
      refine ⟨by have := hL.1; omega, ?_⟩
      intro t' ht'
      obtain ⟨i, hi⟩ := List.mem_iff_getElem?.1 ht'
      obtain ⟨t, ht, _, hstep⟩ := h3 i t' hi
      have := hL.2 t (List.getElem?_mem ht)
      omega

theorem record_bound_of_reachable (L : League) (h : L.Reachable) :
    1 ≤ L.currentWeek ∧ ∀ t ∈ L.teams, t.wins + t.losses ≤ L.currentWeek - 1 := by
  induction h with
  | init name maxTeams rosterSize lineupSize _ _ _ => simp [League.ctor]
  | step L L' hR hs ih => exact record_bound_step L L' (SchedInv_of_reachable L hR) ih hs

theorem kick4_reachable : League.kick4.Reachable := by
  have h0 : League.kick0.Reachable :=
    League.Reachable.init "Kick" 8 10 1 (by decide) (by decide) (by decide)
  have h1 : League.kick1.Reachable :=
    League.Reachable.step _ _
      (League.Reachable.step _ _ h0 (League.Step.registerTeam League.kick0 "A" "Ann"))
      (League.Step.registerTeam _ "B" "Bob")
  have h2 : League.kick2.Reachable :=
    League.Reachable.step _ _
      (League.Reachable.step _ _ h1
        (League.Step.draftPlayer League.kick1 0 30
          (true, League.kick1.after (League.kick1.draftPlayer 0 30)) rfl))
      (League.Step.draftPlayer _ 1 31 (true, League.kick2) rfl)
  have h3 : League.kick3.Reachable :=
    League.Reachable.step _ _
      (League.Reachable.step _ _ h2
        (League.Step.setTeamLineup League.kick2 0 [30]
          (true, League.kick2.after (League.kick2.setTeamLineup 0 [30])) rfl))
      (League.Step.setTeamLineup _ 1 [31] (true, League.kick3) rfl)
  exact League.Reachable.step _ _ h3 (League.Step.generateMatchups League.kick3 [0, 1] (by decide))

theorem kick5_step : League.kick4.simulateWeek Rng.lowest 0 = some League.kick5 := by
  obtain ⟨L', h1, _, _⟩ := simulateWeek_defined League.kick4
    (Inv_of_reachable _ kick4_reachable) (SchedInv_of_reachable _ kick4_reachable) Rng.lowest 0
  simp [League.kick5, h1]

theorem kick5_state :
    League.kick5.currentWeek = 2 ∧
    League.kick5.teams.map (fun t => (t.wins, t.losses)) = [(0, 1), (0, 1)] := by
  have ht : League.kick4.teams = [Team.kickerA, Team.kickerB] := by decide
  have hs : League.kick4.schedule = [Matchup.ctor 0 1] := by decide
  have hh : League.kick4.heap = League.catalog := by decide
  have hw : League.kick4.currentWeek = 1 := by decide
  unfold League.kick5 League.simulateWeek
  simp [ht, hs, hh, hw, League.simulateWeekLoop, Matchup.simulate, Team.kickerA, Team.kickerB,
    Team.ctor, Team.getLineupSize, toInt32, Team.simulateGame, Team.simulateGameLoop,
    League.catalog, Player.ctor, Player.simulateGamePerformance, Rng.lowest, Matchup.ctor,
    Team.updateRecord]

/-- C28: in every state reachable from a fresh league the week is at least 1 and
every team has `wins + losses ≤ currentWeek - 1`; a `simulateWeek` that returns
on a non-empty schedule raises `currentWeek` by 1, keeps the number of teams,
and leaves the `wins + losses` of each team as it was or raises it by 1. -/
theorem reachable_record_bounded (L : League) (h : L.Reachable) :
    1 ≤ L.currentWeek ∧
    (∀ t ∈ L.teams, t.wins + t.losses ≤ L.currentWeek - 1) ∧
    (∀ (rng : Rng) (k : Nat) (L' : League),
      L.simulateWeek rng k = some L' → L.schedule ≠ [] →
        L'.currentWeek = L.currentWeek + 1 ∧ L'.teams.length = L.teams.length ∧
        ∀ (i : Nat) (t t' : Team), L.teams[i]? = some t → L'.teams[i]? = some t' →
          (t'.wins + t'.losses = t.wins + t.losses ∨
            t'.wins + t'.losses = t.wins + t.losses + 1)) := by
  obtain ⟨h1, h2⟩ := record_bound_of_reachable L h
  refine ⟨h1, h2, ?_⟩
  intro rng k L' hw hne
  obtain ⟨_, e2, e3⟩ := simulateWeek_record L L' rng k (SchedInv_of_reachable L h) hw
  refine ⟨e2 hne, (simulateWeek_scheduledTeams L L' rng k hw).2, ?_⟩
  intro i t t' ht ht'
  obtain ⟨t0, ht0, _, hstep⟩ := e3 i t' ht'
  rw [ht] at ht0
  simp only [Option.some.injEq] at ht0
  subst ht0
  exact hstep

/-- C28 at a league whose teams A and B each field one kicker and have played one
week that ended in a tie: the week is 2 and both teams stand at 0 wins and 1
loss, so the bound is attained. -/
theorem reachable_record_bounded_witness :
    League.kick5.Reachable ∧ League.kick5.currentWeek = 2 ∧
    League.kick5.teams.map (fun t => (t.wins, t.losses)) = [(0, 1), (0, 1)] ∧
    (1 ≤ League.kick5.currentWeek ∧
      (∀ t ∈ League.kick5.teams, t.wins + t.losses ≤ League.kick5.currentWeek - 1) ∧
      (∀ (rng : Rng) (k : Nat) (L' : League),
        League.kick5.simulateWeek rng k = some L' → League.kick5.schedule ≠ [] →
          L'.currentWeek = League.kick5.currentWeek + 1 ∧
          L'.teams.length = League.kick5.teams.length ∧
          ∀ (i : Nat) (t t' : Team), League.kick5.teams[i]? = some t → L'.teams[i]? = some t' →
            (t'.wins + t'.losses = t.wins + t.losses ∨
              t'.wins + t'.losses = t.wins + t.losses + 1))) := by
  have hR : League.kick5.Reachable :=
    League.Reachable.step _ _ kick4_reachable
      (League.Step.simulateWeek League.kick4 Rng.lowest 0 League.kick5 Rng.lowest_inRange
        kick5_step)
  exact ⟨hR, kick5_state.1, kick5_state.2, reachable_record_bounded League.kick5 hR⟩

/-! ## A league with two rosters -/

theorem trio_reachable : League.trio.Reachable := by
  have h0 : League.kick0.Reachable :=
    League.Reachable.init "Kick" 8 10 1 (by decide) (by decide) (by decide)
  have h1 : League.kick1.Reachable :=
    League.Reachable.step _ _
      (League.Reachable.step _ _ h0 (League.Step.registerTeam League.kick0 "A" "Ann"))
      (League.Step.registerTeam _ "B" "Bob")
  have h2 : League.kick2.Reachable :=
    League.Reachable.step _ _
      (League.Reachable.step _ _ h1
        (League.Step.draftPlayer League.kick1 0 30
          (true, League.kick1.after (League.kick1.draftPlayer 0 30)) rfl))
      (League.Step.draftPlayer _ 1 31 (true, League.kick2) rfl)
  exact League.Reachable.step _ _ h2
    (League.Step.draftPlayer League.kick2 0 1 (true, League.trio) rfl)

/-- C1 at a league in which team A drafted the players 30 and 1 and team B the
player 31: the 35 other players are in the pool, and the ids of the pool, of
the roster of A and of the roster of B are pairwise different. -/
theorem reachable_ids_exclusive_witness :
    League.trio.teams.map (fun t => t.roster.map (getId League.trio.heap)) =
      [[some 30, some 1], [some 31]] ∧
    League.trio.availablePlayers.length = 35 ∧
    (∀ p ∈ League.trio.allPtrs, ∃ pl, League.trio.heap[p]? = some pl) ∧
    (League.trio.availablePlayers.map (getId League.trio.heap)).Nodup ∧
    (∀ t ∈ League.trio.teams, (t.roster.map (getId League.trio.heap)).Nodup) ∧
    (∀ t ∈ League.trio.teams, ∀ p ∈ League.trio.availablePlayers, ∀ q ∈ t.roster,
      getId League.trio.heap p ≠ getId League.trio.heap q) ∧
    (∀ (i j : Nat) (t u : Team), i ≠ j → League.trio.teams[i]? = some t →
      League.trio.teams[j]? = some u →
      ∀ p ∈ t.roster, ∀ q ∈ u.roster,
        getId League.trio.heap p ≠ getId League.trio.heap q) :=
  ⟨by decide, by decide, reachable_ids_exclusive League.trio trio_reachable⟩

/-! ## Insertion sort -/

namespace std

variable {α : Type}

theorem StrictWeak.asymm {comp : α → α → Bool} (h : StrictWeak comp) (x y : α)
    (hxy : comp x y = true) : comp y x = false := by
  cases hyx : comp y x with
  | false => rfl
  | true =>
    have := h.trans x y x hxy hyx
    rw [h.irrefl] at this
    exact absurd this (by simp)

theorem getElem?_append_cons_length (P : List α) (x : α) (R : List α) :
    (P ++ x :: R)[P.length]? = some x := by
  rw [List.getElem?_append_right (Nat.le_refl _)]
  simp

theorem unguarded_linear_insert_loop_spec (comp : α → α → Bool) (val : α) (P : List α) :
    ∀ (z : α) (S : List α), (∃ x ∈ P, comp val x = false) →
      ∃ P₁ P₂ x, P = P₁ ++ x :: P₂ ∧ comp val x = false ∧ (∀ y ∈ P₂, comp val y = true) ∧
        unguarded_linear_insert_loop comp val (P ++ z :: S) P.length =
          some (P₁ ++ x :: val :: (P₂ ++ S)) := by
  induction P using List.reverseRecOn with
  | nil =>
    intro z S h
    obtain ⟨x, hx, _⟩ := h
    simp at hx
  | append_singleton Q y ih =>
    intro z S h
    have hlen : (Q ++ [y]).length = Q.length + 1 := by simp
    have hget : (Q ++ [y] ++ z :: S)[Q.length]? = some y := by
      rw [List.append_assoc]
      exact getElem?_append_cons_length Q y _
    have hasg : ∀ w, assign (Q ++ [y] ++ z :: S) (Q.length + 1) w = some (Q ++ y :: w :: S) := by
      intro w
      unfold assign
      rw [if_pos (by simp)]
      congr 1
      apply List.ext_getElem?
      intro n
      simp only [List.getElem?_set, List.getElem?_append, List.length_append, List.length_cons,
        List.length_singleton, List.length_nil]
      by_cases h1 : n < Q.length
      · have : ¬ Q.length + 1 = n := by omega
        simp [h1, this]
        intro h2; omega
      · by_cases h2 : n = Q.length
        · subst h2
          simp
        · by_cases h3 : n = Q.length + 1
          · subst h3
            simp
          · have e1 : n - Q.length = (n - Q.length - 2) + 2 := by omega
            have : ¬ Q.length + 1 = n := by omega
            simp only [this, if_false, h1]
            have h4 : ¬ n < Q.length + 1 := by omega
            simp only [h4, if_false]
            have e2 : n - (Q.length + 1) = (n - Q.length - 2) + 1 := by omega
            rw [e1, e2]
            simp
    rw [hlen]
    simp only [unguarded_linear_insert_loop, hget]
    cases hc : comp val y with
    | true =>
      simp only [if_true, hasg]
      have h' : ∃ x ∈ Q, comp val x = false := by
        obtain ⟨x, hx, hxc⟩ := h
        rw [List.mem_append, List.mem_singleton] at hx
        rcases hx with hx | rfl
        · exact ⟨x, hx, hxc⟩
        · rw [hc] at hxc; exact absurd hxc (by simp)
      obtain ⟨P₁, P₂, x, e, hx, hP₂, hl⟩ := ih y (y :: S) h'
      refine ⟨P₁, P₂ ++ [y], x, by simp [e], hx, ?_, ?_⟩
      · intro w hw
        rw [List.mem_append, List.mem_singleton] at hw
        rcases hw with hw | rfl
        · exact hP₂ w hw
        · exact hc
      · rw [hl]
        simp
    | false =>
      simp only [Bool.false_eq_true, if_false, hasg]
      exact ⟨Q, [], y, by simp, hc, by simp, by simp⟩

theorem unguarded_linear_insert_spec (comp : α → α → Bool) (val : α) (P R : List α)
    (h : ∃ x ∈ P, comp val x = false) :
    ∃ P₁ P₂ x, P = P₁ ++ x :: P₂ ∧ comp val x = false ∧ (∀ y ∈ P₂, comp val y = true) ∧
      unguarded_linear_insert comp (P ++ val :: R) P.length =
        some (P₁ ++ x :: val :: (P₂ ++ R)) := by
  obtain ⟨P₁, P₂, x, e, hx, hP₂, hl⟩ := unguarded_linear_insert_loop_spec comp val P val R h
  refine ⟨P₁, P₂, x, e, hx, hP₂, ?_⟩
  unfold unguarded_linear_insert
  rw [getElem?_append_cons_length]
  exact hl


theorem sorted_insert {comp : α → α → Bool} (h : StrictWeak comp) (val x : α) (P₁ P₂ : List α)
    (hs : Sorted comp (P₁ ++ x :: P₂)) (hx : comp val x = false)
    (hP₂ : ∀ y ∈ P₂, comp val y = true) : Sorted comp (P₁ ++ x :: val :: P₂) := by
  unfold Sorted at hs ⊢
  rw [List.pairwise_append] at hs ⊢
  obtain ⟨h1, h2, h3⟩ := hs
  rw [List.pairwise_cons] at h2
  refine ⟨h1, ?_, ?_⟩
  · rw [List.pairwise_cons, List.pairwise_cons]
    refine ⟨?_, ?_, h2.2⟩
    · intro a ha
      rw [List.mem_cons] at ha
      rcases ha with rfl | ha
      · exact hx
      · exact h2.1 a ha
    · intro a ha
      exact h.asymm _ _ (hP₂ a ha)
  · intro a ha b hb
    rw [List.mem_cons, List.mem_cons] at hb
    rcases hb with rfl | rfl | hb
    · exact h3 a ha b (by simp)
    · exact h.incomp _ _ _ hx (h3 a ha x (by simp))
    · exact h3 a ha b (by simp [hb])

theorem tied_not_before {comp : α → α → Bool} (h : StrictWeak comp) (z val y : α)
    (h1 : tied comp z val = true) (h2 : tied comp z y = true) : comp val y = false := by
  unfold tied at h1 h2
  simp only [Bool.and_eq_true, Bool.not_eq_true'] at h1 h2
  exact h.incomp _ _ _ h1.2 h2.1

theorem filter_tied_cons {comp : α → α → Bool} (h : StrictWeak comp) (z val : α) (P₂ : List α)
    (hP₂ : ∀ y ∈ P₂, comp val y = true) :
    (val :: P₂).filter (tied comp z) = P₂.filter (tied comp z) ++ [val].filter (tied comp z) := by
  cases ht : tied comp z val with
  | false => simp [List.filter_cons, ht]
  | true =>
    have he : P₂.filter (tied comp z) = [] := by
      rw [List.filter_eq_nil_iff]
      intro y hy hty
      have := tied_not_before h z val y ht hty
      rw [hP₂ y hy] at this
      exact absurd this (by simp)
    simp [List.filter_cons, ht, he]

theorem filter_tied_insert {comp : α → α → Bool} (h : StrictWeak comp) (z val x : α)
    (P₁ P₂ : List α) (hP₂ : ∀ y ∈ P₂, comp val y = true) :
    (P₁ ++ x :: val :: P₂).filter (tied comp z) =
      (P₁ ++ x :: P₂).filter (tied comp z) ++ [val].filter (tied comp z) := by
  have e := filter_tied_cons h z val P₂ hP₂
  have e1 : P₁ ++ x :: val :: P₂ = (P₁ ++ [x]) ++ (val :: P₂) := by simp
  have e2 : P₁ ++ x :: P₂ = (P₁ ++ [x]) ++ P₂ := by simp
  rw [e1, e2]
  simp only [List.filter_append, e, List.append_assoc]

theorem sorted_head_before {comp : α → α → Bool} (h : StrictWeak comp) (val p0 : α)
    (P : List α) (hs : Sorted comp (p0 :: P)) (hc : comp val p0 = true) :
    ∀ y ∈ p0 :: P, comp val y = true := by
  intro y hy
  rw [List.mem_cons] at hy
  rcases hy with rfl | hy
  · exact hc
  · unfold Sorted at hs
    rw [List.pairwise_cons] at hs
    cases hvy : comp val y with
    | true => rfl
    | false =>
      have := h.incomp _ _ _ hvy (hs.1 y hy)
      rw [hc] at this
      exact absurd this (by simp)

theorem insertion_sort_loop_spec {comp : α → α → Bool} (h : StrictWeak comp) :
    ∀ (n : Nat) (P R T : List α), P ≠ [] → R.length = n → Sorted comp P →
      ∃ P', insertion_sort_loop comp 0 n P.length (P ++ R ++ T) = some (P' ++ T) ∧
        P'.Perm (P ++ R) ∧ Sorted comp P' ∧
        ∀ z, P'.filter (tied comp z) = (P ++ R).filter (tied comp z) := by
  intro n
  induction n with
  | zero =>
    intro P R T _ hR hs
    have : R = [] := List.length_eq_zero.1 hR
    subst this
    exact ⟨P, by simp [insertion_sort_loop], by simp, hs, by simp⟩
  | succ n ih =>
    intro P R T hP hR hs
    obtain ⟨val, R', rfl⟩ : ∃ val R', R = val :: R' := by
      cases R with
      | nil => simp at hR
      | cons a l => exact ⟨a, l, rfl⟩
    obtain ⟨p0, P0, rfl⟩ : ∃ p0 P0, P = p0 :: P0 := by
      cases P with
      | nil => exact absurd rfl hP
      | cons a l => exact ⟨a, l, rfl⟩
    have hR' : R'.length = n := by simpa using hR
    have hv : (p0 :: P0 ++ val :: R' ++ T) = (p0 :: P0) ++ val :: (R' ++ T) := by simp
    have hget : (p0 :: P0 ++ val :: R' ++ T)[(p0 :: P0).length]? = some val := by
      rw [hv]
      exact getElem?_append_cons_length _ _ _
    have hget0 : (p0 :: P0 ++ val :: R' ++ T)[0]? = some p0 := by simp
    simp only [insertion_sort_loop, hget, hget0]
    cases hc : comp val p0 with
    | true =>
      simp only [if_true]
      have hall := sorted_head_before h val p0 P0 hs hc
      have hs' : Sorted comp (val :: p0 :: P0) := by
        unfold Sorted
        rw [List.pairwise_cons]
        exact ⟨fun y hy => h.asymm _ _ (hall y hy), hs⟩
      have hnew : List.take 0 (p0 :: P0 ++ val :: R' ++ T) ++
          val :: List.drop 0 (List.take (p0 :: P0).length (p0 :: P0 ++ val :: R' ++ T)) ++
          List.drop ((p0 :: P0).length + 1) (p0 :: P0 ++ val :: R' ++ T) =
          (val :: p0 :: P0) ++ R' ++ T := by
        rw [hv]
        simp only [List.take_zero, List.nil_append, List.drop_zero, List.take_left']
        have : List.drop ((p0 :: P0).length + 1) ((p0 :: P0) ++ val :: (R' ++ T)) = R' ++ T := by
          have e : (p0 :: P0) ++ val :: (R' ++ T) = ((p0 :: P0) ++ [val]) ++ (R' ++ T) := by simp
          rw [e]
          exact List.drop_left' (by simp)
        rw [this]
        simp
      rw [hnew]
      obtain ⟨P', e1, e2, e3, e4⟩ := ih (val :: p0 :: P0) R' T (by simp) hR' hs'
      have hl : (val :: p0 :: P0).length = (p0 :: P0).length + 1 := by simp
      rw [hl] at e1
      refine ⟨P', e1, ?_, e3, ?_⟩
      · refine e2.trans ?_
        simp only [List.cons_append]
        exact (@List.perm_middle _ val (p0 :: P0) R').symm
      · intro z
        rw [e4 z]
        have e5 := filter_tied_cons h z val (p0 :: P0) hall
        simp only [List.cons_append, List.filter_append] at e5 ⊢
        rw [show val :: p0 :: (P0 ++ R') = (val :: p0 :: P0) ++ R' by simp,
          show p0 :: (P0 ++ val :: R') = (p0 :: P0) ++ ([val] ++ R') by simp,
          List.filter_append, List.filter_append, List.filter_append, e5]
        simp
    | false =>
      simp only [Bool.false_eq_true, if_false]
      obtain ⟨P₁, P₂, x, e, hx, hP₂, hl⟩ :=
        unguarded_linear_insert_spec comp val (p0 :: P0) (R' ++ T) ⟨p0, by simp, hc⟩
      rw [hv, hl]
      simp only
      have hs' : Sorted comp (P₁ ++ x :: val :: P₂) := sorted_insert h val x P₁ P₂ (e ▸ hs) hx hP₂
      obtain ⟨P', e1, e2, e3, e4⟩ := ih (P₁ ++ x :: val :: P₂) R' T (by simp) hR' hs'
      have hlen : (P₁ ++ x :: val :: P₂).length = (p0 :: P0).length + 1 := by
        have := congrArg List.length e
        simp only [List.length_append, List.length_cons] at this ⊢
        omega
      rw [hlen] at e1
      have hre : P₁ ++ x :: val :: (P₂ ++ (R' ++ T)) = P₁ ++ x :: val :: P₂ ++ R' ++ T := by simp
      rw [hre]
      refine ⟨P', e1, ?_, e3, ?_⟩
      · refine e2.trans ?_
        rw [e]
        have : (P₁ ++ x :: val :: P₂ ++ R').Perm (val :: (P₁ ++ x :: P₂ ++ R')) := by
          have e6 : P₁ ++ x :: val :: P₂ ++ R' = (P₁ ++ [x]) ++ val :: (P₂ ++ R') := by simp
          have e7 : P₁ ++ x :: P₂ ++ R' = (P₁ ++ [x]) ++ (P₂ ++ R') := by simp
          rw [e6, e7]
          exact List.perm_middle
        refine this.trans ?_
        exact (@List.perm_middle _ val (P₁ ++ x :: P₂) R').symm
      · intro z
        rw [e4 z, e, List.filter_append (P₁ ++ x :: val :: P₂) R',
          filter_tied_insert h z val x P₁ P₂ hP₂,
          show P₁ ++ x :: P₂ ++ val :: R' = (P₁ ++ x :: P₂) ++ ([val] ++ R') by simp,
          List.filter_append (P₁ ++ x :: P₂) ([val] ++ R'), List.filter_append [val] R',
          List.append_assoc]

theorem unguarded_insertion_sort_spec {comp : α → α → Bool} (h : StrictWeak comp) :
    ∀ (n : Nat) (P R : List α), R.length = n → Sorted comp P →
      (∃ m ∈ P, ∀ val ∈ R, comp val m = false) →
      ∃ P', unguarded_insertion_sort comp n P.length (P ++ R) = some P' ∧
        P'.Perm (P ++ R) ∧ Sorted comp P' := by
  intro n
  induction n with
  | zero =>
    intro P R hR hs _
    have : R = [] := List.length_eq_zero.1 hR
    subst this
    exact ⟨P, by simp [unguarded_insertion_sort], by simp, hs⟩
  | succ n ih =>
    intro P R hR hs hm
    obtain ⟨val, R', rfl⟩ : ∃ val R', R = val :: R' := by
      cases R with
      | nil => simp at hR
      | cons a l => exact ⟨a, l, rfl⟩
    have hR' : R'.length = n := by simpa using hR
    obtain ⟨m, hmP, hmin⟩ := hm
    obtain ⟨P₁, P₂, x, e, hx, hP₂, hl⟩ :=
      unguarded_linear_insert_spec comp val P R' ⟨m, hmP, hmin val (by simp)⟩
    simp only [unguarded_insertion_sort, hl]
    have hs' : Sorted comp (P₁ ++ x :: val :: P₂) := sorted_insert h val x P₁ P₂ (e ▸ hs) hx hP₂
    have hm' : ∃ m ∈ P₁ ++ x :: val :: P₂, ∀ val ∈ R', comp val m = false := by
      refine ⟨m, ?_, fun w hw => hmin w (by simp [hw])⟩
      rw [e] at hmP
      simp only [List.mem_append, List.mem_cons] at hmP ⊢
      tauto
    obtain ⟨P', e1, e2, e3⟩ := ih (P₁ ++ x :: val :: P₂) R' hR' hs' hm'
    have hlen : (P₁ ++ x :: val :: P₂).length = P.length + 1 := by
      have := congrArg List.length e
      simp only [List.length_append, List.length_cons] at this ⊢
      omega
    rw [hlen] at e1
    have hre : P₁ ++ x :: val :: (P₂ ++ R') = P₁ ++ x :: val :: P₂ ++ R' := by simp
    rw [hre]
    refine ⟨P', e1, ?_, e3⟩
    refine e2.trans ?_
    rw [e]
    have e6 : P₁ ++ x :: val :: P₂ ++ R' = (P₁ ++ [x]) ++ val :: (P₂ ++ R') := by simp
    have e7 : P₁ ++ x :: P₂ ++ val :: R' = (P₁ ++ [x]) ++ (P₂ ++ val :: R') := by simp
    rw [e6, e7]
    refine List.Perm.append_left _ ?_
    exact (@List.perm_middle _ val P₂ R').symm


theorem final_insertion_sort_spec {comp : α → α → Bool} (h : StrictWeak comp) (v : List α)
    (hmin : v.length > 16 → ∃ m ∈ v.take 16, ∀ x ∈ v, comp x m = false) :
    ∃ out, final_insertion_sort comp v 0 v.length = some out ∧ out.Perm v ∧ Sorted comp out ∧
      (v.length ≤ 16 → ∀ z, out.filter (tied comp z) = v.filter (tied comp z)) := by
  cases v with
  | nil =>
    refine ⟨[], ?_, List.Perm.refl _, List.Pairwise.nil, fun _ _ => rfl⟩
    simp [final_insertion_sort, insertion_sort]
  | cons v0 rest =>
    have hs0 : Sorted comp [v0] := List.pairwise_singleton _ _
    by_cases hn : (v0 :: rest).length > 16
    · obtain ⟨m, hm, hall⟩ := hmin hn
      have hr15 : (rest.take 15).length = 15 := by
        simp only [List.length_cons] at hn
        rw [List.length_take]
        omega
      obtain ⟨P', e1, e2, e3, _⟩ :=
        insertion_sort_loop_spec h 15 [v0] (rest.take 15) (rest.drop 15) (by simp) hr15 hs0
      have hv : [v0] ++ rest.take 15 ++ rest.drop 15 = v0 :: rest := by simp
      rw [hv] at e1
      have hP' : P'.length = 16 := by
        have := e2.length_eq
        simp only [List.length_append, List.length_singleton, hr15] at this
        omega
      have hm' : ∃ m ∈ P', ∀ val ∈ rest.drop 15, comp val m = false := by
        refine ⟨m, ?_, fun w hw => hall w ?_⟩
        · rw [e2.mem_iff]
          simpa using hm
        · exact List.mem_cons_of_mem _ (List.mem_of_mem_drop hw)
      have hd : (rest.drop 15).length = (v0 :: rest).length - (0 + 16) := by
        simp only [List.length_drop, List.length_cons]
        omega
      obtain ⟨out, f1, f2, f3⟩ :=
        unguarded_insertion_sort_spec h _ P' (rest.drop 15) hd e3 hm'
      rw [hP'] at f1
      refine ⟨out, ?_, ?_, f3, fun hle => absurd hn (by omega)⟩
      · unfold final_insertion_sort insertion_sort
        rw [if_pos (by omega), if_neg (by omega)]
        simp only [Nat.zero_add, Nat.reduceSub, List.length_singleton] at e1 ⊢
        rw [e1]
        exact f1
      · refine f2.trans ?_
        refine (List.Perm.append_right _ e2).trans ?_
        rw [hv]
    · have hlen : rest.length = (v0 :: rest).length - (0 + 1) := by simp
      obtain ⟨P', e1, e2, e3, e4⟩ :=
        insertion_sort_loop_spec h _ [v0] rest [] (by simp) hlen hs0
      simp only [List.append_nil, List.singleton_append, List.length_singleton] at e1 e2 e4
      refine ⟨P', ?_, e2, e3, fun _ => e4⟩
      unfold final_insertion_sort insertion_sort
      rw [if_neg (by omega), if_neg (by simp)]
      exact e1

theorem introsort_loop_small (comp : α → α → Bool) (d : Nat) (v : List α) (first last : Nat)
    (hle : last - first ≤ 16) : introsort_loop comp d v first last = some v := by
  cases d with
  | zero => simp [introsort_loop, Nat.not_lt.2 hle]
  | succ d => simp [introsort_loop, Nat.not_lt.2 hle]

theorem sort_small {comp : α → α → Bool} (h : StrictWeak comp) (v : List α)
    (hle : v.length ≤ 16) :
    ∃ out, sort comp v = some out ∧ out.Perm v ∧ Sorted comp out ∧
      ∀ z, out.filter (tied comp z) = v.filter (tied comp z) := by
  obtain ⟨out, e1, e2, e3, e4⟩ := final_insertion_sort_spec h v (fun hn => absurd hle (by omega))
  by_cases h0 : 0 = v.length
  · have : v = [] := List.length_eq_zero.1 h0.symm
    subst this
    exact ⟨[], by simp [sort], List.Perm.refl _, List.Pairwise.nil, fun _ => rfl⟩
  · refine ⟨out, ?_, e2, e3, e4 hle⟩
    unfold sort
    rw [if_neg h0, introsort_loop_small comp _ v 0 v.length (by omega)]
    exact e1

end std

/-! ## Rearrangements of a range -/

namespace std

variable {α : Type}

theorem count_set_add [DecidableEq α] (l : List α) (i : Nat) (x b : α) (h : i < l.length) :
    (l.set i x).count b + (if l[i] = b then 1 else 0) =
      l.count b + (if x = b then 1 else 0) := by
  have h1 := List.count_set x b l i h
  have h2 := List.boole_getElem_le_count b l i h
  simp only [beq_iff_eq] at h1 h2
  omega

theorem swap_perm [DecidableEq α] (v : List α) (i j : Nat) (hi : i < v.length)
    (hj : j < v.length) : ((v.set i v[j]).set j v[i]).Perm v := by
  rw [List.perm_iff_count]
  intro b
  have h1 := count_set_add v i v[j] b hi
  have h2 := count_set_add (v.set i v[j]) j v[i] b (by simpa using hj)
  by_cases hij : i = j
  · subst hij
    simp only [List.getElem_set_self] at h2
    omega
  · rw [List.getElem_set_ne hij] at h2
    omega

theorem iter_swap_spec [DecidableEq α] (v : List α) (i j : Nat) (x y : α)
    (hi : v[i]? = some x) (hj : v[j]? = some y) :
    iter_swap v i j = some ((v.set i y).set j x) ∧ ((v.set i y).set j x).Perm v := by
  obtain ⟨hi1, e1⟩ := List.getElem?_eq_some.1 hi
  obtain ⟨hj1, e2⟩ := List.getElem?_eq_some.1 hj
  refine ⟨by simp [iter_swap, hi, hj], ?_⟩
  subst e1 e2
  exact swap_perm v i j hi1 hj1

theorem Rearranged.same (v : List α) (first last : Nat) : Rearranged v v first last :=
  ⟨List.Perm.refl _, fun _ _ => rfl⟩

theorem Rearranged.chain {v v' v'' : List α} {first last : Nat}
    (h1 : Rearranged v v' first last) (h2 : Rearranged v' v'' first last) :
    Rearranged v v'' first last :=
  ⟨h2.1.trans h1.1, fun i hi => (h2.2 i hi).trans (h1.2 i hi)⟩

theorem Rearranged.widen {v v' : List α} {first last first' last' : Nat}
    (h : Rearranged v v' first last) (hf : first' ≤ first) (hl : last ≤ last') :
    Rearranged v v' first' last' :=
  ⟨h.1, fun i hi => h.2 i (by omega)⟩

theorem Rearranged.same_length {v v' : List α} {first last : Nat} (h : Rearranged v v' first last) :
    v'.length = v.length := h.1.length_eq

theorem mem_range_iff (v : List α) (first last : Nat) (x : α) :
    x ∈ (v.take last).drop first ↔ ∃ i, first ≤ i ∧ i < last ∧ v[i]? = some x := by
  rw [List.mem_iff_getElem?]
  constructor
  · rintro ⟨n, hn⟩
    rw [List.getElem?_drop, List.getElem?_take] at hn
    split_ifs at hn with h1
    exact ⟨first + n, by omega, h1, hn⟩
  · rintro ⟨i, h1, h2, h3⟩
    refine ⟨i - first, ?_⟩
    rw [List.getElem?_drop, List.getElem?_take]
    have : first + (i - first) = i := by omega
    rw [this, if_pos h2]
    exact h3

theorem Rearranged.range_perm {v v' : List α} {first last : Nat}
    (h : Rearranged v v' first last) (hfl : first ≤ last) :
    ((v'.take last).drop first).Perm ((v.take last).drop first) := by
  have e1 : v'.take first = v.take first := by
    apply List.ext_getElem?
    intro n
    rw [List.getElem?_take, List.getElem?_take]
    split_ifs with hn
    · exact h.2 n (Or.inl hn)
    · rfl
  have e2 : v'.drop last = v.drop last := by
    apply List.ext_getElem?
    intro n
    rw [List.getElem?_drop, List.getElem?_drop]
    exact h.2 _ (Or.inr (by omega))
  have d : ∀ w : List α, w = w.take first ++ ((w.take last).drop first ++ w.drop last) := by
    intro w
    have a1 : w.take first = (w.take last).take first := by
      rw [List.take_take, Nat.min_eq_left hfl]
    rw [a1, ← List.append_assoc, List.take_append_drop, List.take_append_drop]
  have hp := h.1
  rw [d v', d v, e1, e2, List.perm_append_left_iff, List.perm_append_right_iff] at hp
  exact hp

theorem Rearranged.transfer {v v' : List α} {first last : Nat}
    (h : Rearranged v v' first last) (Q : α → Prop)
    (hQ : ∀ i x, first ≤ i → i < last → v[i]? = some x → Q x) :
    ∀ i x, first ≤ i → i < last → v'[i]? = some x → Q x := by
  intro i x h1 h2 h3
  have hfl : first ≤ last := by omega
  have hm : x ∈ (v'.take last).drop first := (mem_range_iff v' first last x).2 ⟨i, h1, h2, h3⟩
  rw [(h.range_perm hfl).mem_iff, mem_range_iff] at hm
  obtain ⟨j, j1, j2, j3⟩ := hm
  exact hQ j x j1 j2 j3

theorem Rearranged.keep {v v' : List α} {first last : Nat}
    (h : Rearranged v v' first last) (Q : α → Prop) (lo hi : Nat)
    (hd : hi ≤ first ∨ last ≤ lo)
    (hQ : ∀ i x, lo ≤ i → i < hi → v[i]? = some x → Q x) :
    ∀ i x, lo ≤ i → i < hi → v'[i]? = some x → Q x := by
  intro i x h1 h2 h3
  rw [h.2 i (by omega)] at h3
  exact hQ i x h1 h2 h3

end std

/-! ## The partition -/

namespace std

variable {α : Type}

theorem getElem?_swap (v : List α) (a b i : Nat) (x y : α) (ha : a < v.length)
    (hb : b < v.length) :
    ((v.set a y).set b x)[i]? = if i = b then some x else if i = a then some y else v[i]? := by
  rw [List.getElem?_set, List.getElem?_set, List.length_set]
  by_cases h1 : b = i
  · subst h1
    simp [hb]
  · have h1' : ¬ i = b := fun e => h1 e.symm
    by_cases h2 : a = i
    · subst h2
      simp [h1, h1', ha]
    · have h2' : ¬ i = a := fun e => h2 e.symm
      simp [h1, h1', h2, h2']

theorem partition_up_spec (comp : α → α → Bool) (v : List α) (pivot : Nat) (pv : α)
    (hp : v[pivot]? = some pv) :
    ∀ (fuel first j : Nat) (y : α), first ≤ j → v[j]? = some y → comp y pv = false →
      j - first < fuel →
      ∃ f', partition_up comp v pivot fuel first = some f' ∧ first ≤ f' ∧ f' ≤ j ∧
        (∃ y', v[f']? = some y' ∧ comp y' pv = false) ∧
        ∀ i x, first ≤ i → i < f' → v[i]? = some x → comp x pv = true := by
  intro fuel
  induction fuel with
  | zero => intro first j y _ _ _ hf; omega
  | succ fuel ih =>
    intro first j y hfj hj hy hf
    have hjl : j < v.length := (List.getElem?_eq_some.1 hj).1
    have hfl : first < v.length := by omega
    simp only [partition_up, List.getElem?_eq_getElem hfl, hp]
    cases hc : comp v[first] pv with
    | false =>
      simp only [Bool.false_eq_true, if_false]
      exact ⟨first, rfl, Nat.le_refl _, hfj, ⟨v[first], List.getElem?_eq_getElem hfl, hc⟩,
        fun i x h1 h2 _ => by omega⟩
    | true =>
      simp only [if_true]
      have hne : first ≠ j := by
        intro e
        subst e
        rw [List.getElem?_eq_getElem hfl] at hj
        simp only [Option.some.injEq] at hj
        rw [hj, hy] at hc
        exact absurd hc (by simp)
      obtain ⟨f', e1, e2, e3, e4, e5⟩ := ih (first + 1) j y (by omega) hj hy (by omega)
      refine ⟨f', e1, by omega, e3, e4, ?_⟩
      intro i x h1 h2 h3
      by_cases hi : i = first
      · subst hi
        rw [List.getElem?_eq_getElem hfl] at h3
        simp only [Option.some.injEq] at h3
        rw [← h3]; exact hc
      · exact e5 i x (by omega) h2 h3

theorem partition_down_spec (comp : α → α → Bool) (v : List α) (pivot : Nat) (pv : α)
    (hp : v[pivot]? = some pv) :
    ∀ (last j : Nat) (y : α), j ≤ last → last < v.length → v[j]? = some y →
      comp pv y = false →
      ∃ l', partition_down comp v pivot last = some l' ∧ j ≤ l' ∧ l' ≤ last ∧
        (∃ y', v[l']? = some y' ∧ comp pv y' = false) ∧
        ∀ i x, l' < i → i ≤ last → v[i]? = some x → comp pv x = true := by
  intro last
  induction last with
  | zero =>
    intro j y hj hl hjy hy
    have : j = 0 := by omega
    subst this
    simp only [partition_down, hjy, hp, hy, Bool.false_eq_true, if_false]
    exact ⟨0, rfl, Nat.le_refl _, Nat.le_refl _, ⟨y, hjy, hy⟩, fun i x h1 h2 _ => by omega⟩
  | succ last ih =>
    intro j y hj hl hjy hy
    simp only [partition_down, List.getElem?_eq_getElem hl, hp]
    cases hc : comp pv v[last + 1] with
    | false =>
      simp only [Bool.false_eq_true, if_false]
      exact ⟨last + 1, rfl, hj, Nat.le_refl _, ⟨_, List.getElem?_eq_getElem hl, hc⟩,
        fun i x h1 h2 _ => by omega⟩
    | true =>
      simp only [if_true]
      have hne : j ≠ last + 1 := by
        intro e
        subst e
        rw [List.getElem?_eq_getElem hl] at hjy
        simp only [Option.some.injEq] at hjy
        rw [hjy, hy] at hc
        exact absurd hc (by simp)
      obtain ⟨l', e1, e2, e3, e4, e5⟩ := ih j y (by omega) (by omega) hjy hy
      refine ⟨l', e1, e2, by omega, e4, ?_⟩
      intro i x h1 h2 h3
      by_cases hi : i = last + 1
      · subst hi
        rw [List.getElem?_eq_getElem hl] at h3
        simp only [Option.some.injEq] at h3
        rw [← h3]; exact hc
      · exact e5 i x h1 (by omega) h3

theorem unguarded_partition_loop_spec [DecidableEq α] {comp : α → α → Bool}
    (h : StrictWeak comp) (pivot first0 last0 : Nat) (pv : α) (hpf : pivot < first0) :
    ∀ (fuel : Nat) (v : List α) (first last : Nat),
      last - first < fuel → first0 ≤ first → first ≤ last → last ≤ last0 →
      last0 ≤ v.length → v[pivot]? = some pv →
      (∀ i x, first0 ≤ i → i < first → v[i]? = some x → comp pv x = false) →
      (∀ i x, last ≤ i → i < last0 → v[i]? = some x → comp x pv = false) →
      (∃ j y, first ≤ j ∧ j < last0 ∧ v[j]? = some y ∧ comp y pv = false) →
      ∃ v' cut, unguarded_partition_loop comp pivot fuel v first last = some (v', cut) ∧
        Rearranged v v' first0 last0 ∧ first ≤ cut ∧ cut < last0 ∧
        (∀ i x, first0 ≤ i → i < cut → v'[i]? = some x → comp pv x = false) ∧
        (∀ i x, cut ≤ i → i < last0 → v'[i]? = some x → comp x pv = false) := by
  intro fuel
  induction fuel with
  | zero => intro v first last hf; omega
  | succ fuel ih =>
    intro v first last hf h1 h2 h3 h4 hp hA hB hC
    obtain ⟨j, y, j1, j2, j3, j4⟩ := hC
    obtain ⟨f', u1, u2, u3, ⟨y', u4, u5⟩, u6⟩ :=
      partition_up_spec comp v pivot pv hp (v.length + 1) first j y j1 j3 j4 (by omega)
    obtain ⟨last', rfl⟩ : ∃ l, last = l + 1 := ⟨last - 1, by omega⟩
    obtain ⟨l', d1, d2, d3, ⟨y'', d4, d5⟩, d6⟩ :=
      partition_down_spec comp v pivot pv hp last' pivot pv (by omega) (by omega) hp
        (h.irrefl pv)
    simp only [unguarded_partition_loop, u1, d1]
    have hA' : ∀ i x, first0 ≤ i → i < f' → v[i]? = some x → comp pv x = false := by
      intro i x a1 a2 a3
      by_cases hi : i < first
      · exact hA i x a1 hi a3
      · exact h.asymm _ _ (u6 i x (by omega) a2 a3)
    have hB' : ∀ i x, l' < i → i < last0 → v[i]? = some x → comp x pv = false := by
      intro i x a1 a2 a3
      by_cases hi : last' + 1 ≤ i
      · exact hB i x hi a2 a3
      · exact h.asymm _ _ (d6 i x a1 (by omega) a3)
    by_cases hlt : f' < l'
    · simp only [hlt, not_true_eq_false, if_false]
      have hf'l : f' < v.length := by omega
      have hl'l : l' < v.length := by omega
      obtain ⟨s1, s2⟩ := iter_swap_spec v f' l' y' y'' u4 d4
      simp only [s1]
      have hget := fun i => getElem?_swap v f' l' i y' y'' hf'l hl'l
      obtain ⟨v', cut, r1, r2, r3, r4, r5, r6⟩ :=
        ih ((v.set f' y'').set l' y') (f' + 1) l' (by omega) (by omega) (by omega) (by omega)
          (by simpa using h4)
          (by rw [hget, if_neg (by omega), if_neg (by omega)]; exact hp)
          (by
            intro i x a1 a2 a3
            rw [hget, if_neg (by omega)] at a3
            split_ifs at a3 with hi
            · simp only [Option.some.injEq] at a3
              rw [← a3]; exact d5
            · exact hA' i x a1 (by omega) a3)
          (by
            intro i x a1 a2 a3
            rw [hget] at a3
            split_ifs at a3 with hi hi'
            · simp only [Option.some.injEq] at a3
              rw [← a3]; exact u5
            · omega
            · exact hB' i x (by omega) a2 a3)
          ⟨l', y', by omega, by omega, by rw [hget, if_pos rfl], u5⟩
      refine ⟨v', cut, r1, ?_, by omega, r4, r5, r6⟩
      refine Rearranged.chain ⟨s2, ?_⟩ r2
      intro i hi
      rw [hget, if_neg (by omega), if_neg (by omega)]
    · simp only [hlt, not_false_eq_true, if_true]
      refine ⟨v, f', rfl, Rearranged.same _ _ _, u2, by omega, hA', ?_⟩
      intro i x a1 a2 a3
      by_cases hi : i = f'
      · subst hi
        rw [u4] at a3
        simp only [Option.some.injEq] at a3
        rw [← a3]; exact u5
      · exact hB' i x (by omega) a2 a3


theorem move_median_to_first_spec {comp : α → α → Bool} (h : StrictWeak comp) (v : List α)
    (r a b c : Nat) (xa xb xc : α) (ha : v[a]? = some xa) (hb : v[b]? = some xb)
    (hc : v[c]? = some xc) (hab : a ≠ b) (hac : a ≠ c) (hbc : b ≠ c) :
    ∃ m j xm xj, (m = a ∨ m = b ∨ m = c) ∧ (j = a ∨ j = b ∨ j = c) ∧ j ≠ m ∧
      v[m]? = some xm ∧ v[j]? = some xj ∧ comp xj xm = false ∧
      move_median_to_first comp v r a b c = iter_swap v r m := by
  simp only [move_median_to_first, ha, hb, hc]
  cases h1 : comp xa xb with
  | true =>
    cases h2 : comp xb xc with
    | true =>
      exact ⟨b, c, xb, xc, by simp, by simp, fun e => hbc e.symm, hb, hc, h.asymm _ _ h2,
        by simp⟩
    | false =>
      cases h3 : comp xa xc with
      | true => exact ⟨c, b, xc, xb, by simp, by simp, hbc, hc, hb, h2, by simp⟩
      | false =>
        exact ⟨a, b, xa, xb, by simp, by simp, fun e => hab e.symm, ha, hb, h.asymm _ _ h1,
          by simp⟩
  | false =>
    cases h3 : comp xa xc with
    | true =>
      exact ⟨a, c, xa, xc, by simp, by simp, fun e => hac e.symm, ha, hc, h.asymm _ _ h3,
        by simp⟩
    | false =>
      cases h2 : comp xb xc with
      | true => exact ⟨c, a, xc, xa, by simp, by simp, hac, hc, ha, h3, by simp⟩
      | false => exact ⟨b, a, xb, xa, by simp, by simp, hab, hb, ha, h1, by simp⟩

theorem unguarded_partition_pivot_spec [DecidableEq α] {comp : α → α → Bool}
    (h : StrictWeak comp) (v : List α) (first last : Nat) (hsz : last - first > 16)
    (hl : last ≤ v.length) :
    ∃ v' cut pv, unguarded_partition_pivot comp v first last = some (v', cut) ∧
      Rearranged v v' first last ∧ first < cut ∧ cut < last ∧ v'[first]? = some pv ∧
      (∀ i x, first ≤ i → i < cut → v'[i]? = some x → comp pv x = false) ∧
      (∀ i x, cut ≤ i → i < last → v'[i]? = some x → comp x pv = false) := by
  have ha : first + 1 < v.length := by omega
  have hb : first + (last - first) / 2 < v.length := by omega
  have hc : last - 1 < v.length := by omega
  have hr : first < v.length := by omega
  obtain ⟨m, j, xm, xj, hm, hj, hjm, e1, e2, e3, e4⟩ :=
    move_median_to_first_spec h v first (first + 1) (first + (last - first) / 2) (last - 1)
      _ _ _ (List.getElem?_eq_getElem ha) (List.getElem?_eq_getElem hb)
      (List.getElem?_eq_getElem hc) (by omega) (by omega) (by omega)
  obtain ⟨s1, s2⟩ := iter_swap_spec v first m v[first] xm (List.getElem?_eq_getElem hr) e1
  have hml : m < v.length := (List.getElem?_eq_some.1 e1).1
  have hm1 : first + 1 ≤ m ∧ m < last := by omega
  have hj1 : first + 1 ≤ j ∧ j < last := by omega
  have hget := fun i => getElem?_swap v first m i v[first] xm hr hml
  obtain ⟨v', cut, r1, r2, r3, r4, r5, r6⟩ :=
    unguarded_partition_loop_spec h first (first + 1) last xm (Nat.lt_succ_self _)
      (((v.set first xm).set m v[first]).length + 1) ((v.set first xm).set m v[first])
      (first + 1) last (by simp only [List.length_set]; omega) (Nat.le_refl _) (by omega)
      (Nat.le_refl _) (by simpa using hl)
      (by rw [hget, if_neg (by omega), if_pos rfl])
      (fun i x a1 a2 _ => by omega) (fun i x a1 a2 _ => by omega)
      ⟨j, xj, hj1.1, hj1.2, by rw [hget, if_neg hjm, if_neg (by omega)]; exact e2, e3⟩
  have hre : Rearranged v ((v.set first xm).set m v[first]) first last := by
    refine ⟨s2, ?_⟩
    intro i hi
    rw [hget, if_neg (by omega), if_neg (by omega)]
  have hpv : v'[first]? = some xm := by
    rw [r2.2 first (Or.inl (Nat.lt_succ_self _)), hget, if_neg (by omega), if_pos rfl]
  refine ⟨v', cut, xm, ?_, hre.chain (r2.widen (Nat.le_succ _) (Nat.le_refl _)), by omega, r4,
    hpv, ?_, r6⟩
  · unfold unguarded_partition_pivot unguarded_partition
    rw [e4, s1]
    exact r1
  · intro i x a1 a2 a3
    by_cases hi : i = first
    · subst hi
      rw [hpv] at a3
      simp only [Option.some.injEq] at a3
      rw [← a3]; exact h.irrefl _
    · exact r5 i x (by omega) a2 a3

end std

/-! ## The heap -/

namespace std

variable {α : Type}

theorem Below.top (p : Nat) : Below p p := ⟨0, by simp⟩

theorem Below.top_le {p h : Nat} (hb : Below p h) : p ≤ h := by
  obtain ⟨k, hk⟩ := hb
  have := Nat.div_le_self (h + 1) (2 ^ k)
  omega

theorem Below.to_parent {p h : Nat} (hb : Below p h) (hne : h ≠ p) : Below p ((h - 1) / 2) := by
  obtain ⟨k, hk⟩ := hb
  cases k with
  | zero =>
    simp at hk
    exact absurd hk hne
  | succ k =>
    refine ⟨k, ?_⟩
    have h1 : 1 ≤ h := by
      rcases Nat.eq_zero_or_pos h with h0 | h0
      · subst h0
        have : (0 + 1) / 2 ^ (k + 1) = 0 := by
          apply Nat.div_eq_of_lt
          have := Nat.one_lt_two_pow (n := k + 1) (by omega)
          omega
        omega
      · exact h0
    have e : (h - 1) / 2 + 1 = (h + 1) / 2 := by omega
    rw [e, Nat.div_div_eq_div_mul, ← hk, Nat.pow_succ, Nat.mul_comm]

theorem Below.to_child {p h c : Nat} (hb : Below p h) (hc : (c - 1) / 2 = h) (h0 : 0 < c) :
    Below p c := by
  obtain ⟨k, hk⟩ := hb
  refine ⟨k + 1, ?_⟩
  have e : (c + 1) / 2 = h + 1 := by omega
  rw [Nat.pow_succ, Nat.mul_comm, ← Nat.div_div_eq_div_mul, e, hk]

theorem move_perm [DecidableEq α] (v : List α) (a b : Nat) (val : α) (ha : a < v.length)
    (hb : b < v.length) (hab : a ≠ b) :
    ((v.set a v[b]).set b val).Perm (v.set a val) := by
  rw [List.perm_iff_count]
  intro c
  have h1 := count_set_add v a v[b] c ha
  have h2 := count_set_add (v.set a v[b]) b val c (by simpa using hb)
  have h3 := count_set_add v a val c ha
  rw [List.getElem_set_ne hab] at h2
  omega

theorem assign_spec (v : List α) (i : Nat) (x : α) (h : i < v.length) :
    assign v i x = some (v.set i x) := by
  simp [assign, h]

theorem push_heap_spec [DecidableEq α] {comp : α → α → Bool} (h : StrictWeak comp)
    (first len p : Nat) (val : α) :
    ∀ (fuel : Nat) (v : List α) (hole : Nat), hole < fuel → Below p hole → hole < len →
      first + len ≤ v.length → HeapAbove comp v first len p →
      (∀ c y, 0 < c → c < len → (c - 1) / 2 = hole → v[first + c]? = some y →
        comp val y = false) →
      ∃ v', push_heap comp first p val fuel v hole = some v' ∧
        HeapAbove comp v' first len p ∧ v'.Perm (v.set (first + hole) val) ∧
        ∀ i, (i < first ∨ first + len ≤ i) → v'[i]? = v[i]? := by
  intro fuel
  induction fuel with
  | zero => intro v hole hf; omega
  | succ fuel ih =>
    intro v hole hf hb hl hv hK1 hK2
    have hple := hb.top_le
    have hhl : first + hole < v.length := by omega
    have hfin : ∃ v', assign v (first + hole) val = some v' ∧
        (hole > p → (∀ x, v[first + (hole - 1) / 2]? = some x → comp x val = false) →
          HeapAbove comp v' first len p) ∧
        (hole = p → HeapAbove comp v' first len p) ∧
        v'.Perm (v.set (first + hole) val) ∧
        ∀ i, (i < first ∨ first + len ≤ i) → v'[i]? = v[i]? := by
      refine ⟨v.set (first + hole) val, assign_spec _ _ _ hhl, ?_, ?_, List.Perm.refl _, ?_⟩
      · intro hgt hcmp i x y i0 il ia ex ey
        rw [List.getElem?_set] at ex ey
        by_cases h1 : i = hole
        · subst h1
          rw [if_neg (by omega)] at ex
          rw [if_pos rfl, if_pos hhl] at ey
          simp only [Option.some.injEq] at ey
          subst ey
          exact hcmp x ex
        · rw [if_neg (by omega)] at ey
          by_cases h2 : (i - 1) / 2 = hole
          · rw [h2, if_pos rfl, if_pos hhl] at ex
            simp only [Option.some.injEq] at ex
            subst ex
            exact hK2 i y i0 il h2 ey
          · rw [if_neg (by omega)] at ex
            exact hK1 i x y i0 il ia ex ey
      · intro hep i x y i0 il ia ex ey
        subst hep
        rw [List.getElem?_set] at ex ey
        have h1 : i ≠ hole := by omega
        rw [if_neg (by omega)] at ey
        by_cases h2 : (i - 1) / 2 = hole
        · rw [h2, if_pos rfl, if_pos hhl] at ex
          simp only [Option.some.injEq] at ex
          subst ex
          exact hK2 i y i0 il h2 ey
        · rw [if_neg (by omega)] at ex
          exact hK1 i x y i0 il ia ex ey
      · intro i hi
        rw [List.getElem?_set, if_neg (by omega)]
    obtain ⟨vf, f1, f2, f3, f4, f5⟩ := hfin
    simp only [push_heap]
    by_cases hgt : hole > p
    · rw [if_pos hgt]
      have hpar := hb.to_parent (by omega)
      have hpl : first + (hole - 1) / 2 < v.length := by omega
      rw [List.getElem?_eq_getElem hpl]
      simp only
      cases hc : comp v[first + (hole - 1) / 2] val with
      | false =>
        simp only [Bool.false_eq_true, if_false]
        refine ⟨vf, f1, f2 hgt ?_, f4, f5⟩
        intro x ex
        rw [List.getElem?_eq_getElem hpl] at ex
        simp only [Option.some.injEq] at ex
        rw [← ex]; exact hc
      | true =>
        simp only [if_true, assign_spec _ _ _ hhl]
        have hne : first + hole ≠ first + (hole - 1) / 2 := by omega
        have hget : ∀ i, (v.set (first + hole) v[first + (hole - 1) / 2])[i]? =
            if i = first + hole then some v[first + (hole - 1) / 2] else v[i]? := by
          intro i
          rw [List.getElem?_set]
          by_cases e : first + hole = i
          · subst e; simp [hhl]
          · have e' : ¬ i = first + hole := fun x => e x.symm
            simp [e, e']
        obtain ⟨v', r1, r2, r3, r4⟩ :=
          ih (v.set (first + hole) v[first + (hole - 1) / 2]) ((hole - 1) / 2) (by omega) hpar
            (by omega) (by simpa using hv)
            (by
              intro i x y i0 il ia ex ey
              rw [hget] at ex ey
              by_cases h1 : i = hole
              · subst h1
                rw [if_pos rfl] at ey
                rw [if_neg (by omega), List.getElem?_eq_getElem hpl] at ex
                simp only [Option.some.injEq] at ex ey
                subst ex ey
                exact h.irrefl _
              · rw [if_neg (by omega)] at ey
                by_cases h2 : (i - 1) / 2 = hole
                · rw [h2, if_pos rfl] at ex
                  simp only [Option.some.injEq] at ex
                  subst ex
                  have e1 := hK1 hole v[first + (hole - 1) / 2] v[first + hole] (by omega) hl
                    hpar.top_le (List.getElem?_eq_getElem hpl) (List.getElem?_eq_getElem hhl)
                  have e2 := hK1 i v[first + hole] y i0 il (by omega)
                    (by rw [h2]; exact List.getElem?_eq_getElem hhl) ey
                  exact h.incomp _ _ _ e1 e2
                · rw [if_neg (by omega)] at ex
                  exact hK1 i x y i0 il ia ex ey)
            (by
              intro c y c0 cl cp ey
              rw [hget] at ey
              by_cases h1 : c = hole
              · subst h1
                rw [if_pos rfl] at ey
                simp only [Option.some.injEq] at ey
                subst ey
                exact h.asymm _ _ hc
              · rw [if_neg (by omega)] at ey
                have e1 := hK1 c v[first + (hole - 1) / 2] y c0 cl (by rw [cp]; exact hpar.top_le)
                  (by rw [cp]; exact List.getElem?_eq_getElem hpl) ey
                cases hvy : comp val y with
                | false => rfl
                | true =>
                  have := h.trans _ _ _ hc hvy
                  rw [e1] at this
                  exact absurd this (by simp))
        refine ⟨v', r1, r2, r3.trans ?_, ?_⟩
        · exact move_perm v (first + hole) (first + (hole - 1) / 2) val hhl hpl hne
        · intro i hi
          rw [r4 i hi, hget, if_neg (by omega)]
    · rw [if_neg hgt]
      exact ⟨vf, f1, f3 (by omega), f4, f5⟩


theorem getElem?_set_eq_ite (v : List α) (a i : Nat) (x : α) (ha : a < v.length) :
    (v.set a x)[i]? = if i = a then some x else v[i]? := by
  rw [List.getElem?_set]
  by_cases e : a = i
  · subst e; simp [ha]
  · have e' : ¬ i = a := fun x => e x.symm
    simp [e, e']

theorem adjust_heap_step {comp : α → α → Bool} (h : StrictWeak comp) (first len p hole c : Nat)
    (v : List α) (hb : Below p hole) (hc1 : (c - 1) / 2 = hole) (hc0 : 0 < c) (hcl : c < len)
    (hv : first + len ≤ v.length) (hJ : HeapExcept comp v first len p hole) (vc : α)
    (hvc : v[first + c]? = some vc)
    (hmax : ∀ i y, 0 < i → i < len → (i - 1) / 2 = hole → v[first + i]? = some y →
      comp vc y = false) :
    HeapExcept comp (v.set (first + hole) vc) first len p c := by
  have hple := hb.top_le
  have hhl : first + hole < v.length := by omega
  intro i x y i0 il ia _ ex ey
  rw [getElem?_set_eq_ite _ _ _ _ hhl] at ex ey
  by_cases h1 : i = hole
  · subst h1
    rw [if_pos rfl] at ey
    rw [if_neg (by omega)] at ex
    simp only [Option.some.injEq] at ey
    subst ey
    have hne : ¬ ((i - 1) / 2 = p ∧ i = p) := by omega
    have hne2 : ¬ ((c - 1) / 2 = p ∧ i = p) := by omega
    have e1 := hJ i x v[first + i] i0 il ia hne ex (List.getElem?_eq_getElem hhl)
    have e2 := hJ c v[first + i] vc hc0 hcl (by omega) hne2
      (by rw [hc1]; exact List.getElem?_eq_getElem hhl) hvc
    exact h.incomp _ _ _ e1 e2
  · rw [if_neg (by omega)] at ey
    by_cases h2 : (i - 1) / 2 = hole
    · rw [h2, if_pos rfl] at ex
      simp only [Option.some.injEq] at ex
      subst ex
      exact hmax i y i0 il h2 ey
    · rw [if_neg (by omega)] at ex
      exact hJ i x y i0 il ia (by omega) ex ey

theorem adjust_heap_loop_spec [DecidableEq α] {comp : α → α → Bool} (h : StrictWeak comp)
    (first len p : Nat) :
    ∀ (fuel : Nat) (v : List α) (hole : Nat), len - hole < fuel → Below p hole → hole < len →
      first + len ≤ v.length → HeapExcept comp v first len p hole →
      ∃ v1 hole1, adjust_heap_loop comp first len fuel v hole hole = some (v1, hole1, hole1) ∧
        Below p hole1 ∧ hole1 < len ∧ ¬ hole1 < (len - 1) / 2 ∧
        HeapExcept comp v1 first len p hole1 ∧ v1.length = v.length ∧
        (∀ val, (v1.set (first + hole1) val).Perm (v.set (first + hole) val)) ∧
        ∀ i, (i < first ∨ first + len ≤ i) → v1[i]? = v[i]? := by
  intro fuel
  induction fuel with
  | zero => intro v hole hf; omega
  | succ fuel ih =>
    intro v hole hf hb hl hv hJ
    simp only [adjust_heap_loop]
    by_cases hlt : hole < (len - 1) / 2
    · rw [if_pos hlt]
      have hr : first + 2 * (hole + 1) < v.length := by omega
      have hlft : first + (2 * (hole + 1) - 1) < v.length := by omega
      have hhl : first + hole < v.length := by omega
      rw [List.getElem?_eq_getElem hr, List.getElem?_eq_getElem hlft]
      simp only
      have key : ∀ c vc, (c = 2 * (hole + 1) - 1 ∨ c = 2 * (hole + 1)) →
          v[first + c]? = some vc →
          (∀ i y, 0 < i → i < len → (i - 1) / 2 = hole → v[first + i]? = some y →
            comp vc y = false) →
          ∃ v1 hole1, adjust_heap_loop comp first len fuel (v.set (first + hole) vc) c c =
              some (v1, hole1, hole1) ∧
            Below p hole1 ∧ hole1 < len ∧ ¬ hole1 < (len - 1) / 2 ∧
            HeapExcept comp v1 first len p hole1 ∧ v1.length = v.length ∧
            (∀ val, (v1.set (first + hole1) val).Perm (v.set (first + hole) val)) ∧
            ∀ i, (i < first ∨ first + len ≤ i) → v1[i]? = v[i]? := by
        intro c vc hc hvc hmax
        have hc1 : (c - 1) / 2 = hole := by omega
        have hc0 : 0 < c := by omega
        have hcl : c < len := by omega
        have hcv : first + c < v.length := by omega
        have hJ' := adjust_heap_step h first len p hole c v hb hc1 hc0 hcl hv hJ vc hvc hmax
        obtain ⟨v1, hole1, r1, r2, r3, r4, r5, r6, r7, r8⟩ :=
          ih (v.set (first + hole) vc) c (by omega) (hb.to_child hc1 hc0) hcl (by simpa using hv) hJ'
        refine ⟨v1, hole1, r1, r2, r3, r4, r5, by simpa using r6, ?_, ?_⟩
        · intro val
          refine (r7 val).trans ?_
          have e : vc = v[first + c] := by
            rw [List.getElem?_eq_getElem hcv] at hvc
            simpa using hvc.symm
          subst e
          exact move_perm v (first + hole) (first + c) val hhl hcv (by omega)
        · intro i hi
          rw [r8 i hi, getElem?_set_eq_ite _ _ _ _ hhl, if_neg (by omega)]
      cases hc : comp v[first + 2 * (hole + 1)] v[first + (2 * (hole + 1) - 1)] with
      | true =>
        simp only [if_true, List.getElem?_eq_getElem hlft, assign_spec _ _ _ hhl]
        refine key _ _ (Or.inl rfl) (List.getElem?_eq_getElem hlft) ?_
        intro i y i0 il ip ey
        have hi : i = 2 * (hole + 1) - 1 ∨ i = 2 * (hole + 1) := by omega
        rcases hi with rfl | rfl
        · rw [List.getElem?_eq_getElem hlft] at ey
          simp only [Option.some.injEq] at ey
          rw [← ey]; exact h.irrefl _
        · rw [List.getElem?_eq_getElem hr] at ey
          simp only [Option.some.injEq] at ey
          rw [← ey]; exact h.asymm _ _ hc
      | false =>
        simp only [Bool.false_eq_true, if_false, List.getElem?_eq_getElem hr,
          assign_spec _ _ _ hhl]
        refine key _ _ (Or.inr rfl) (List.getElem?_eq_getElem hr) ?_
        intro i y i0 il ip ey
        have hi : i = 2 * (hole + 1) - 1 ∨ i = 2 * (hole + 1) := by omega
        rcases hi with rfl | rfl
        · rw [List.getElem?_eq_getElem hlft] at ey
          simp only [Option.some.injEq] at ey
          rw [← ey]; exact hc
        · rw [List.getElem?_eq_getElem hr] at ey
          simp only [Option.some.injEq] at ey
          rw [← ey]; exact h.irrefl _
    · rw [if_neg hlt]
      exact ⟨v, hole, rfl, hb, hl, hlt, hJ, rfl, fun _ => List.Perm.refl _, fun _ _ => rfl⟩


theorem adjust_heap_spec [DecidableEq α] {comp : α → α → Bool} (h : StrictWeak comp)
    (v : List α) (first p len : Nat) (val : α) (hp : p < len) (hv : first + len ≤ v.length)
    (hpre : HeapAbove comp v first len (p + 1)) :
    ∃ v', adjust_heap comp v first p len val = some v' ∧ HeapAbove comp v' first len p ∧
      v'.Perm (v.set (first + p) val) ∧
      ∀ i, (i < first ∨ first + len ≤ i) → v'[i]? = v[i]? := by
  have hJ : HeapExcept comp v first len p p := by
    intro i x y i0 il ia hne ex ey
    exact hpre i x y i0 il (by omega) ex ey
  obtain ⟨v1, hole1, r1, r2, r3, r4, r5, r6, r7, r8⟩ :=
    adjust_heap_loop_spec h first len p (len + 1) v p (by omega) (Below.top p) hp hv hJ
  have hv1 : first + len ≤ v1.length := by omega
  have hhl : first + hole1 < v1.length := by omega
  simp only [adjust_heap, r1]
  by_cases hs : len % 2 = 0 ∧ 2 ≤ len ∧ hole1 = (len - 2) / 2
  · rw [if_pos hs]
    have hc1 : (2 * (hole1 + 1) - 1 - 1) / 2 = hole1 := by omega
    have hc0 : 0 < 2 * (hole1 + 1) - 1 := by omega
    have hcl : 2 * (hole1 + 1) - 1 < len := by omega
    have hcv : first + (2 * (hole1 + 1) - 1) < v1.length := by omega
    rw [List.getElem?_eq_getElem hcv]
    simp only [assign_spec _ _ _ hhl]
    have hJ2 := adjust_heap_step h first len p hole1 (2 * (hole1 + 1) - 1) v1 r2 hc1 hc0 hcl hv1
      r5 _ (List.getElem?_eq_getElem hcv) (by
        intro i y i0 il ip ey
        have : i = 2 * (hole1 + 1) - 1 := by omega
        subst this
        rw [List.getElem?_eq_getElem hcv] at ey
        simp only [Option.some.injEq] at ey
        rw [← ey]; exact h.irrefl _)
    have hle := r2.top_le
    obtain ⟨v', q1, q2, q3, q4⟩ :=
      push_heap_spec h first len p val (2 * (hole1 + 1))
        (v1.set (first + hole1) v1[first + (2 * (hole1 + 1) - 1)]) (2 * (hole1 + 1) - 1)
        (by omega) (r2.to_child hc1 hc0) hcl (by simpa using hv1)
        (by
          intro i x y i0 il ia ex ey
          exact hJ2 i x y i0 il ia (by omega) ex ey)
        (by
          intro c y c0 cl cp _
          omega)
    refine ⟨v', q1, q2, ?_, ?_⟩
    · refine q3.trans ?_
      refine (move_perm v1 (first + hole1) (first + (2 * (hole1 + 1) - 1)) val hhl hcv
        (by omega)).trans ?_
      exact r7 val
    · intro i hi
      rw [q4 i hi, getElem?_set_eq_ite _ _ _ _ hhl, if_neg (by omega)]
      exact r8 i hi
  · rw [if_neg hs]
    have hle := r2.top_le
    obtain ⟨v', q1, q2, q3, q4⟩ :=
      push_heap_spec h first len p val (hole1 + 1) v1 hole1 (by omega) r2 r3 hv1
        (by
          intro i x y i0 il ia ex ey
          refine r5 i x y i0 il ia ?_ ex ey
          rintro ⟨e1, e2⟩
          subst e2
          omega)
        (by
          intro c y c0 cl cp _
          omega)
    exact ⟨v', q1, q2, q3.trans (r7 val), fun i hi => (q4 i hi).trans (r8 i hi)⟩


theorem set_same_value (v : List α) (i : Nat) (hi : i < v.length) : v.set i v[i] = v := by
  apply List.ext_getElem?
  intro n
  rw [getElem?_set_eq_ite _ _ _ _ hi]
  split_ifs with e
  · subst e
    exact (List.getElem?_eq_getElem hi).symm
  · rfl

theorem make_heap_loop_spec [DecidableEq α] {comp : α → α → Bool} (h : StrictWeak comp)
    (first len : Nat) :
    ∀ (parent : Nat) (v : List α), parent < len → first + len ≤ v.length →
      HeapAbove comp v first len (parent + 1) →
      ∃ v', make_heap_loop comp first len parent v = some v' ∧ HeapAbove comp v' first len 0 ∧
        v'.Perm v ∧ ∀ i, (i < first ∨ first + len ≤ i) → v'[i]? = v[i]? := by
  intro parent
  induction parent with
  | zero =>
    intro v hp hv hpre
    have hf : first < v.length := by omega
    obtain ⟨v', r1, r2, r3, r4⟩ := adjust_heap_spec h v first 0 len v[first] hp hv hpre
    refine ⟨v', ?_, r2, ?_, r4⟩
    · simp only [make_heap_loop, List.getElem?_eq_getElem hf]
      exact r1
    · rw [Nat.add_zero, set_same_value v first hf] at r3
      exact r3
  | succ parent ih =>
    intro v hp hv hpre
    have hf : first + (parent + 1) < v.length := by omega
    obtain ⟨v1, r1, r2, r3, r4⟩ :=
      adjust_heap_spec h v first (parent + 1) len v[first + (parent + 1)] hp hv hpre
    have r3' : v1.Perm v := by
      rw [set_same_value v _ hf] at r3
      exact r3
    obtain ⟨v', q1, q2, q3, q4⟩ := ih v1 (by omega) (by rw [r3'.length_eq]; exact hv) r2
    refine ⟨v', ?_, q2, q3.trans r3', fun i hi => (q4 i hi).trans (r4 i hi)⟩
    simp only [make_heap_loop, List.getElem?_eq_getElem hf, r1]
    exact q1

theorem make_heap_spec [DecidableEq α] {comp : α → α → Bool} (h : StrictWeak comp)
    (v : List α) (first last : Nat) (hfl : first ≤ last) (hl : last ≤ v.length) :
    ∃ v', make_heap comp v first last = some v' ∧ HeapAbove comp v' first (last - first) 0 ∧
      Rearranged v v' first last := by
  unfold make_heap
  by_cases hlt : last - first < 2
  · rw [if_pos hlt]
    refine ⟨v, rfl, ?_, Rearranged.same _ _ _⟩
    intro i x y i0 il
    omega
  · rw [if_neg hlt]
    obtain ⟨v', r1, r2, r3, r4⟩ :=
      make_heap_loop_spec h first (last - first) ((last - first - 2) / 2) v (by omega) (by omega)
        (by
          intro i x y i0 il ia
          omega)
    exact ⟨v', r1, r2, r3, fun i hi => r4 i (by omega)⟩

theorem heap_root_max {comp : α → α → Bool} (h : StrictWeak comp) (v : List α)
    (first len : Nat) (hv : first + len ≤ v.length) (hh : HeapAbove comp v first len 0)
    (r : α) (hr : v[first]? = some r) :
    ∀ i y, i < len → v[first + i]? = some y → comp r y = false := by
  intro i
  induction i using Nat.strong_induction_on with
  | _ i ih =>
    intro y hi hy
    rcases Nat.eq_zero_or_pos i with h0 | h0
    · subst h0
      rw [Nat.add_zero, hr] at hy
      simp only [Option.some.injEq] at hy
      rw [← hy]; exact h.irrefl _
    · have hpl : first + (i - 1) / 2 < v.length := by omega
      have e1 := ih ((i - 1) / 2) (by omega) v[first + (i - 1) / 2] (by omega)
        (List.getElem?_eq_getElem hpl)
      have e2 := hh i _ y h0 hi (Nat.zero_le _) (List.getElem?_eq_getElem hpl) hy
      exact h.incomp _ _ _ e1 e2

theorem pop_heap_spec [DecidableEq α] {comp : α → α → Bool} (h : StrictWeak comp)
    (v : List α) (first n : Nat) (hn : 0 < n) (hv : first + n + 1 ≤ v.length)
    (hh : HeapAbove comp v first (n + 1) 0) :
    ∃ v', pop_heap comp v first (first + n) (first + n) = some v' ∧
      HeapAbove comp v' first n 0 ∧ v'[first + n]? = v[first]? ∧
      Rearranged v v' first (first + n + 1) := by
  have hf : first < v.length := by omega
  have hr : first + n < v.length := by omega
  have hget := fun i => getElem?_set_eq_ite v (first + n) i v[first] hr
  obtain ⟨v', r1, r2, r3, r4⟩ :=
    adjust_heap_spec h (v.set (first + n) v[first]) first 0 n v[first + n] hn
      (by simp only [List.length_set]; omega)
      (by
        intro i x y i0 il ia ex ey
        rw [hget, if_neg (by omega)] at ex ey
        exact hh i x y i0 (by omega) (Nat.zero_le _) ex ey)
  refine ⟨v', ?_, r2, ?_, ?_, ?_⟩
  · simp only [pop_heap, List.getElem?_eq_getElem hr, List.getElem?_eq_getElem hf,
      assign_spec _ _ _ hr, Nat.add_sub_cancel_left]
    exact r1
  · rw [r4 (first + n) (Or.inr (Nat.le_refl _)), hget, if_pos rfl,
      List.getElem?_eq_getElem hf]
  · refine r3.trans ?_
    have := swap_perm v (first + n) first hr hf
    rw [Nat.add_zero]
    have e : ((v.set (first + n) v[first]).set first v[first + n]) =
        ((v.set (first + n) v[first]).set first v[first + n]) := rfl
    exact this
  · intro i hi
    rw [r4 i (by omega), hget, if_neg (by omega)]

theorem sort_heap_loop_spec [DecidableEq α] {comp : α → α → Bool} (h : StrictWeak comp)
    (first last : Nat) :
    ∀ (n : Nat) (v : List α), first + n + 1 ≤ last → last ≤ v.length →
      HeapAbove comp v first (n + 1) 0 →
      (∀ i j x y, first + n + 1 ≤ i → i < last → first ≤ j → j < first + n + 1 →
        v[i]? = some x → v[j]? = some y → comp x y = false) →
      ∃ v' m, sort_heap_loop comp first n v = some v' ∧ Rearranged v v' first last ∧
        v'[first]? = some m ∧
        ∀ i x, first ≤ i → i < last → v'[i]? = some x → comp x m = false := by
  intro n
  induction n with
  | zero =>
    intro v h1 h2 hh hs
    have hf : first < v.length := by omega
    refine ⟨v, v[first], rfl, Rearranged.same _ _ _, List.getElem?_eq_getElem hf, ?_⟩
    intro i x i1 i2 ex
    by_cases hi : i = first
    · subst hi
      rw [List.getElem?_eq_getElem hf] at ex
      simp only [Option.some.injEq] at ex
      rw [← ex]; exact h.irrefl _
    · exact hs i first x v[first] (by omega) i2 (Nat.le_refl _) (by omega) ex
        (List.getElem?_eq_getElem hf)
  | succ n ih =>
    intro v h1 h2 hh hs
    have hf : first < v.length := by omega
    obtain ⟨v1, p1, p2, p3, p4⟩ := pop_heap_spec h v first (n + 1) (by omega) (by omega) hh
    have hroot := heap_root_max h v first (n + 1 + 1) (by omega) hh v[first]
      (List.getElem?_eq_getElem hf)
    have hold : ∀ x, (∀ j y, first ≤ j → j < first + (n + 1) + 1 → v[j]? = some y →
        comp x y = false) →
        ∀ j y, first ≤ j → j < first + (n + 1) + 1 → v1[j]? = some y → comp x y = false :=
      fun x hx => p4.transfer (fun y => comp x y = false) hx
    obtain ⟨v', m, q1, q2, q3, q4⟩ :=
      ih v1 (by omega) (by rw [p4.same_length]; exact h2) p2
        (by
          intro i j x y i1 i2 j1 j2 ex ey
          by_cases hi : i = first + (n + 1)
          · subst hi
            rw [p3, List.getElem?_eq_getElem hf] at ex
            simp only [Option.some.injEq] at ex
            subst ex
            refine hold _ ?_ j y j1 (by omega) ey
            intro j' y' a1 a2 a3
            have : first + (j' - first) = j' := by omega
            exact hroot (j' - first) y' (by omega) (by rw [this]; exact a3)
          · rw [p4.2 i (Or.inr (by omega))] at ex
            refine hold x ?_ j y j1 (by omega) ey
            intro j' y' a1 a2 a3
            exact hs i j' x y' (by omega) i2 a1 a2 ex a3)
    refine ⟨v', m, ?_, (p4.widen (Nat.le_refl _) (by omega)).chain q2, q3, q4⟩
    simp only [sort_heap_loop, p1]
    exact q1

theorem partial_sort_spec [DecidableEq α] {comp : α → α → Bool} (h : StrictWeak comp)
    (v : List α) (first last : Nat) (hfl : first < last) (hl : last ≤ v.length) :
    ∃ v' m, partial_sort comp v first last last = some v' ∧ Rearranged v v' first last ∧
      v'[first]? = some m ∧
      ∀ i x, first ≤ i → i < last → v'[i]? = some x → comp x m = false := by
  obtain ⟨v1, r1, r2, r3⟩ := make_heap_spec h v first last (by omega) hl
  have e : last - first = (last - first - 1) + 1 := by omega
  rw [e] at r2
  obtain ⟨v', m, q1, q2, q3, q4⟩ :=
    sort_heap_loop_spec h first last (last - first - 1) v1 (by omega)
      (by rw [r3.same_length]; exact hl) r2 (fun i j x y i1 i2 j1 j2 _ _ => by omega)
  refine ⟨v', m, ?_, r3.chain q2, q3, q4⟩
  simp only [partial_sort, heap_select, r1, Nat.sub_self, heap_select_loop, sort_heap]
  exact q1

end std

/-! ## The whole sort -/

namespace std

variable {α : Type}

theorem exists_min_range {comp : α → α → Bool} (h : StrictWeak comp) (v : List α) :
    ∀ (n first : Nat), first + n + 1 ≤ v.length →
      ∃ i m, first ≤ i ∧ i < first + n + 1 ∧ v[i]? = some m ∧
        ∀ j x, first ≤ j → j < first + n + 1 → v[j]? = some x → comp x m = false := by
  intro n
  induction n with
  | zero =>
    intro first hv
    have hf : first < v.length := by omega
    refine ⟨first, v[first], Nat.le_refl _, by omega, List.getElem?_eq_getElem hf, ?_⟩
    intro j x j1 j2 ex
    have : j = first := by omega
    subst this
    rw [List.getElem?_eq_getElem hf] at ex
    simp only [Option.some.injEq] at ex
    rw [← ex]; exact h.irrefl _
  | succ n ih =>
    intro first hv
    obtain ⟨i, m, i1, i2, i3, i4⟩ := ih first (by omega)
    have hl : first + (n + 1) < v.length := by omega
    cases hc : comp v[first + (n + 1)] m with
    | true =>
      refine ⟨first + (n + 1), _, by omega, by omega, List.getElem?_eq_getElem hl, ?_⟩
      intro j x j1 j2 ex
      by_cases hj : j = first + (n + 1)
      · subst hj
        rw [List.getElem?_eq_getElem hl] at ex
        simp only [Option.some.injEq] at ex
        rw [← ex]; exact h.irrefl _
      · have e := i4 j x j1 (by omega) ex
        cases hxy : comp x v[first + (n + 1)] with
        | false => rfl
        | true =>
          have := h.trans _ _ _ hxy hc
          rw [e] at this
          exact absurd this (by simp)
    | false =>
      refine ⟨i, m, i1, by omega, i3, ?_⟩
      intro j x j1 j2 ex
      by_cases hj : j = first + (n + 1)
      · subst hj
        rw [List.getElem?_eq_getElem hl] at ex
        simp only [Option.some.injEq] at ex
        rw [← ex]; exact hc
      · exact i4 j x j1 (by omega) ex

theorem introsort_loop_spec [DecidableEq α] {comp : α → α → Bool} (h : StrictWeak comp) :
    ∀ (depth : Nat) (v : List α) (first last : Nat), last ≤ v.length →
      ∃ v', introsort_loop comp depth v first last = some v' ∧ Rearranged v v' first last ∧
        (first < last → ∃ i m, first ≤ i ∧ i < first + 16 ∧ i < last ∧ v'[i]? = some m ∧
          ∀ j x, first ≤ j → j < last → v'[j]? = some x → comp x m = false) := by
  intro depth
  induction depth with
  | zero =>
    intro v first last hl
    by_cases hsz : last - first > 16
    · obtain ⟨v', m, r1, r2, r3, r4⟩ := partial_sort_spec h v first last (by omega) hl
      refine ⟨v', by simp [introsort_loop, hsz, r1], r2, fun _ => ?_⟩
      exact ⟨first, m, Nat.le_refl _, by omega, by omega, r3, r4⟩
    · refine ⟨v, introsort_loop_small comp 0 v first last (by omega), Rearranged.same _ _ _, ?_⟩
      intro hfl
      obtain ⟨i, m, i1, i2, i3, i4⟩ := exists_min_range h v (last - first - 1) first (by omega)
      have e : first + (last - first - 1) + 1 = last := by omega
      rw [e] at i2 i4
      exact ⟨i, m, i1, by omega, i2, i3, i4⟩
  | succ d ih =>
    intro v first last hl
    by_cases hsz : last - first > 16
    · obtain ⟨v1, cut, pv, r1, r2, r3, r4, r5, r6, r7⟩ :=
        unguarded_partition_pivot_spec h v first last hsz hl
      obtain ⟨v2, s1, s2, _⟩ := ih v1 cut last (by rw [r2.same_length]; exact hl)
      obtain ⟨v3, t1, t2, t3⟩ := ih v2 first cut (by rw [s2.same_length, r2.same_length]; omega)
      obtain ⟨i, m, i1, i2, i3, i4, i5⟩ := t3 r3
      refine ⟨v3, ?_, ?_, fun _ => ⟨i, m, i1, i2, by omega, i4, ?_⟩⟩
      · simp only [introsort_loop, hsz, if_true, r1, s1]
        exact t1
      · exact r2.chain ((s2.widen (by omega) (Nat.le_refl _)).chain
          (t2.widen (Nat.le_refl _) (by omega)))
      · have hA2 := s2.keep (fun x => comp pv x = false) first cut (Or.inl (Nat.le_refl _)) r6
        have hA3 := t2.transfer (fun x => comp pv x = false) hA2
        have hB2 := s2.transfer (fun x => comp x pv = false) r7
        have hB3 := t2.keep (fun x => comp x pv = false) cut last (Or.inr (Nat.le_refl _)) hB2
        have hm : comp pv m = false := hA3 i m i1 i3 i4
        intro j x j1 j2 ex
        by_cases hj : j < cut
        · exact i5 j x j1 hj ex
        · exact h.incomp _ _ _ (hB3 j x (by omega) j2 ex) hm
    · refine ⟨v, introsort_loop_small comp _ v first last (by omega), Rearranged.same _ _ _, ?_⟩
      intro hfl
      obtain ⟨i, m, i1, i2, i3, i4⟩ := exists_min_range h v (last - first - 1) first (by omega)
      have e : first + (last - first - 1) + 1 = last := by omega
      rw [e] at i2 i4
      exact ⟨i, m, i1, by omega, i2, i3, i4⟩

theorem sort_spec [DecidableEq α] {comp : α → α → Bool} (h : StrictWeak comp) (v : List α) :
    ∃ out, sort comp v = some out ∧ out.Perm v ∧ Sorted comp out ∧
      (v.length ≤ 16 → ∀ z, out.filter (tied comp z) = v.filter (tied comp z)) := by
  by_cases hle : v.length ≤ 16
  · obtain ⟨out, e1, e2, e3, e4⟩ := sort_small h v hle
    exact ⟨out, e1, e2, e3, fun _ => e4⟩
  · obtain ⟨v1, r1, r2, r3⟩ := introsort_loop_spec h (lg (v.length - 0) * 2) v 0 v.length
      (Nat.le_refl _)
    obtain ⟨i, m, _, i2, i3, i4, i5⟩ := r3 (by omega)
    have hlen := r2.same_length
    obtain ⟨out, e1, e2, e3, _⟩ := final_insertion_sort_spec h v1 (fun _ => by
      refine ⟨m, ?_, ?_⟩
      · rw [List.mem_iff_getElem?]
        exact ⟨i, by rw [List.getElem?_take, if_pos (by omega)]; exact i4⟩
      · intro x hx
        rw [List.mem_iff_getElem?] at hx
        obtain ⟨j, hj⟩ := hx
        have := (List.getElem?_eq_some.1 hj).1
        exact i5 j x (Nat.zero_le _) (by omega) hj)
    refine ⟨out, ?_, e2.trans r2.1, e3, fun hh => absurd hh hle⟩
    unfold sort
    rw [if_neg (by omega), r1]
    rw [hlen] at e1
    exact e1

end std

/-! ## The standings -/

theorem standingsBefore_strictWeak :
    std.StrictWeak (fun a b : TeamPtr × Team => League.standingsBefore a.2 b.2) := by
  refine ⟨fun x => standingsBefore_irrefl x.2, ?_, ?_⟩
  · intro x y z h1 h2
    simp only [standingsBefore_iff] at h1 h2 ⊢
    rcases h1 with h1 | ⟨h1, h1'⟩
    · rcases h2 with h2 | ⟨h2, _⟩
      · exact Or.inl (by omega)
      · exact Or.inl (by omega)
    · rcases h2 with h2 | ⟨h2, h2'⟩
      · exact Or.inl (by omega)
      · exact Or.inr ⟨by omega, lt_trans h2' h1'⟩
  · intro x y z h1 h2
    simp only [← Bool.not_eq_true, standingsBefore_iff, not_or, not_and, not_lt, gt_iff_lt]
      at h1 h2 ⊢
    refine ⟨by omega, fun e => ?_⟩
    have e1 : x.2.wins = y.2.wins := by omega
    have e2 : y.2.wins = z.2.wins := by omega
    exact le_trans (h1.2 e1) (h2.2 e2)

theorem displayStandings_sorted (L : League) :
    ∃ sortedTeams,
      L.displayStandings = some (L, sortedTeams.map Prod.fst) ∧
      sortedTeams.Perm L.teams.enum ∧
      std.Sorted (fun a b : TeamPtr × Team => League.standingsBefore a.2 b.2) sortedTeams ∧
      (L.teams.length ≤ 16 → ∀ z,
        sortedTeams.filter
            (std.tied (fun a b : TeamPtr × Team => League.standingsBefore a.2 b.2) z) =
          L.teams.enum.filter
            (std.tied (fun a b : TeamPtr × Team => League.standingsBefore a.2 b.2) z)) := by
  obtain ⟨out, e1, e2, e3, e4⟩ := std.sort_spec standingsBefore_strictWeak L.teams.enum
  refine ⟨out, ?_, e2, e3, fun h16 => e4 (by simpa using h16)⟩
  unfold League.displayStandings
  split_ifs with he
  · rw [List.isEmpty_iff] at he
    rw [he] at e2
    have : out = [] := by simpa using e2
    rw [this]
    rfl
  · rw [e1]

theorem sublist_pair_of_getElem? {α : Type} (l : List α) :
    ∀ (i j : Nat) (x y : α), l[i]? = some x → l[j]? = some y → i < j → [x, y].Sublist l := by
  induction l with
  | nil => intro i j x y hi; simp at hi
  | cons c l ih =>
    intro i j x y hi hj hij
    obtain ⟨j', rfl⟩ : ∃ j', j = j' + 1 := ⟨j - 1, by omega⟩
    rw [List.getElem?_cons_succ] at hj
    cases i with
    | zero =>
      rw [List.getElem?_cons_zero] at hi
      simp only [Option.some.injEq] at hi
      subst hi
      exact List.Sublist.cons₂ _ (List.singleton_sublist.2 (List.getElem?_mem hj))
    | succ i =>
      rw [List.getElem?_cons_succ] at hi
      exact List.Sublist.cons _ (ih i j' x y hi hj (by omega))

theorem getElem?_of_sublist_pair {α : Type} (l : List α) :
    ∀ (x y : α), [x, y].Sublist l → ∃ i j : Nat, i < j ∧ l[i]? = some x ∧ l[j]? = some y := by
  induction l with
  | nil => intro x y h; simp at h
  | cons c l ih =>
    intro x y h
    cases h with
    | cons _ h' =>
      obtain ⟨i, j, hij, hi, hj⟩ := ih x y h'
      exact ⟨i + 1, j + 1, by omega, by simpa using hi, by simpa using hj⟩
    | cons₂ _ h' =>
      obtain ⟨n, hn⟩ := List.mem_iff_getElem?.1 (List.singleton_sublist.1 h')
      exact ⟨0, n + 1, by omega, by simp, by simpa using hn⟩

theorem registerAll_reachable (teams : List (String × String)) :
    ∀ L : League, L.Reachable → (L.registerAll teams).Reachable := by
  induction teams with
  | nil => intro L h; exact h
  | cons t rest ih =>
    intro L h
    exact ih _ (League.Reachable.step _ _ h (League.Step.registerTeam L t.1 t.2))

/-- C20: `displayStandings` returns, on every league, and leaves the league with
its team list as it was; the standings it computes are a rearrangement of the
registered teams in which a team with strictly more wins than another, or with
equal wins and strictly more total points, stands before it; for A (3 wins,
100 points), B (3 wins, 120 points) and C (2 wins, 200 points), registered in
that order, the standings are B, A, C. -/
theorem standings_order (L : League) :
    ∃ out, L.displayStandings = some (L, out) ∧
      out.Perm (List.range L.teams.length) ∧
      (∀ (i j : Nat) (a b : TeamPtr) (ta tb : Team),
        out[i]? = some a → out[j]? = some b →
        L.teams[a]? = some ta → L.teams[b]? = some tb →
        (ta.wins > tb.wins ∨ (ta.wins = tb.wins ∧ ta.totalPoints > tb.totalPoints)) →
        i < j) ∧
      League.abc.displayStandings = some (League.abc, [1, 0, 2]) := by
  obtain ⟨sortedTeams, e1, e2, e3, _⟩ := displayStandings_sorted L
  refine ⟨sortedTeams.map Prod.fst, e1, ?_, ?_, by decide⟩
  · have := e2.map Prod.fst
    rwa [List.enum_map_fst] at this
  · intro i j a b ta tb hi hj hta htb hc
    rw [List.getElem?_map] at hi hj
    obtain ⟨pa, hpa, rfl⟩ := Option.map_eq_some'.1 hi
    obtain ⟨pb, hpb, rfl⟩ := Option.map_eq_some'.1 hj
    have ma : pa ∈ L.teams.enum := e2.mem_iff.1 (List.getElem?_mem hpa)
    have mb : pb ∈ L.teams.enum := e2.mem_iff.1 (List.getElem?_mem hpb)
    have ka : L.teams[pa.1]? = some pa.2 := List.mk_mem_enum_iff_getElem?.1 ma
    have kb : L.teams[pb.1]? = some pb.2 := List.mk_mem_enum_iff_getElem?.1 mb
    rw [hta] at ka
    rw [htb] at kb
    simp only [Option.some.injEq] at ka kb
    have hbef : League.standingsBefore pa.2 pb.2 = true := by
      rw [← ka, ← kb]
      exact (standingsBefore_iff ta tb).2 hc
    obtain ⟨hi1, ei⟩ := List.getElem?_eq_some.1 hpa
    obtain ⟨hj1, ej⟩ := List.getElem?_eq_some.1 hpb
    by_contra hij
    rcases Nat.lt_or_ge j i with hlt | hge
    · have := List.pairwise_iff_getElem.1 e3 j i hj1 hi1 hlt
      rw [ei, ej] at this
      simp only at this
      rw [this] at hbef
      exact absurd hbef (by simp)
    · have : i = j := by omega
      subst this
      rw [ei] at ej
      subst ej
      rw [standingsBefore_irrefl] at hbef
      exact absurd hbef (by simp)

/-- C21 (the claim as written fails): in a reachable league with 17 registered
teams that all have 0 wins and 0 points, `displayStandings` ranks the team
registered ninth first and the team registered first tenth: the partition
step of the library sort, taken on more than 16 elements, exchanges tied
teams. -/
theorem standings_tie_reversed :
    League.seventeen.Reachable ∧ League.seventeen.teams.length = 17 ∧
    (∀ t ∈ League.seventeen.teams, t.wins = 0 ∧ t.totalPoints = 0) ∧
    League.seventeen.displayStandings =
      some (League.seventeen, [8, 16, 15, 14, 13, 12, 11, 10, 9, 0, 7, 6, 5, 4, 3, 2, 1]) :=
  ⟨registerAll_reachable _ _
      (League.Reachable.init "Big" 20 10 5 (by decide) (by decide) (by decide)),
   by decide, by decide, by decide⟩

/-- C21 (amended): in a league with at most 16 registered teams `displayStandings`
returns, and two teams that tie on both wins and total points stand in the
standings in the order of their registration. -/
theorem standings_stable_upto_sixteen (L : League) (h16 : L.teams.length ≤ 16) :
    ∃ out, L.displayStandings = some (L, out) ∧
      ∀ (a b : TeamPtr) (ta tb : Team), a < b →
        L.teams[a]? = some ta → L.teams[b]? = some tb →
        ta.wins = tb.wins → ta.totalPoints = tb.totalPoints →
        ∃ i j : Nat, i < j ∧ out[i]? = some a ∧ out[j]? = some b := by
  obtain ⟨sortedTeams, e1, _, _, e4⟩ := displayStandings_sorted L
  refine ⟨sortedTeams.map Prod.fst, e1, ?_⟩
  intro a b ta tb hab hta htb hw hp
  have ha : L.teams.enum[a]? = some (a, ta) := by rw [List.getElem?_enum, hta]; rfl
  have hb : L.teams.enum[b]? = some (b, tb) := by rw [List.getElem?_enum, htb]; rfl
  have hsub := sublist_pair_of_getElem? _ a b _ _ ha hb hab
  have n1 : League.standingsBefore ta tb = false := by
    rw [← Bool.not_eq_true, standingsBefore_iff]
    simp [hw, hp]
  have t1 : std.tied (fun a b : TeamPtr × Team => League.standingsBefore a.2 b.2) (a, ta)
      (a, ta) = true := by
    simp [std.tied, standingsBefore_irrefl]
  have n2 : League.standingsBefore tb ta = false := by
    rw [← Bool.not_eq_true, standingsBefore_iff]
    simp [hw, hp]
  have t2 : std.tied (fun a b : TeamPtr × Team => League.standingsBefore a.2 b.2) (a, ta)
      (b, tb) = true := by
    simp [std.tied, n1, n2]
  have hf := hsub.filter
    (std.tied (fun a b : TeamPtr × Team => League.standingsBefore a.2 b.2) (a, ta))
  rw [← e4 h16 (a, ta)] at hf
  simp only [List.filter_cons, t1, t2, if_true, List.filter_nil] at hf
  have hs := (hf.trans (List.filter_sublist _)).map Prod.fst
  exact getElem?_of_sublist_pair _ a b hs

/-- C21 (amended) at the league of the application with the teams A and B, both
at 0 wins and 0 points: A stands before B. -/
theorem standings_stable_upto_sixteen_witness :
    League.appAB.displayStandings = some (League.appAB, [0, 1]) ∧
    ∃ out, League.appAB.displayStandings = some (League.appAB, out) ∧
      ∀ (a b : TeamPtr) (ta tb : Team), a < b →
        League.appAB.teams[a]? = some ta → League.appAB.teams[b]? = some tb →
        ta.wins = tb.wins → ta.totalPoints = tb.totalPoints →
        ∃ i j : Nat, i < j ∧ out[i]? = some a ∧ out[j]? = some b :=
  ⟨by decide, standings_stable_upto_sixteen League.appAB (by decide)⟩

/-! ## Rounding to `double` -/

theorem roundHalfEven_intCast (n : Int) : roundHalfEven (n : ℚ) = n := by
  unfold roundHalfEven
  rw [Int.floor_intCast, sub_self, if_pos (by norm_num)]

theorem roundHalfEven_near (q : ℚ) : |(roundHalfEven q : ℚ) - q| ≤ 1 / 2 := by
  have h1 := Int.floor_le q
  have h2 := Int.lt_floor_add_one q
  unfold roundHalfEven
  rw [abs_le]
  split_ifs with a b c
  · constructor <;> linarith
  · push_cast
    constructor <;> linarith
  · constructor <;> linarith
  · push_cast
    constructor <;> linarith

theorem roundHalfEven_eq_of_near (q : ℚ) (m : Int) (h : |q - m| < 1 / 2) :
    roundHalfEven q = m := by
  rw [abs_lt] at h
  obtain ⟨h1, h2⟩ := h
  unfold roundHalfEven
  rcases le_or_lt (m : ℚ) q with hm | hm
  · have hf : ⌊q⌋ = m := by
      rw [Int.floor_eq_iff]
      constructor <;> linarith
    rw [hf, if_pos (by linarith)]
  · have hf : ⌊q⌋ = m - 1 := by
      rw [Int.floor_eq_iff]
      push_cast
      constructor <;> linarith
    rw [hf]
    push_cast
    rw [if_neg (by linarith), if_pos (by linarith)]
    ring

theorem toDouble_zero : toDouble 0 = 0 := by simp [toDouble]

theorem toDouble_scaled (q : ℚ) (hq : q ≠ 0) :
    (2 : ℚ) ^ (52 : ℤ) ≤ |q| / 2 ^ (Int.log 2 |q| - 52) ∧
    |q| / 2 ^ (Int.log 2 |q| - 52) < 2 ^ (53 : ℤ) := by
  have hpos : 0 < |q| := abs_pos.2 hq
  have h1 := Int.zpow_log_le_self (b := 2) (by norm_num) hpos
  have h2 := Int.lt_zpow_succ_log_self (b := 2) (by norm_num) |q|
  have hp : (0 : ℚ) < 2 ^ (Int.log 2 |q| - 52) := by positivity
  have e1 : (2 : ℚ) ^ (Int.log 2 |q|) = 2 ^ (52 : ℤ) * 2 ^ (Int.log 2 |q| - 52) := by
    rw [← zpow_add₀ (by norm_num : (2 : ℚ) ≠ 0)]
    congr 1
    ring
  have e2 : (2 : ℚ) ^ (Int.log 2 |q| + 1) = 2 ^ (53 : ℤ) * 2 ^ (Int.log 2 |q| - 52) := by
    rw [← zpow_add₀ (by norm_num : (2 : ℚ) ≠ 0)]
    congr 1
    ring
  push_cast at h1 h2
  rw [e1] at h1
  rw [e2] at h2
  constructor
  · rw [le_div_iff₀ hp]
    exact h1
  · rw [div_lt_iff₀ hp]
    exact h2

theorem toDouble_error (q : ℚ) : |toDouble q - q| ≤ |q| / 2 ^ (53 : ℕ) := by
  by_cases hq : q = 0
  · subst hq
    simp [toDouble_zero]
  · obtain ⟨h1, _⟩ := toDouble_scaled q hq
    have hp : (0 : ℚ) < 2 ^ (Int.log 2 |q| - 52) := by positivity
    have hr := roundHalfEven_near (q / 2 ^ (Int.log 2 |q| - 52))
    unfold toDouble
    rw [if_neg hq]
    have e : (roundHalfEven (q / 2 ^ (Int.log 2 |q| - 52)) : ℚ) * 2 ^ (Int.log 2 |q| - 52) - q =
        ((roundHalfEven (q / 2 ^ (Int.log 2 |q| - 52)) : ℚ) - q / 2 ^ (Int.log 2 |q| - 52)) *
          2 ^ (Int.log 2 |q| - 52) := by
      field_simp
    rw [e, abs_mul, abs_of_pos hp]
    have h3 : (1 : ℚ) / 2 ≤ |q| / 2 ^ (Int.log 2 |q| - 52) / 2 ^ (53 : ℕ) := by
      rw [le_div_iff₀ (by positivity)]
      have : (1 : ℚ) / 2 * 2 ^ (53 : ℕ) = 2 ^ (52 : ℤ) := by norm_num
      rw [this]
      exact h1
    calc |(roundHalfEven (q / 2 ^ (Int.log 2 |q| - 52)) : ℚ) - q / 2 ^ (Int.log 2 |q| - 52)| *
          2 ^ (Int.log 2 |q| - 52)
        ≤ (|q| / 2 ^ (Int.log 2 |q| - 52) / 2 ^ (53 : ℕ)) * 2 ^ (Int.log 2 |q| - 52) :=
          mul_le_mul_of_nonneg_right (le_trans hr h3) (le_of_lt hp)
      _ = |q| / 2 ^ (53 : ℕ) := by
          field_simp
          ring

theorem log_eq_of_bounds (q : ℚ) (e : Int) (h1 : (2 : ℚ) ^ (52 : ℤ) * 2 ^ e ≤ |q|)
    (h2 : |q| < 2 ^ (53 : ℤ) * 2 ^ e) : Int.log 2 |q| = e + 52 := by
  have hpos : 0 < |q| := lt_of_lt_of_le (by positivity) h1
  rw [← zpow_add₀ (by norm_num : (2 : ℚ) ≠ 0)] at h1 h2
  have a1 : (52 : ℤ) + e ≤ Int.log 2 |q| := by
    rw [← Int.zpow_le_iff_le_log (by norm_num) hpos]
    exact_mod_cast h1
  have a2 : Int.log 2 |q| < 53 + e := by
    rw [← Int.lt_zpow_iff_log_lt (by norm_num) hpos]
    exact_mod_cast h2
  omega

theorem toDouble_eq_of (q : ℚ) (e m : Int) (h1 : (2 : ℚ) ^ (52 : ℤ) * 2 ^ e ≤ |q|)
    (h2 : |q| < 2 ^ (53 : ℤ) * 2 ^ e) (h3 : |q / 2 ^ e - m| < 1 / 2) :
    toDouble q = m * 2 ^ e := by
  have hq : q ≠ 0 := by
    intro h0
    subst h0
    rw [abs_zero] at h1
    have : (0 : ℚ) < 2 ^ (52 : ℤ) * 2 ^ e := by positivity
    linarith
  have hl := log_eq_of_bounds q e h1 h2
  unfold toDouble
  rw [if_neg hq, hl, show e + 52 - 52 = e by ring, roundHalfEven_eq_of_near _ m h3]

theorem toDouble_dyadic (m s : Int) (hm : |m| < 2 ^ 53) :
    toDouble ((m : ℚ) * 2 ^ s) = (m : ℚ) * 2 ^ s := by
  by_cases h0 : m = 0
  · subst h0
    simp [toDouble_zero]
  · have hm0 : (m : ℚ) ≠ 0 := by exact_mod_cast h0
    have hq : (m : ℚ) * 2 ^ s ≠ 0 := mul_ne_zero hm0 (by positivity)
    have hpos : 0 < |(m : ℚ) * 2 ^ s| := abs_pos.2 hq
    have hlt : |(m : ℚ) * 2 ^ s| < (2 : ℚ) ^ (s + 53) := by
      rw [abs_mul, abs_of_pos (by positivity : (0 : ℚ) < 2 ^ s),
        zpow_add₀ (by norm_num : (2 : ℚ) ≠ 0), mul_comm]
      have : |(m : ℚ)| < 2 ^ (53 : ℤ) := by
        have h : |(m : ℚ)| < 2 ^ (53 : ℕ) := by exact_mod_cast hm
        exact_mod_cast h
      exact mul_lt_mul_of_pos_left this (by positivity)
    have hlog : Int.log 2 |(m : ℚ) * 2 ^ s| < s + 53 := by
      rw [← Int.lt_zpow_iff_log_lt (by norm_num) hpos]
      exact_mod_cast hlt
    unfold toDouble
    rw [if_neg hq]
    generalize Int.log 2 |(m : ℚ) * 2 ^ s| = L at hlog ⊢
    obtain ⟨d, hd⟩ : ∃ d : ℕ, s = (L - 52) + (d : ℤ) := ⟨(s - (L - 52)).toNat, by omega⟩
    have hsplit : (2 : ℚ) ^ s = 2 ^ (L - 52) * 2 ^ d := by
      rw [hd, zpow_add₀ (by norm_num : (2 : ℚ) ≠ 0), zpow_natCast]
    have hp : (2 : ℚ) ^ (L - 52) ≠ 0 := by positivity
    have hx : (m : ℚ) * 2 ^ s / 2 ^ (L - 52) = ((m * 2 ^ d : Int) : ℚ) := by
      rw [hsplit]
      push_cast
      field_simp
      ring
    rw [hx, roundHalfEven_intCast, hsplit]
    push_cast
    ring

theorem toDouble_intCast (n : Int) (hn : |n| < 2 ^ 53) : toDouble (n : ℚ) = n := by
  have := toDouble_dyadic n 0 hn
  simpa using this

theorem roundHalfEven_eq_of_tie (q : ℚ) (m : Int) (h : |q - m| = 1 / 2) (hm : m % 2 = 0) :
    roundHalfEven q = m := by
  unfold roundHalfEven
  rcases le_or_lt (m : ℚ) q with hq | hq
  · rw [abs_of_nonneg (by linarith)] at h
    have hf : ⌊q⌋ = m := by
      rw [Int.floor_eq_iff]
      constructor <;> linarith
    rw [hf, if_neg (by linarith), if_neg (by linarith), if_pos hm]
  · rw [abs_of_neg (by linarith)] at h
    have hf : ⌊q⌋ = m - 1 := by
      rw [Int.floor_eq_iff]
      push_cast
      constructor <;> linarith
    rw [hf]
    push_cast
    rw [if_neg (by linarith), if_neg (by linarith), if_neg (by omega)]
    ring

theorem toDouble_eq_of_tie (q : ℚ) (e m : Int) (h1 : (2 : ℚ) ^ (52 : ℤ) * 2 ^ e ≤ |q|)
    (h2 : |q| < 2 ^ (53 : ℤ) * 2 ^ e) (h3 : |q / 2 ^ e - m| = 1 / 2) (hm : m % 2 = 0) :
    toDouble q = m * 2 ^ e := by
  have hq : q ≠ 0 := by
    intro h0
    subst h0
    rw [abs_zero] at h1
    have : (0 : ℚ) < 2 ^ (52 : ℤ) * 2 ^ e := by positivity
    linarith
  have hl := log_eq_of_bounds q e h1 h2
  unfold toDouble
  rw [if_neg hq, hl, show e + 52 - 52 = e by ring, roundHalfEven_eq_of_tie _ m h3 hm]

theorem toDouble_idem (q : ℚ) : toDouble (toDouble q) = toDouble q := by
  by_cases hq : q = 0
  · subst hq
    simp [toDouble_zero]
  · obtain ⟨_, h2⟩ := toDouble_scaled q hq
    have hval : toDouble q =
        (roundHalfEven (q / 2 ^ (Int.log 2 |q| - 52)) : ℚ) * 2 ^ (Int.log 2 |q| - 52) := by
      unfold toDouble
      rw [if_neg hq]
    have hr := roundHalfEven_near (q / 2 ^ (Int.log 2 |q| - 52))
    have hx : |q / 2 ^ (Int.log 2 |q| - 52)| = |q| / 2 ^ (Int.log 2 |q| - 52) := by
      rw [abs_div, abs_of_pos (by positivity : (0 : ℚ) < 2 ^ (Int.log 2 |q| - 52))]
    rw [← hx] at h2
    rw [hval]
    generalize roundHalfEven (q / 2 ^ (Int.log 2 |q| - 52)) = r at hr ⊢
    generalize q / 2 ^ (Int.log 2 |q| - 52) = x at hr h2
    generalize Int.log 2 |q| - 52 = e
    have hrq : |(r : ℚ)| < 2 ^ (53 : ℕ) + 1 := by
      have h53 : (2 : ℚ) ^ (53 : ℤ) = 2 ^ (53 : ℕ) := by norm_num
      rw [h53] at h2
      rw [abs_lt] at h2 ⊢
      rw [abs_le] at hr
      constructor <;> linarith [h2.1, h2.2, hr.1, hr.2]
    have hri : |r| < 2 ^ 53 + 1 := by exact_mod_cast hrq
    rcases lt_or_eq_of_le (Int.lt_add_one_iff.1 hri) with h | h
    · exact toDouble_dyadic r e h
    · rcases abs_eq (by norm_num : (0 : Int) ≤ 2 ^ 53) |>.1 h with h' | h'
      · have e1 : (r : ℚ) * 2 ^ e = ((1 : Int) : ℚ) * 2 ^ (e + 53) := by
          rw [h', zpow_add₀ (by norm_num : (2 : ℚ) ≠ 0)]
          push_cast
          ring
        rw [e1]
        exact toDouble_dyadic 1 (e + 53) (by norm_num)
      · have e1 : (r : ℚ) * 2 ^ e = ((-1 : Int) : ℚ) * 2 ^ (e + 53) := by
          rw [h', zpow_add₀ (by norm_num : (2 : ℚ) ≠ 0)]
          push_cast
          ring
        rw [e1]
        exact toDouble_dyadic (-1) (e + 53) (by norm_num)

theorem pointsAllowedBonus_le (pointsAllowed : Int) : pointsAllowedBonus pointsAllowed ≤ (10 : ℚ) := by
  unfold pointsAllowedBonus
  split_ifs <;> norm_num

/-- Rounding a value `x` that lies within `E` of `X` gives a value within
`E + B / 2 ^ 53` of `X`, when `B` bounds the size of `x`. -/
theorem toDouble_near (x X E B : ℚ) (h : |x - X| ≤ E) (hB : |X| + E ≤ B) :
    |toDouble x - X| ≤ E + B / 2 ^ 53 := by
  have h1 := toDouble_error x
  have h2 : |x| ≤ B := by
    have := abs_sub_abs_le_abs_sub x X
    linarith
  have h3 : |x| / 2 ^ (53 : ℕ) ≤ B / 2 ^ 53 := by
    apply div_le_div_of_nonneg_right h2
    positivity
  have h4 : |toDouble x - X| ≤ |toDouble x - x| + |x - X| := by
    have := abs_add (toDouble x - x) (x - X)
    rwa [sub_add_sub_cancel] at this
  linarith

/-- One product of a drawn value and a rounded literal. -/
theorem term_near (y Y c : ℚ) (h0 : 0 ≤ y) (hY : y ≤ Y) :
    |y * toDouble c - y * c| ≤ Y * (|c| / 2 ^ 53) := by
  have h1 := toDouble_error c
  rw [← mul_sub, abs_mul, abs_of_nonneg h0]
  have h2 : (0 : ℚ) ≤ |c| / 2 ^ 53 := by positivity
  calc y * |toDouble c - c| ≤ y * (|c| / 2 ^ 53) := mul_le_mul_of_nonneg_left h1 h0
    _ ≤ Y * (|c| / 2 ^ 53) := mul_le_mul_of_nonneg_right hY h2

/-- One statement `gamePoints += t` where the product `t` is rounded first. -/
theorem step_add (g G t T E1 E2 : ℚ) (hg : |g - G| ≤ E1) (ht : |t - T| ≤ E2)
    (hG : |G| ≤ 48) (hT : |T| ≤ 16) (hE1 : E1 ≤ 1) (hE2 : E2 ≤ 1) :
    |toDouble (g + toDouble t) - (G + T)| ≤ E1 + E2 + 84 / 2 ^ 53 := by
  have h1 := toDouble_near t T E2 17 ht (by linarith)
  have h2 : |g + toDouble t - (G + T)| ≤ E1 + (E2 + 17 / 2 ^ 53) := by
    have := abs_add (g - G) (toDouble t - T)
    rw [show g - G + (toDouble t - T) = g + toDouble t - (G + T) by ring] at this
    linarith
  have h3 : |G + T| ≤ 64 := by
    have := abs_add G T
    linarith
  have h4 := toDouble_near (g + toDouble t) (G + T) (E1 + (E2 + 17 / 2 ^ 53)) 67 h2
    (by norm_num; linarith)
  linarith

/-- One statement `gamePoints -= t` where the product `t` is rounded first. -/
theorem step_sub (g G t T E1 E2 : ℚ) (hg : |g - G| ≤ E1) (ht : |t - T| ≤ E2)
    (hG : |G| ≤ 48) (hT : |T| ≤ 16) (hE1 : E1 ≤ 1) (hE2 : E2 ≤ 1) :
    |toDouble (g - toDouble t) - (G - T)| ≤ E1 + E2 + 84 / 2 ^ 53 := by
  have h1 := toDouble_near t T E2 17 ht (by linarith)
  have h2 : |g - toDouble t - (G - T)| ≤ E1 + (E2 + 17 / 2 ^ 53) := by
    have := abs_sub (g - G) (toDouble t - T)
    rw [show g - G - (toDouble t - T) = g - toDouble t - (G - T) by ring] at this
    linarith
  have h3 : |G - T| ≤ 64 := by
    have := abs_sub G T
    linarith
  have h4 := toDouble_near (g - toDouble t) (G - T) (E1 + (E2 + 17 / 2 ^ 53)) 67 h2
    (by norm_num; linarith)
  linarith

/-- One statement `gamePoints += b` with a literal `b`. -/
theorem step_literal (g G b E1 : ℚ) (hg : |g - G| ≤ E1)
    (hG : |G| ≤ 48) (hb : |b| ≤ 16) (hE1 : E1 ≤ 1) :
    |toDouble (g + b) - (G + b)| ≤ E1 + 84 / 2 ^ 53 := by
  have h2 : |g + b - (G + b)| ≤ E1 := by
    rwa [add_sub_add_right_eq_sub]
  have h3 : |G + b| ≤ 64 := by
    have := abs_add G b
    linarith
  have h4 := toDouble_near (g + b) (G + b) E1 67 h2 (by linarith)
  have : (67 : ℚ) / 2 ^ 53 ≤ 84 / 2 ^ 53 := by norm_num
  linarith

/-- The statement `fantasyPoints += gamePoints`. -/
theorem final_add (fp g W E : ℚ) (hg : |g - W| ≤ E) (hW : |W| ≤ 48)
    (hE : E ≤ 448 / 2 ^ 53) :
    |toDouble (fp + g) - (fp + W)| ≤ (|fp| + 512) / 2 ^ 53 := by
  have h2 : |fp + g - (fp + W)| ≤ E := by
    rwa [add_sub_add_left_eq_sub]
  have h3 : |fp + W| ≤ |fp| + 48 := by
    have := abs_add fp W
    linarith
  have h5 : (448 : ℚ) / 2 ^ 53 ≤ 1 := by norm_num
  have h4 := toDouble_near (fp + g) (fp + W) E (|fp| + 49) h2 (by linarith)
  have h6 : (|fp| + 512) / 2 ^ 53 = (|fp| + 49) / 2 ^ 53 + 448 / 2 ^ 53 + 15 / 2 ^ 53 := by ring
  have h7 : (0 : ℚ) ≤ 15 / 2 ^ 53 := by norm_num
  linarith

theorem toDouble_tenth :
    toDouble (0.1) = 3602879701896397 / 36028797018963968 := by
  have := toDouble_eq_of (0.1) (-56) 7205759403792794
    (by norm_num [abs_of_pos]) (by norm_num [abs_of_pos]) (by norm_num [abs_lt])
  rw [this]
  norm_num

theorem toDouble_twentyfifth :
    toDouble (0.04) = 5764607523034235 / 144115188075855872 := by
  have := toDouble_eq_of (0.04) (-57) 5764607523034235
    (by norm_num [abs_of_pos]) (by norm_num [abs_of_pos]) (by norm_num [abs_lt])
  rw [this]
  norm_num

theorem toDouble_six :
    toDouble (6) = 6 := by
  have := toDouble_eq_of (6) (-50) 6755399441055744
    (by norm_num [abs_of_pos]) (by norm_num [abs_of_pos]) (by norm_num [abs_lt])
  rw [this]
  norm_num

theorem toDouble_r1 :
    toDouble (57 * (3602879701896397 / 36028797018963968)) = 6417629469002957 / 1125899906842624 := by
  have := toDouble_eq_of (57 * (3602879701896397 / 36028797018963968)) (-50) 6417629469002957
    (by norm_num [abs_of_pos]) (by norm_num [abs_of_pos]) (by norm_num [abs_lt])
  rw [this]
  norm_num

theorem toDouble_r3 :
    toDouble (6417629469002957 / 1125899906842624 + 6) = 3293257227514675 / 281474976710656 := by
  have := toDouble_eq_of_tie (6417629469002957 / 1125899906842624 + 6) (-49) 6586514455029350
    (by norm_num [abs_of_pos]) (by norm_num [abs_of_pos]) (by norm_num [abs_of_pos])
    (by decide)
  rw [this]
  norm_num

theorem toDouble_r5 :
    toDouble (117 * (3602879701896397 / 36028797018963968)) = 6586514455029351 / 562949953421312 := by
  have := toDouble_eq_of (117 * (3602879701896397 / 36028797018963968)) (-49) 6586514455029351
    (by norm_num [abs_of_pos]) (by norm_num [abs_of_pos]) (by norm_num [abs_lt])
  rw [this]
  norm_num

theorem toDouble_q1 :
    toDouble (353 * (5764607523034235 / 144115188075855872)) = 3974426671154463 / 281474976710656 := by
  have := toDouble_eq_of (353 * (5764607523034235 / 144115188075855872)) (-49) 7948853342308926
    (by norm_num [abs_of_pos]) (by norm_num [abs_of_pos]) (by norm_num [abs_lt])
  rw [this]
  norm_num

theorem toDouble_q2 :
    toDouble (3 * 4) = 12 := by
  have := toDouble_eq_of (3 * 4) (-49) 6755399441055744
    (by norm_num [abs_of_pos]) (by norm_num [abs_of_pos]) (by norm_num [abs_lt])
  rw [this]
  norm_num

theorem toDouble_q3 :
    toDouble (3974426671154463 / 281474976710656 + 12) = 7352126391682335 / 281474976710656 := by
  have := toDouble_eq_of (3974426671154463 / 281474976710656 + 12) (-48) 7352126391682335
    (by norm_num [abs_of_pos]) (by norm_num [abs_of_pos]) (by norm_num [abs_lt])
  rw [this]
  norm_num

theorem toDouble_q4 :
    toDouble (5 * (3602879701896397 / 36028797018963968)) = 1 / 2 := by
  have := toDouble_eq_of (5 * (3602879701896397 / 36028797018963968)) (-53) 4503599627370496
    (by norm_num [abs_of_pos]) (by norm_num [abs_of_pos]) (by norm_num [abs_lt])
  rw [this]
  norm_num

theorem toDouble_q5 :
    toDouble (7352126391682335 / 281474976710656 + 1 / 2) = 7492863880037663 / 281474976710656 := by
  have := toDouble_eq_of (7352126391682335 / 281474976710656 + 1 / 2) (-48) 7492863880037663
    (by norm_num [abs_of_pos]) (by norm_num [abs_of_pos]) (by norm_num [abs_lt])
  rw [this]
  norm_num

theorem toDouble_q6 :
    toDouble (7492863880037663 / 281474976710656 + 6) = 286928554384425 / 8796093022208 := by
  have := toDouble_eq_of_tie (7492863880037663 / 281474976710656 + 6) (-47) 4590856870150800
    (by norm_num [abs_of_pos]) (by norm_num [abs_of_pos]) (by norm_num [abs_of_neg])
    (by decide)
  rw [this]
  norm_num

/-! ## Matchups in `double` arithmetic -/

theorem toDouble_one : toDouble 1 = 1 := by
  have := toDouble_intCast 1 (by norm_num)
  simpa using this

theorem simulateGameLoop_rounded_defined (rng : Rng) (l : List PlayerPtr) (heap : Heap) (s : ℚ)
    (k : Nat) (hv : ∀ p ∈ l, p < heap.length) :
    ∃ gameScore heap' k', IEEE.Team.simulateGameLoop rng l heap s k = some (gameScore, heap', k') ∧
      heap'.length = heap.length := by
  induction l generalizing heap s k with
  | nil => exact ⟨_, _, _, rfl, rfl⟩
  | cons p rest ih =>
    have hp : p < heap.length := hv p (by simp)
    simp only [IEEE.Team.simulateGameLoop, List.getElem?_eq_getElem hp]
    obtain ⟨g, h', k', e, hl⟩ := ih (heap.set p (IEEE.Player.simulateGamePerformance heap[p] rng k).1)
      (toDouble (s + (IEEE.Player.simulateGamePerformance heap[p] rng k).1.fantasyPoints))
      (IEEE.Player.simulateGamePerformance heap[p] rng k).2
      (fun q hq => by simpa using hv q (by simp [hq]))
    exact ⟨g, h', k', e, by simpa using hl⟩

theorem simulateGame_rounded_defined (rng : Rng) (heap : Heap) (t : Team) (k : Nat)
    (hv : ∀ p ∈ t.activeLineup, p < heap.length) :
    ∃ gameScore heap' k',
      IEEE.Team.simulateGame rng heap t k =
        some (gameScore, heap',
          { t with totalPoints := toDouble (t.totalPoints + gameScore) }, k') ∧
      heap'.length = heap.length := by
  obtain ⟨gameScore, heap', k', hr, hl⟩ :=
    simulateGameLoop_rounded_defined rng t.activeLineup heap 0 k hv
  exact ⟨gameScore, heap', k', by simp [IEEE.Team.simulateGame, hr], hl⟩

/-- What `Matchup::simulate` does in `double` arithmetic when both lineups are
read as non-empty: the two games in order, the scores, and the two records. -/
theorem simulate_rounded_played (rng : Rng) (m : Matchup) (heap : Heap) (teams : List Team)
    (k : Nat) (home away : Team)
    (hh : teams[m.homeTeam]? = some home) (ha : teams[m.awayTeam]? = some away)
    (hne : m.homeTeam ≠ m.awayTeam)
    (hhl : home.getLineupSize ≠ 0) (hal : away.getLineupSize ≠ 0)
    (hhv : ∀ p ∈ home.activeLineup, p < heap.length)
    (hav : ∀ p ∈ away.activeLineup, p < heap.length) :
    ∃ homeScore heap1 k1 awayScore heap2 k2,
      IEEE.Team.simulateGame rng heap home k =
        some (homeScore, heap1,
          { home with totalPoints := toDouble (home.totalPoints + homeScore) }, k1) ∧
      IEEE.Team.simulateGame rng heap1 away k1 =
        some (awayScore, heap2,
          { away with totalPoints := toDouble (away.totalPoints + awayScore) }, k2) ∧
      IEEE.Matchup.simulate rng m heap teams k =
        some ({ m with homeScore := homeScore, awayScore := awayScore, isCompleted := true },
          heap2,
          (teams.set m.homeTeam
            (Team.updateRecord { home with totalPoints := toDouble (home.totalPoints + homeScore) }
              (decide (homeScore > awayScore)))).set m.awayTeam
            (Team.updateRecord { away with totalPoints := toDouble (away.totalPoints + awayScore) }
              (decide (awayScore > homeScore))),
          k2) := by
  obtain ⟨homeScore, heap1, k1, h1, hl1⟩ := simulateGame_rounded_defined rng heap home k hhv
  obtain ⟨awayScore, heap2, k2, h2, _⟩ :=
    simulateGame_rounded_defined rng heap1 away k1 (fun p hp => by rw [hl1]; exact hav p hp)
  have hhlt : m.homeTeam < teams.length := (List.getElem?_eq_some.1 hh).1
  have halt : m.awayTeam < teams.length := (List.getElem?_eq_some.1 ha).1
  have ha1 : (teams.set m.homeTeam
      { home with totalPoints := toDouble (home.totalPoints + homeScore) })[m.awayTeam]? =
        some away := by
    rw [List.getElem?_set]
    simp [hne, ha]
  refine ⟨homeScore, heap1, k1, awayScore, heap2, k2, h1, h2, ?_⟩
  simp only [IEEE.Matchup.simulate, hh, ha, hhl, hal, if_false, h1, ha1, h2]
  by_cases c1 : homeScore > awayScore
  · have c2 : ¬ awayScore > homeScore := not_lt.2 (le_of_lt c1)
    simp only [c1, c2, if_true, decide_True, decide_False]
    rw [set_set_modify_modify _ _ _ _ _ _ _ hne hhlt halt]
  · by_cases c2 : awayScore > homeScore
    · simp only [c1, c2, if_true, if_false, decide_True, decide_False]
      rw [set_set_modify_modify _ _ _ _ _ _ _ hne hhlt halt]
    · simp only [c1, c2, if_false, decide_False]
      rw [set_set_modify_modify _ _ _ _ _ _ _ hne hhlt halt]

/-- C13: in `double` arithmetic, when the two teams of a matchup are different
teams, both lineups are non-empty (with a size that fits `int`) and designate
players, `simulate` returns, and if the two scores it stored are equal, both
teams have one more loss and the same wins as before. -/
theorem simulate_tie_both_lose (rng : Rng) (m : Matchup) (heap : Heap) (teams : List Team)
    (k : Nat) (home away : Team)
    (hh : teams[m.homeTeam]? = some home) (ha : teams[m.awayTeam]? = some away)
    (hne : m.homeTeam ≠ m.awayTeam)
    (hhn : home.activeLineup ≠ []) (han : away.activeLineup ≠ [])
    (hhs : (home.activeLineup.length : Int) < 2147483648)
    (has : (away.activeLineup.length : Int) < 2147483648)
    (hhv : ∀ p ∈ home.activeLineup, p < heap.length)
    (hav : ∀ p ∈ away.activeLineup, p < heap.length) :
    ∃ m' heap' teams' k' home' away',
      IEEE.Matchup.simulate rng m heap teams k = some (m', heap', teams', k') ∧
      teams'[m.homeTeam]? = some home' ∧ teams'[m.awayTeam]? = some away' ∧
      (m'.homeScore = m'.awayScore →
        home'.losses = home.losses + 1 ∧ away'.losses = away.losses + 1 ∧
        home'.wins = home.wins ∧ away'.wins = away.wins) := by
  obtain ⟨homeScore, heap1, k1, awayScore, heap2, k2, _, _, h3⟩ :=
    simulate_rounded_played rng m heap teams k home away hh ha hne
      (getLineupSize_ne_zero home hhn hhs) (getLineupSize_ne_zero away han has) hhv hav
  have hhlt : m.homeTeam < teams.length := (List.getElem?_eq_some.1 hh).1
  have halt : m.awayTeam < teams.length := (List.getElem?_eq_some.1 ha).1
  refine ⟨_, _, _, _,
    Team.updateRecord { home with totalPoints := toDouble (home.totalPoints + homeScore) }
      (decide (homeScore > awayScore)),
    Team.updateRecord { away with totalPoints := toDouble (away.totalPoints + awayScore) }
      (decide (awayScore > homeScore)), h3, ?_, ?_, ?_⟩
  · rw [List.getElem?_set, List.getElem?_set]
    simp [Ne.symm hne, hhlt]
  · rw [List.getElem?_set]
    simp [halt]
  · intro he
    simp only at he
    subst he
    simp [Team.updateRecord]

/-- C13 at two teams that field one kicker each, on the draws of `Rng.lowest`:
each kicker scores 1 point. -/
theorem simulate_tie_both_lose_witness :
    (IEEE.Matchup.simulate Rng.lowest (Matchup.ctor 0 1) League.catalog
        [Team.kickerA, Team.kickerB] 0).map (fun r => (r.1.homeScore, r.1.awayScore))
      = some (1, 1) ∧
    ∃ m' heap' teams' k' home' away',
      IEEE.Matchup.simulate Rng.lowest (Matchup.ctor 0 1) League.catalog
        [Team.kickerA, Team.kickerB] 0 = some (m', heap', teams', k') ∧
      teams'[(Matchup.ctor 0 1).homeTeam]? = some home' ∧
      teams'[(Matchup.ctor 0 1).awayTeam]? = some away' ∧
      (m'.homeScore = m'.awayScore →
        home'.losses = Team.kickerA.losses + 1 ∧ away'.losses = Team.kickerB.losses + 1 ∧
        home'.wins = Team.kickerA.wins ∧ away'.wins = Team.kickerB.wins) :=
  ⟨by simp [IEEE.Matchup.simulate, Team.kickerA, Team.kickerB, Team.ctor, Team.getLineupSize,
      toInt32, IEEE.Team.simulateGame, IEEE.Team.simulateGameLoop, League.catalog, Player.ctor,
      IEEE.Player.simulateGamePerformance, Rng.lowest, Matchup.ctor, Team.updateRecord,
      toDouble_zero, toDouble_one],
   simulate_tie_both_lose Rng.lowest (Matchup.ctor 0 1) League.catalog
     [Team.kickerA, Team.kickerB] 0 Team.kickerA Team.kickerB rfl rfl (by decide) (by decide)
     (by decide) (by decide) (by decide) (by decide) (by decide)⟩

theorem receivers_draws : Rng.receivers 0 20 150 = 57 ∧ Rng.receivers 1 0 2 = 1 ∧
    Rng.receivers 2 20 150 = 117 ∧ Rng.receivers 3 0 2 = 0 := by
  decide

/-- The scores that `Matchup::simulate` compares are the rounded ones.  A home
team fields one wide receiver who draws 57 yards and 1 touchdown, an away team
one who draws 117 yards and no touchdown.  The weighted sums are both 11.7; the
stored scores are the doubles 3293257227514675 / 2^48 and
6586514455029351 / 2^49, the second one greater by 2^-49, and the away team gets
the win. -/
theorem simulate_rounded_scores_differ :
    (Rng.receivers 0 20 150 = 57 ∧ Rng.receivers 1 0 2 = 1 ∧
      Rng.receivers 2 20 150 = 117 ∧ Rng.receivers 3 0 2 = 0) ∧
    (0.1 * (57 : ℚ) + 6 * 1 = 0.1 * 117 + 6 * 0) ∧
    (IEEE.Matchup.simulate Rng.receivers (Matchup.ctor 0 1) League.catalog
        [Team.receiverA, Team.receiverB] 0).map
      (fun r => (r.1.homeScore, r.1.awayScore, r.2.2.1.map (fun t => (t.wins, t.losses))))
      = some (3293257227514675 / 281474976710656, 6586514455029351 / 562949953421312,
          [(0, 1), (1, 0)]) := by
  refine ⟨receivers_draws, by norm_num, ?_⟩
  simp [IEEE.Matchup.simulate, Team.receiverA, Team.receiverB, Team.ctor, Team.getLineupSize,
      toInt32, IEEE.Team.simulateGame, IEEE.Team.simulateGameLoop, League.catalog, Player.ctor,
      IEEE.Player.simulateGamePerformance, Matchup.ctor, Team.updateRecord,
      toDouble_zero, toDouble_idem, receivers_draws]
  rw [toDouble_tenth, toDouble_r1, toDouble_six, toDouble_r3, toDouble_r5]
  norm_num

/-! ## One simulated game in `double` arithmetic -/

theorem toDouble_int_add (m n : Int) (h : |m + n| < 2 ^ 53) :
    toDouble ((m : ℚ) + n) = (m : ℚ) + n := by
  have := toDouble_intCast (m + n) h
  push_cast at this
  exact this

theorem toDouble_int_mul (m n : Int) (h : |m * n| < 2 ^ 53) :
    toDouble ((m : ℚ) * n) = (m : ℚ) * n := by
  have := toDouble_intCast (m * n) h
  push_cast at this
  exact this

theorem pointsAllowedBonus_int (pointsAllowed : Int) :
    ∃ c : Int, -4 ≤ c ∧ c ≤ 10 ∧ pointsAllowedBonus pointsAllowed = c := by
  unfold pointsAllowedBonus
  split_ifs
  · exact ⟨10, by norm_num, by norm_num, by norm_num⟩
  · exact ⟨7, by norm_num, by norm_num, by norm_num⟩
  · exact ⟨4, by norm_num, by norm_num, by norm_num⟩
  · exact ⟨1, by norm_num, by norm_num, by norm_num⟩
  · exact ⟨0, by norm_num, by norm_num, by norm_num⟩
  · exact ⟨-1, by norm_num, by norm_num, by norm_num⟩
  · exact ⟨-4, by norm_num, by norm_num, by norm_num⟩

/-- The game points of a kicker are computed without rounding error when the
fantasy points are an integer of size at most 2^52. -/
theorem kicker_exact (z a b : Int) (ha : 0 ≤ a ∧ a ≤ 5) (hb : 1 ≤ b ∧ b ≤ 5)
    (hz : |z| ≤ 2 ^ 52) :
    toDouble ((z : ℚ) + toDouble (toDouble (0 + toDouble ((a : ℚ) * 3)) +
        toDouble ((b : ℚ) * 1))) = (z : ℚ) + (3 * (a : ℚ) + 1 * (b : ℚ)) := by
  rw [abs_le] at hz
  norm_num at hz
  have e1 := toDouble_int_mul a 3 (by rw [abs_lt]; constructor <;> norm_num <;> omega)
  have e2 := toDouble_int_mul b 1 (by rw [abs_lt]; constructor <;> norm_num <;> omega)
  have e3 := toDouble_int_add 0 (a * 3) (by rw [abs_lt]; constructor <;> norm_num <;> omega)
  have e4 := toDouble_int_add (0 + a * 3) (b * 1)
    (by rw [abs_lt]; constructor <;> norm_num <;> omega)
  have e5 := toDouble_int_add z (0 + a * 3 + b * 1)
    (by rw [abs_lt]; constructor <;> norm_num <;> omega)
  push_cast at e1 e2 e3 e4 e5
  rw [e1, e2, e3, e4, e5]
  ring

/-- The game points of a defense are computed without rounding error when the
fantasy points are an integer of size at most 2^52. -/
theorem defense_exact (z a b c n : Int) (ha : 0 ≤ a ∧ a ≤ 5) (hb : 0 ≤ b ∧ b ≤ 3)
    (hc : 0 ≤ c ∧ c ≤ 1) (hz : |z| ≤ 2 ^ 52) :
    toDouble ((z : ℚ) + toDouble (toDouble (toDouble (toDouble (0 + toDouble ((a : ℚ) * 1)) +
        toDouble ((b : ℚ) * 2)) + toDouble ((c : ℚ) * 6)) + pointsAllowedBonus n)) =
      (z : ℚ) + (1 * (a : ℚ) + 2 * (b : ℚ) + 6 * (c : ℚ) + pointsAllowedBonus n) := by
  obtain ⟨d, hd1, hd2, hd⟩ := pointsAllowedBonus_int n
  rw [hd]
  rw [abs_le] at hz
  norm_num at hz
  have e1 := toDouble_int_mul a 1 (by rw [abs_lt]; constructor <;> norm_num <;> omega)
  have e2 := toDouble_int_mul b 2 (by rw [abs_lt]; constructor <;> norm_num <;> omega)
  have e3 := toDouble_int_mul c 6 (by rw [abs_lt]; constructor <;> norm_num <;> omega)
  have e4 := toDouble_int_add 0 (a * 1) (by rw [abs_lt]; constructor <;> norm_num <;> omega)
  have e5 := toDouble_int_add (0 + a * 1) (b * 2)
    (by rw [abs_lt]; constructor <;> norm_num <;> omega)
  have e6 := toDouble_int_add (0 + a * 1 + b * 2) (c * 6)
    (by rw [abs_lt]; constructor <;> norm_num <;> omega)
  have e7 := toDouble_int_add (0 + a * 1 + b * 2 + c * 6) d
    (by rw [abs_lt]; constructor <;> norm_num <;> omega)
  have e8 := toDouble_int_add z (0 + a * 1 + b * 2 + c * 6 + d)
    (by rw [abs_lt]; constructor <;> norm_num <;> omega)
  push_cast at e1 e2 e3 e4 e5 e6 e7 e8
  rw [e1, e2, e3, e4, e5, e6, e7, e8]
  ring

theorem quarterback_inRange : Rng.quarterback.InRange := by
  intro k lo hi h
  unfold Rng.quarterback
  generalize (if k = 0 then (353 : Int) else if k = 1 then 3 else if k = 2 then 0
    else if k = 3 then 5 else if k = 4 then 1 else 0) = x
  omega

theorem quarterback_draws : Rng.quarterback 0 150 400 = 353 ∧ Rng.quarterback 1 0 4 = 3 ∧
    Rng.quarterback 2 0 3 = 0 ∧ Rng.quarterback 3 0 50 = 5 ∧ Rng.quarterback 4 0 1 = 1 := by
  decide

/-- C11 (the claim fails): the draws of `Rng.quarterback` lie in their ranges; on
its draws 353, 3, 0, 5 and 1 the weighted sum of the table is 1631/50 = 32.62,
and one game takes the first quarterback of the catalog from 0 fantasy points to
the double 286928554384425 / 2^43 = 32.620000000000004547..., which is not 0
plus the weighted sum. -/
theorem simulateGamePerformance_not_exact :
    Rng.quarterback.InRange ∧
    (Player.ctor 1 "Patrick Mahomes" Position.QUARTERBACK "Kansas City").fantasyPoints = 0 ∧
    (Rng.quarterback 0 150 400 = 353 ∧ Rng.quarterback 1 0 4 = 3 ∧
      Rng.quarterback 2 0 3 = 0 ∧ Rng.quarterback 3 0 50 = 5 ∧ Rng.quarterback 4 0 1 = 1) ∧
    (0.04 * (Rng.quarterback 0 150 400 : ℚ) + 4 * (Rng.quarterback 1 0 4 : ℚ)
      - 2 * (Rng.quarterback 2 0 3 : ℚ) + 0.1 * (Rng.quarterback 3 0 50 : ℚ)
      + 6 * (Rng.quarterback 4 0 1 : ℚ)) = 1631 / 50 ∧
    (IEEE.Player.simulateGamePerformance
      (Player.ctor 1 "Patrick Mahomes" Position.QUARTERBACK "Kansas City")
      Rng.quarterback 0).1.fantasyPoints = 286928554384425 / 8796093022208 ∧
    (IEEE.Player.simulateGamePerformance
      (Player.ctor 1 "Patrick Mahomes" Position.QUARTERBACK "Kansas City")
      Rng.quarterback 0).1.fantasyPoints ≠
      (Player.ctor 1 "Patrick Mahomes" Position.QUARTERBACK "Kansas City").fantasyPoints +
        (0.04 * (Rng.quarterback 0 150 400 : ℚ) + 4 * (Rng.quarterback 1 0 4 : ℚ)
          - 2 * (Rng.quarterback 2 0 3 : ℚ) + 0.1 * (Rng.quarterback 3 0 50 : ℚ)
          + 6 * (Rng.quarterback 4 0 1 : ℚ)) := by
  have hv : (IEEE.Player.simulateGamePerformance
      (Player.ctor 1 "Patrick Mahomes" Position.QUARTERBACK "Kansas City")
      Rng.quarterback 0).1.fantasyPoints = 286928554384425 / 8796093022208 := by
    simp [IEEE.Player.simulateGamePerformance, Player.ctor, quarterback_draws, toDouble_zero,
      toDouble_idem]
    rw [toDouble_twentyfifth, toDouble_q1, toDouble_q2, toDouble_q3, toDouble_tenth,
      toDouble_q4, toDouble_q5, toDouble_six, toDouble_q6]
  refine ⟨quarterback_inRange, rfl, quarterback_draws, ?_, hv, ?_⟩
  · norm_num [quarterback_draws]
  · rw [hv]
    norm_num [quarterback_draws, Player.ctor]

/-- The rounding error of the game points of a quarterback. -/
theorem quarterback_rounding (fp y1 y2 y3 y4 y5 : ℚ)
    (h1 : 150 ≤ y1 ∧ y1 ≤ 400) (h2 : 0 ≤ y2 ∧ y2 ≤ 4) (h3 : 0 ≤ y3 ∧ y3 ≤ 3)
    (h4 : 0 ≤ y4 ∧ y4 ≤ 50) (h5 : 0 ≤ y5 ∧ y5 ≤ 1) :
    |toDouble (fp + toDouble (toDouble (toDouble (toDouble (toDouble (0 +
        toDouble (y1 * toDouble 0.04)) + toDouble (y2 * 4)) - toDouble (y3 * 2)) +
        toDouble (y4 * toDouble 0.1)) + toDouble (y5 * 6))) -
      (fp + (0.04 * y1 + 4 * y2 - 2 * y3 + 0.1 * y4 + 6 * y5))| ≤ (|fp| + 512) / 2 ^ 53 := by
  have t1 := term_near y1 400 0.04 (by linarith) h1.2
  have t4 := term_near y4 50 0.1 (by linarith) h4.2
  have s1 := step_add 0 0 _ _ 0 _ (by simp) t1 (by norm_num)
    (abs_le.2 ⟨by linarith, by linarith⟩) (by norm_num) (by norm_num [abs_of_pos])
  have s2 := step_add _ _ (y2 * 4) (y2 * 4) _ 0 s1
    (by simp) (abs_le.2 ⟨by linarith, by linarith⟩) (abs_le.2 ⟨by linarith, by linarith⟩)
    (by norm_num [abs_of_pos]) (by norm_num)
  have s3 := step_sub _ _ (y3 * 2) (y3 * 2) _ 0 s2
    (by simp) (abs_le.2 ⟨by linarith, by linarith⟩) (abs_le.2 ⟨by linarith, by linarith⟩)
    (by norm_num [abs_of_pos]) (by norm_num)
  have s4 := step_add _ _ _ _ _ _ s3 t4
    (abs_le.2 ⟨by linarith, by linarith⟩) (abs_le.2 ⟨by linarith, by linarith⟩)
    (by norm_num [abs_of_pos]) (by norm_num [abs_of_pos])
  have s5 := step_add _ _ (y5 * 6) (y5 * 6) _ 0 s4
    (by simp) (abs_le.2 ⟨by linarith, by linarith⟩) (abs_le.2 ⟨by linarith, by linarith⟩)
    (by norm_num [abs_of_pos]) (by norm_num)
  have s6 := final_add fp _ _ _ s5 (abs_le.2 ⟨by linarith, by linarith⟩)
    (by norm_num [abs_of_pos])
  have e : (0.04 * y1 + 4 * y2 - 2 * y3 + 0.1 * y4 + 6 * y5) =
      0 + y1 * 0.04 + y2 * 4 - y3 * 2 + y4 * 0.1 + y5 * 6 := by ring
  rw [e]
  exact s6

/-- The rounding error of the game points of a running back. -/
theorem runningBack_rounding (fp y1 y2 y3 y4 : ℚ)
    (h1 : 30 ≤ y1 ∧ y1 ≤ 150) (h2 : 0 ≤ y2 ∧ y2 ≤ 2) (h3 : 0 ≤ y3 ∧ y3 ≤ 50)
    (h4 : 0 ≤ y4 ∧ y4 ≤ 1) :
    |toDouble (fp + toDouble (toDouble (toDouble (toDouble (0 +
        toDouble (y1 * toDouble 0.1)) + toDouble (y2 * 6)) +
        toDouble (y3 * toDouble 0.1)) + toDouble (y4 * 6))) -
      (fp + (0.1 * y1 + 6 * y2 + 0.1 * y3 + 6 * y4))| ≤ (|fp| + 512) / 2 ^ 53 := by
  have t1 := term_near y1 150 0.1 (by linarith) h1.2
  have t3 := term_near y3 50 0.1 (by linarith) h3.2
  have s1 := step_add 0 0 _ _ 0 _ (by simp) t1 (by norm_num)
    (abs_le.2 ⟨by linarith, by linarith⟩) (by norm_num) (by norm_num [abs_of_pos])
  have s2 := step_add _ _ (y2 * 6) (y2 * 6) _ 0 s1
    (by simp) (abs_le.2 ⟨by linarith, by linarith⟩) (abs_le.2 ⟨by linarith, by linarith⟩)
    (by norm_num [abs_of_pos]) (by norm_num)
  have s3 := step_add _ _ _ _ _ _ s2 t3
    (abs_le.2 ⟨by linarith, by linarith⟩) (abs_le.2 ⟨by linarith, by linarith⟩)
    (by norm_num [abs_of_pos]) (by norm_num [abs_of_pos])
  have s4 := step_add _ _ (y4 * 6) (y4 * 6) _ 0 s3
    (by simp) (abs_le.2 ⟨by linarith, by linarith⟩) (abs_le.2 ⟨by linarith, by linarith⟩)
    (by norm_num [abs_of_pos]) (by norm_num)
  have s6 := final_add fp _ _ _ s4 (abs_le.2 ⟨by linarith, by linarith⟩)
    (by norm_num [abs_of_pos])
  have e : (0.1 * y1 + 6 * y2 + 0.1 * y3 + 6 * y4) =
      0 + y1 * 0.1 + y2 * 6 + y3 * 0.1 + y4 * 6 := by ring
  rw [e]
  exact s6

/-- The rounding error of the game points of a wide receiver or a tight end. -/
theorem receiver_rounding (fp y1 y2 : ℚ) (h1 : 0 ≤ y1 ∧ y1 ≤ 150) (h2 : 0 ≤ y2 ∧ y2 ≤ 2) :
    |toDouble (fp + toDouble (toDouble (0 + toDouble (y1 * toDouble 0.1)) +
        toDouble (y2 * 6))) -
      (fp + (0.1 * y1 + 6 * y2))| ≤ (|fp| + 512) / 2 ^ 53 := by
  have t1 := term_near y1 150 0.1 h1.1 h1.2
  have s1 := step_add 0 0 _ _ 0 _ (by simp) t1 (by norm_num)
    (abs_le.2 ⟨by linarith, by linarith⟩) (by norm_num) (by norm_num [abs_of_pos])
  have s2 := step_add _ _ (y2 * 6) (y2 * 6) _ 0 s1
    (by simp) (abs_le.2 ⟨by linarith, by linarith⟩) (abs_le.2 ⟨by linarith, by linarith⟩)
    (by norm_num [abs_of_pos]) (by norm_num)
  have s6 := final_add fp _ _ _ s2 (abs_le.2 ⟨by linarith, by linarith⟩)
    (by norm_num [abs_of_pos])
  have e : (0.1 * y1 + 6 * y2) = 0 + y1 * 0.1 + y2 * 6 := by ring
  rw [e]
  exact s6

/-- The rounding error of the game points of a kicker. -/
theorem kicker_rounding (fp y1 y2 : ℚ) (h1 : 0 ≤ y1 ∧ y1 ≤ 5) (h2 : 1 ≤ y2 ∧ y2 ≤ 5) :
    |toDouble (fp + toDouble (toDouble (0 + toDouble (y1 * 3)) + toDouble (y2 * 1))) -
      (fp + (3 * y1 + 1 * y2))| ≤ (|fp| + 512) / 2 ^ 53 := by
  have s1 := step_add 0 0 (y1 * 3) (y1 * 3) 0 0 (by simp)
    (by simp) (by norm_num) (abs_le.2 ⟨by linarith, by linarith⟩) (by norm_num) (by norm_num)
  have s2 := step_add _ _ (y2 * 1) (y2 * 1) _ 0 s1
    (by simp) (abs_le.2 ⟨by linarith, by linarith⟩) (abs_le.2 ⟨by linarith, by linarith⟩)
    (by norm_num) (by norm_num)
  have s6 := final_add fp _ _ _ s2 (abs_le.2 ⟨by linarith, by linarith⟩)
    (by norm_num)
  have e : (3 * y1 + 1 * y2) = 0 + y1 * 3 + y2 * 1 := by ring
  rw [e]
  exact s6

/-- The rounding error of the game points of a defense. -/
theorem defense_rounding (fp y1 y2 y3 b : ℚ) (h1 : 0 ≤ y1 ∧ y1 ≤ 5) (h2 : 0 ≤ y2 ∧ y2 ≤ 3)
    (h3 : 0 ≤ y3 ∧ y3 ≤ 1) (h4 : -4 ≤ b) (h5 : b ≤ 10) :
    |toDouble (fp + toDouble (toDouble (toDouble (toDouble (0 + toDouble (y1 * 1)) +
        toDouble (y2 * 2)) + toDouble (y3 * 6)) + b)) -
      (fp + (1 * y1 + 2 * y2 + 6 * y3 + b))| ≤ (|fp| + 512) / 2 ^ 53 := by
  have s1 := step_add 0 0 (y1 * 1) (y1 * 1) 0 0 (by simp)
    (by simp) (by norm_num) (abs_le.2 ⟨by linarith, by linarith⟩) (by norm_num) (by norm_num)
  have s2 := step_add _ _ (y2 * 2) (y2 * 2) _ 0 s1
    (by simp) (abs_le.2 ⟨by linarith, by linarith⟩) (abs_le.2 ⟨by linarith, by linarith⟩)
    (by norm_num) (by norm_num)
  have s3 := step_add _ _ (y3 * 6) (y3 * 6) _ 0 s2
    (by simp) (abs_le.2 ⟨by linarith, by linarith⟩) (abs_le.2 ⟨by linarith, by linarith⟩)
    (by norm_num) (by norm_num)
  have s4 := step_literal _ _ b _ s3
    (abs_le.2 ⟨by linarith, by linarith⟩) (abs_le.2 ⟨by linarith, by linarith⟩)
    (by norm_num)
  have s6 := final_add fp _ _ _ s4 (abs_le.2 ⟨by linarith, by linarith⟩)
    (by norm_num)
  have e : (1 * y1 + 2 * y2 + 6 * y3 + b) = 0 + y1 * 1 + y2 * 2 + y3 * 6 + b := by ring
  rw [e]
  exact s6

/-- C11 (amended): on draws that lie in their ranges, one call of
`simulateGamePerformance` in `double` arithmetic adds every drawn value to its
counter, leaves the other members but `fantasyPoints` alone, adds 1 to
`gamesPlayed`, and sets `fantasyPoints` to a value that differs from the old
`fantasyPoints` plus the weighted sum of the draws of the position by no more
than `(|fantasyPoints| + 512) / 2^53`; the weights are 0.04, 4, -2, 0.1 and 6 for
a quarterback, 0.1, 6, 0.1 and 6 for a running back, 0.1 and 6 for a wide
receiver and a tight end, 3 and 1 for a kicker, 1, 2 and 6 plus the
points-allowed bonus for a defense.  For a kicker and a defense, whose weights
are integers, the new `fantasyPoints` is the old one plus the weighted sum
without any error when the old one is an integer of size at most 2^52. -/
theorem simulateGamePerformance_effect (p : Player) (rng : Rng) (k : Nat) (hr : rng.InRange) :
    (p.position = Position.QUARTERBACK →
      (IEEE.Player.simulateGamePerformance p rng k).1 =
        { p with gamesPlayed := p.gamesPlayed + 1,
                 passingYards := p.passingYards + rng k 150 400,
                 passingTouchdowns := p.passingTouchdowns + rng (k + 1) 0 4,
                 interceptions := p.interceptions + rng (k + 2) 0 3,
                 rushingYards := p.rushingYards + rng (k + 3) 0 50,
                 rushingTouchdowns := p.rushingTouchdowns + rng (k + 4) 0 1,
                 fantasyPoints := (IEEE.Player.simulateGamePerformance p rng k).1.fantasyPoints } ∧
      |(IEEE.Player.simulateGamePerformance p rng k).1.fantasyPoints -
          (p.fantasyPoints +
            (0.04 * (rng k 150 400 : ℚ) + 4 * (rng (k + 1) 0 4 : ℚ)
              - 2 * (rng (k + 2) 0 3 : ℚ) + 0.1 * (rng (k + 3) 0 50 : ℚ)
              + 6 * (rng (k + 4) 0 1 : ℚ)))| ≤ (|p.fantasyPoints| + 512) / 2 ^ 53) ∧
    (p.position = Position.RUNNING_BACK →
      (IEEE.Player.simulateGamePerformance p rng k).1 =
        { p with gamesPlayed := p.gamesPlayed + 1,
                 rushingYards := p.rushingYards + rng k 30 150,
                 rushingTouchdowns := p.rushingTouchdowns + rng (k + 1) 0 2,
                 receivingYards := p.receivingYards + rng (k + 2) 0 50,
                 receivingTouchdowns := p.receivingTouchdowns + rng (k + 3) 0 1,
                 fantasyPoints := (IEEE.Player.simulateGamePerformance p rng k).1.fantasyPoints } ∧
      |(IEEE.Player.simulateGamePerformance p rng k).1.fantasyPoints -
          (p.fantasyPoints +
            (0.1 * (rng k 30 150 : ℚ) + 6 * (rng (k + 1) 0 2 : ℚ)
              + 0.1 * (rng (k + 2) 0 50 : ℚ) + 6 * (rng (k + 3) 0 1 : ℚ)))| ≤
        (|p.fantasyPoints| + 512) / 2 ^ 53) ∧
    (p.position = Position.WIDE_RECEIVER →
      (IEEE.Player.simulateGamePerformance p rng k).1 =
        { p with gamesPlayed := p.gamesPlayed + 1,
                 receivingYards := p.receivingYards + rng k 20 150,
                 receivingTouchdowns := p.receivingTouchdowns + rng (k + 1) 0 2,
                 fantasyPoints := (IEEE.Player.simulateGamePerformance p rng k).1.fantasyPoints } ∧
      |(IEEE.Player.simulateGamePerformance p rng k).1.fantasyPoints -
          (p.fantasyPoints +
            (0.1 * (rng k 20 150 : ℚ) + 6 * (rng (k + 1) 0 2 : ℚ)))| ≤
        (|p.fantasyPoints| + 512) / 2 ^ 53) ∧
    (p.position = Position.TIGHT_END →
      (IEEE.Player.simulateGamePerformance p rng k).1 =
        { p with gamesPlayed := p.gamesPlayed + 1,
                 receivingYards := p.receivingYards + rng k 10 100,
                 receivingTouchdowns := p.receivingTouchdowns + rng (k + 1) 0 1,
                 fantasyPoints := (IEEE.Player.simulateGamePerformance p rng k).1.fantasyPoints } ∧
      |(IEEE.Player.simulateGamePerformance p rng k).1.fantasyPoints -
          (p.fantasyPoints +
            (0.1 * (rng k 10 100 : ℚ) + 6 * (rng (k + 1) 0 1 : ℚ)))| ≤
        (|p.fantasyPoints| + 512) / 2 ^ 53) ∧
    (p.position = Position.KICKER →
      (IEEE.Player.simulateGamePerformance p rng k).1 =
        { p with gamesPlayed := p.gamesPlayed + 1,
                 fieldGoals := p.fieldGoals + rng k 0 5,
                 extraPoints := p.extraPoints + rng (k + 1) 1 5,
                 fantasyPoints := (IEEE.Player.simulateGamePerformance p rng k).1.fantasyPoints } ∧
      |(IEEE.Player.simulateGamePerformance p rng k).1.fantasyPoints -
          (p.fantasyPoints +
            (3 * (rng k 0 5 : ℚ) + 1 * (rng (k + 1) 1 5 : ℚ)))| ≤
        (|p.fantasyPoints| + 512) / 2 ^ 53 ∧
      (∀ z : Int, p.fantasyPoints = z → |z| ≤ 2 ^ 52 →
        (IEEE.Player.simulateGamePerformance p rng k).1.fantasyPoints =
          p.fantasyPoints + (3 * (rng k 0 5 : ℚ) + 1 * (rng (k + 1) 1 5 : ℚ)))) ∧
    (p.position = Position.DEFENSE →
      (IEEE.Player.simulateGamePerformance p rng k).1 =
        { p with gamesPlayed := p.gamesPlayed + 1,
                 sacks := p.sacks + rng k 0 5,
                 defensiveInterceptions := p.defensiveInterceptions + rng (k + 1) 0 3,
                 defensiveTouchdowns := p.defensiveTouchdowns + rng (k + 2) 0 1,
                 fantasyPoints := (IEEE.Player.simulateGamePerformance p rng k).1.fantasyPoints } ∧
      |(IEEE.Player.simulateGamePerformance p rng k).1.fantasyPoints -
          (p.fantasyPoints +
            (1 * (rng k 0 5 : ℚ) + 2 * (rng (k + 1) 0 3 : ℚ)
              + 6 * (rng (k + 2) 0 1 : ℚ)
              + pointsAllowedBonus (rng (k + 3) 0 35)))| ≤
        (|p.fantasyPoints| + 512) / 2 ^ 53 ∧
      (∀ z : Int, p.fantasyPoints = z → |z| ≤ 2 ^ 52 →
        (IEEE.Player.simulateGamePerformance p rng k).1.fantasyPoints =
          p.fantasyPoints +
            (1 * (rng k 0 5 : ℚ) + 2 * (rng (k + 1) 0 3 : ℚ)
              + 6 * (rng (k + 2) 0 1 : ℚ)
              + pointsAllowedBonus (rng (k + 3) 0 35)))) := by
  refine ⟨?_, ?_, ?_, ?_, ?_, ?_⟩ <;> intro h <;>
    refine ⟨by simp only [IEEE.Player.simulateGamePerformance, h], ?_⟩ <;>
    simp only [IEEE.Player.simulateGamePerformance, h]
  · have h1 := Rng.InRange.cast rng hr k 150 400 (by norm_num)
    have h2 := Rng.InRange.cast rng hr (k + 1) 0 4 (by norm_num)
    have h3 := Rng.InRange.cast rng hr (k + 2) 0 3 (by norm_num)
    have h4 := Rng.InRange.cast rng hr (k + 3) 0 50 (by norm_num)
    have h5 := Rng.InRange.cast rng hr (k + 4) 0 1 (by norm_num)
    push_cast at h1 h2 h3 h4 h5
    exact quarterback_rounding _ _ _ _ _ _ h1 h2 h3 h4 h5
  · have h1 := Rng.InRange.cast rng hr k 30 150 (by norm_num)
    have h2 := Rng.InRange.cast rng hr (k + 1) 0 2 (by norm_num)
    have h3 := Rng.InRange.cast rng hr (k + 2) 0 50 (by norm_num)
    have h4 := Rng.InRange.cast rng hr (k + 3) 0 1 (by norm_num)
    push_cast at h1 h2 h3 h4
    exact runningBack_rounding _ _ _ _ _ h1 h2 h3 h4
  · have h1 := Rng.InRange.cast rng hr k 20 150 (by norm_num)
    have h2 := Rng.InRange.cast rng hr (k + 1) 0 2 (by norm_num)
    push_cast at h1 h2
    exact receiver_rounding _ _ _ ⟨by linarith, h1.2⟩ h2
  · have h1 := Rng.InRange.cast rng hr k 10 100 (by norm_num)
    have h2 := Rng.InRange.cast rng hr (k + 1) 0 1 (by norm_num)
    push_cast at h1 h2
    exact receiver_rounding _ _ _ ⟨by linarith, by linarith⟩ ⟨h2.1, by linarith⟩
  · have h1 := Rng.InRange.cast rng hr k 0 5 (by norm_num)
    have h2 := Rng.InRange.cast rng hr (k + 1) 1 5 (by norm_num)
    push_cast at h1 h2
    refine ⟨kicker_rounding _ _ _ h1 h2, ?_⟩
    intro z hz hzb
    rw [hz]
    exact kicker_exact z _ _ (hr k 0 5 (by norm_num)) (hr (k + 1) 1 5 (by norm_num)) hzb
  · have h1 := Rng.InRange.cast rng hr k 0 5 (by norm_num)
    have h2 := Rng.InRange.cast rng hr (k + 1) 0 3 (by norm_num)
    have h3 := Rng.InRange.cast rng hr (k + 2) 0 1 (by norm_num)
    push_cast at h1 h2 h3
    refine ⟨defense_rounding _ _ _ _ _ h1 h2 h3 (pointsAllowedBonus_ge _)
      (pointsAllowedBonus_le _), ?_⟩
    intro z hz hzb
    rw [hz]
    exact defense_exact z _ _ _ _ (hr k 0 5 (by norm_num)) (hr (k + 1) 0 3 (by norm_num))
      (hr (k + 2) 0 1 (by norm_num)) hzb

/-- C11 (amended) at the first quarterback of the catalog, on the draws of
`Rng.quarterback`. -/
theorem simulateGamePerformance_effect_witness :
    Rng.quarterback.InRange ∧
    (IEEE.Player.simulateGamePerformance
        (Player.ctor 1 "Patrick Mahomes" Position.QUARTERBACK "Kansas City")
        Rng.quarterback 0).1 =
      { Player.ctor 1 "Patrick Mahomes" Position.QUARTERBACK "Kansas City" with
          gamesPlayed := 0 + 1,
          passingYards := 0 + Rng.quarterback 0 150 400,
          passingTouchdowns := 0 + Rng.quarterback (0 + 1) 0 4,
          interceptions := 0 + Rng.quarterback (0 + 2) 0 3,
          rushingYards := 0 + Rng.quarterback (0 + 3) 0 50,
          rushingTouchdowns := 0 + Rng.quarterback (0 + 4) 0 1,
          fantasyPoints := (IEEE.Player.simulateGamePerformance
            (Player.ctor 1 "Patrick Mahomes" Position.QUARTERBACK "Kansas City")
            Rng.quarterback 0).1.fantasyPoints } ∧
    |(IEEE.Player.simulateGamePerformance
        (Player.ctor 1 "Patrick Mahomes" Position.QUARTERBACK "Kansas City")
        Rng.quarterback 0).1.fantasyPoints -
      ((0 : ℚ) +
        (0.04 * (Rng.quarterback 0 150 400 : ℚ) + 4 * (Rng.quarterback (0 + 1) 0 4 : ℚ)
          - 2 * (Rng.quarterback (0 + 2) 0 3 : ℚ) + 0.1 * (Rng.quarterback (0 + 3) 0 50 : ℚ)
          + 6 * (Rng.quarterback (0 + 4) 0 1 : ℚ)))| ≤ (|(0 : ℚ)| + 512) / 2 ^ 53 :=
  ⟨quarterback_inRange,
   (simulateGamePerformance_effect
     (Player.ctor 1 "Patrick Mahomes" Position.QUARTERBACK "Kansas City")
     Rng.quarterback 0 quarterback_inRange).1 rfl⟩
